import Mathlib

/-! Laptop battery charger: bit-banged SMBus transport and battery monitoring loop.

A shallow embedding of `My_Ugly_C_Code/monitor_battery.c` (and of the State-of-Charge
read of `Cairo Fuel Gauge/application.c` and the enable sequence and current read of
`My_Ugly_C_Code/read_battery.c`, whose bus functions are textually the same).

* Every GPIO primitive, delay and `system` call of the C program appends one `Effect` to
  the `trace` of the `World`; the functions of the C program become functions on `World`.
* The levels returned by `digitalRead` come from an environment `env : Nat → Bool`:
  `env k` is the level seen by the `k`-th read of the run (`World.reads` counts them).
* The `int` values stay far below `2^31` everywhere, so they are modelled by `Nat` / `Int`
  without wrap-around; `unsigned short` is reduced modulo `2^16`; plain `char` is
  reduced by `toChar`, with the signedness of the target ABI (`charIsSigned`).
* The `system` call returns: the program goes on after it, as the C program does until
  the operating system stops it.
-/

namespace BatteryMonitor

/-! # Part 1: definitions -/

/-! ## Data model -/

/-- The GPIO pins named by the `#define`s of monitor_battery.c (lines 62-67). -/
inductive Pin
  | clock
  | data
  | lcd_pwr
  | led_cntrl
  | charge_dis
  | lcd_status
  deriving DecidableEq, Repr

/-- The only command ever passed to `system`: `sudo shutdown -h now`. -/
inductive Command
  | shutdownNow
  deriving DecidableEq, Repr

/-- The bus functions of the C program. Entering one is recorded in the trace (a ghost
marker: it drives no pin), so that the order of the calls can be read back. -/
inductive BusFn
  | setupbus
  | startbus
  | send8 (sendbits : Int)
  | sendrptstart
  | read16
  | stopbus
  deriving DecidableEq, Repr

/-- One observable step of the program. -/
inductive Effect
  | go_z (pin : Pin)
  | go_0 (pin : Pin)
  | go_1 (pin : Pin)
  | read_pin (pin : Pin) (level : Bool)
  | delayMicroseconds (us : Nat)
  | delay (ms : Nat)
  | system (command : Command)
  | wiringPiSetupGpio
  | piHiPri (priority : Nat)
  | enter (f : BusFn)
  deriving DecidableEq, Repr

/-- The levels the pins are read at: `env k` is what the `k`-th `digitalRead` returns. -/
abbrev Env := Nat → Bool

/-- The global state of the C program together with its observable history. -/
structure World where
  /-- The global `_Bool error` (line 73). -/
  error : Bool
  /-- How many pin reads have been made so far. -/
  reads : Nat
  /-- Effects so far, oldest first. -/
  trace : List Effect

/-- The quarter period in microseconds (`#define quarter 10`). -/
def quarter : Nat := 10

/-- Signedness of plain `char`. The program is built on the Raspberry Pi with GCC
(wiringPi), whose ARM Linux ABI makes plain `char` unsigned. -/
def charIsSigned : Bool := false

/-- Conversion of an `int` value to `char` (8 bits), for either signedness. -/
def toChar (isSigned : Bool) (v : Int) : Int :=
  if isSigned then (v + 128) % 256 - 128 else v % 256

/-- The `&` of two `int` values (32 bits, two's complement). -/
def intAnd (a b : Int) : Int :=
  if Nat.land (a % 2 ^ 32).toNat (b % 2 ^ 32).toNat < 2 ^ 31 then
    (Nat.land (a % 2 ^ 32).toNat (b % 2 ^ 32).toNat : Int)
  else
    (Nat.land (a % 2 ^ 32).toNat (b % 2 ^ 32).toNat : Int) - 2 ^ 32

/-- The `int` value (0 or 1) of a C comparison or of a `_Bool`. -/
def cInt (b : Bool) : Nat := if b then 1 else 0

/-! ## Line driver (lines 76-97) -/

/-- Append one effect to the history. -/
def emit (e : Effect) (w : World) : World :=
  { w with trace := w.trace ++ [e] }

/-- Function `go_z(pin)`: float the pin. -/
def go_z (pin : Pin) (w : World) : World := emit (Effect.go_z pin) w

/-- Function `go_0(pin)`: drive the pin low. -/
def go_0 (pin : Pin) (w : World) : World := emit (Effect.go_0 pin) w

/-- Function `go_1(pin)`: drive the pin high. -/
def go_1 (pin : Pin) (w : World) : World := emit (Effect.go_1 pin) w

/-- Function `read_pin(pin)`: set the pin as input and return its level. -/
def read_pin (env : Env) (pin : Pin) (w : World) : Bool × World :=
  (env w.reads,
    { w with reads := w.reads + 1, trace := w.trace ++ [Effect.read_pin pin (env w.reads)] })

/-- The wiringPi call `delayMicroseconds(us)`. -/
def delayMicroseconds (us : Nat) (w : World) : World := emit (Effect.delayMicroseconds us) w

/-- The wiringPi call `delay(ms)`. -/
def delay (ms : Nat) (w : World) : World := emit (Effect.delay ms) w

/-- The call `system("sudo shutdown -h now")`: it returns and the program goes on. -/
def system (c : Command) (w : World) : World := emit (Effect.system c) w

/-! ## Bus transport (lines 99-222) -/

/-- Function `setupbus` (lines 99-106). -/
def setupbus (w : World) : World :=
  let w := emit (Effect.enter BusFn.setupbus) w
  let w := emit Effect.wiringPiSetupGpio w
  let w := emit (Effect.piHiPri 99) w
  let w := go_z Pin.clock w
  let w := go_z Pin.data w
  delayMicroseconds 200 w

/-- Function `startbus` (lines 108-115). -/
def startbus (w : World) : World :=
  let w := emit (Effect.enter BusFn.startbus) w
  let w := delayMicroseconds 1000 w
  let w := go_0 Pin.data w
  let w := delayMicroseconds quarter w
  let w := go_0 Pin.clock w
  delayMicroseconds (4 * quarter) w

/-- The `for` loop of `send8` (lines 122-136): `n` iterations are left (the counter `j`
runs from 0 to 7, so the loop is entered with `n = 8`), `mask` is the `char` mask. -/
def send8Loop (isSigned : Bool) (sendbits : Int) : Nat → Int → World → World
  | 0, _, w => w
  | n + 1, mask, w =>
    let w := if intAnd sendbits mask = 0 then go_0 Pin.data w else go_z Pin.data w
    let w := delayMicroseconds quarter w
    let w := go_z Pin.clock w
    let w := delayMicroseconds (quarter * 2) w
    let w := go_0 Pin.clock w
    let w := delayMicroseconds quarter w
    send8Loop isSigned sendbits n (toChar isSigned (mask >>> 1)) w

/-- Function `send8` (lines 117-150) for a given signedness of `char`; `arg` is the `int` value
of the argument expression, converted to the `char` parameter `sendbits`. -/
def send8With (isSigned : Bool) (arg : Int) (env : Env) (w : World) : World :=
  let sendbits := toChar isSigned arg
  let w := emit (Effect.enter (BusFn.send8 sendbits)) w
  let mask := toChar isSigned 0x80
  let w := send8Loop isSigned sendbits 8 mask w
  let w := delayMicroseconds (quarter * 4) w
  let w := go_z Pin.data w
  let w := delayMicroseconds quarter w
  let w := go_z Pin.clock w
  let r := read_pin env Pin.data w
  let w := if r.1 then { r.2 with error := true } else r.2
  let w := delayMicroseconds (quarter * 2) w
  let w := go_0 Pin.clock w
  let w := go_0 Pin.data w
  delayMicroseconds (quarter * 90) w

/-- Function `send8` as compiled for the target. -/
def send8 (arg : Int) (env : Env) (w : World) : World :=
  send8With charIsSigned arg env w

/-- Function `sendrptstart` (lines 152-162). -/
def sendrptstart (w : World) : World :=
  let w := emit (Effect.enter BusFn.sendrptstart) w
  let w := go_z Pin.data w
  let w := delayMicroseconds (quarter * 8) w
  let w := go_z Pin.clock w
  let w := delayMicroseconds (quarter * 2) w
  let w := go_0 Pin.data w
  let w := delayMicroseconds (quarter * 2) w
  let w := go_0 Pin.clock w
  delayMicroseconds (quarter * 16) w

/-- The two `for` loops of `read16` (lines 169-180 and 192-203): `n` iterations are left
(each loop is entered with `n = 8`); the state is `(readval, mask)`. -/
def read16Loop (env : Env) : Nat → Nat → Nat → World → Nat × World
  | 0, readval, _, w => (readval, w)
  | n + 1, readval, mask, w =>
    let w := go_z Pin.data w
    let w := delayMicroseconds quarter w
    let r := read_pin env Pin.data w
    let readval := if r.1 then readval ||| mask else readval
    let mask := mask >>> 1
    let w := go_z Pin.clock r.2
    let w := delayMicroseconds (quarter * 2) w
    let w := go_0 Pin.clock w
    let w := delayMicroseconds quarter w
    read16Loop env n readval mask w

/-- Function `read16` (lines 164-214): returns the word and the new world. -/
def read16 (env : Env) (w : World) : Nat × World :=
  let w := emit (Effect.enter BusFn.read16) w
  let r := read16Loop env 8 0x00 0x80 w
  let w := delayMicroseconds (quarter * 2) r.2
  let w := go_0 Pin.data w
  let w := delayMicroseconds quarter w
  let w := go_z Pin.clock w
  let w := delayMicroseconds (quarter * 2) w
  let w := go_0 Pin.clock w
  let w := go_0 Pin.data w
  let w := delayMicroseconds (quarter * 40) w
  let r := read16Loop env 8 r.1 0x8000 w
  let w := delayMicroseconds (quarter * 2) r.2
  let w := go_z Pin.data w
  let w := delayMicroseconds quarter w
  let w := go_z Pin.clock w
  let w := delayMicroseconds (quarter * 2) w
  let w := go_0 Pin.clock w
  let w := go_0 Pin.data w
  let w := delayMicroseconds (quarter * 8) w
  (r.1, w)

/-- Function `stopbus` (lines 216-222). -/
def stopbus (w : World) : World :=
  let w := emit (Effect.enter BusFn.stopbus) w
  let w := go_z Pin.clock w
  let w := delayMicroseconds quarter w
  let w := go_z Pin.data w
  delayMicroseconds (quarter * 30) w

/-! ## Monitoring loop of monitor_battery.c (lines 243-392) -/

/-- The local variables of `main` that are read before being written in an iteration.
(`soc` and `bat_stat` are assigned in every iteration before they are used, so they are
values of the iteration.) -/
structure Locals where
  /-- The `int old_soc` (line 239). -/
  old_soc : Int
  /-- The `_Bool bad_bat_stat` (line 241). -/
  bad_bat_stat : Bool
  /-- The `char over_temp_count` (line 242). -/
  over_temp_count : Int

/-- Lines 248-252: the vendor sequence that enables a Dell battery for charging. -/
def enableDellBattery (env : Env) (w : World) : World :=
  let w := send8 0x16 env w
  let w := send8 0x00 env w
  let w := send8 0x0A env w
  let w := send8 0x00 env w
  stopbus w

/-- Lines 255-273: read the battery status word, and read it again when it is all
ones or a NACK was seen. Returns `bat_stat` (an `unsigned short`). -/
def readBatteryStatus (env : Env) (w : World) : Nat × World :=
  let w := { w with error := false }
  let w := startbus w
  let w := send8 0x16 env w
  let w := send8 0x16 env w
  let w := sendrptstart w
  let w := send8 0x17 env w
  let r := read16 env w
  let bat_stat := r.1 % 65536
  let w := stopbus r.2
  if cInt (bat_stat == 0xffff) ||| cInt w.error ≠ 0 then
    let w := { w with error := false }
    let w := startbus w
    let w := send8 0x16 env w
    let w := send8 0x16 env w
    let w := sendrptstart w
    let w := send8 0x17 env w
    let r := read16 env w
    let bat_stat := r.1 % 65536
    let w := stopbus r.2
    (bat_stat, w)
  else
    (bat_stat, w)

/-- Lines 274-293: flag a bad status read, else count consecutive over-temperature
loops and shut down on the fourth. -/
def checkStatus (l : Locals) (bat_stat : Nat) (w : World) : Locals × World :=
  if cInt (bat_stat == 0xffff) ||| cInt w.error ≠ 0 then
    let w := go_1 Pin.led_cntrl w
    ({ l with bad_bat_stat := true }, w)
  else if bat_stat &&& 0x1000 = 0x1000 then
    let l := { l with bad_bat_stat := false }
    let l := { l with over_temp_count := toChar charIsSigned (l.over_temp_count + 1) }
    if l.over_temp_count ≥ 4 then
      (l, system Command.shutdownNow w)
    else
      (l, w)
  else
    ({ l with over_temp_count := 0, bad_bat_stat := false }, w)

/-- Lines 322-352: the action chosen from the new and the previous State of Charge. -/
def socRules (soc old_soc : Int) (w : World) : World :=
  if cInt (decide (soc ≤ 8)) &&& cInt (decide (old_soc ≤ 10)) ≠ 0 then
    system Command.shutdownNow w
  else if cInt (decide (soc ≤ 10)) &&& cInt (decide (old_soc ≤ 12)) ≠ 0 then
    let w := go_0 Pin.lcd_pwr w
    let w := delay 250 w
    let w := go_z Pin.lcd_pwr w
    let w := delay 2000 w
    let w := go_0 Pin.lcd_pwr w
    let w := delay 250 w
    let w := go_z Pin.lcd_pwr w
    go_1 Pin.led_cntrl w
  else if cInt (decide (soc ≤ 15)) &&& cInt (decide (old_soc ≤ 17)) ≠ 0 then
    let w := go_0 Pin.led_cntrl w
    let w := delay 1000 w
    go_1 Pin.led_cntrl w
  else
    let w := go_1 Pin.led_cntrl w
    let w := delay 1000 w
    go_0 Pin.led_cntrl w

/-- Lines 299-316: read the Relative State of Charge, and read it again when it is
150 or more or a NACK was seen. Returns `soc` (an `int`). -/
def readSoc (env : Env) (w : World) : Int × World :=
  let w := { w with error := false }
  let w := startbus w
  let w := send8 0x16 env w
  let w := send8 0x0d env w
  let w := sendrptstart w
  let w := send8 0x17 env w
  let r := read16 env w
  let soc : Int := r.1
  let w := stopbus r.2
  if cInt (decide (soc ≥ 150)) ||| cInt w.error ≠ 0 then
    let w := startbus w
    let w := send8 0x16 env w
    let w := send8 0x0d env w
    let w := sendrptstart w
    let w := send8 0x17 env w
    let r := read16 env w
    let soc : Int := r.1
    let w := stopbus r.2
    (soc, w)
  else
    (soc, w)

/-- Lines 296-354: the branch taken when the discharge bit is set with a good status. -/
def dischargeBranch (env : Env) (l : Locals) (w : World) : Locals × World :=
  let w := go_0 Pin.charge_dis w
  let r := readSoc env w
  let soc := r.1
  let w := socRules soc l.old_soc r.2
  ({ l with old_soc := soc }, w)

/-- Lines 356-389: the branch taken otherwise ("charger is plugged in"). -/
def chargerBranch (l : Locals) (bat_stat : Nat) (w : World) : World :=
  if cInt (bat_stat &&& 0x0020 == 0x0020) &&& cInt (!l.bad_bat_stat) ≠ 0 then
    let w := go_1 Pin.charge_dis w
    let w := go_1 Pin.led_cntrl w
    let w := delay 250 w
    let w := go_0 Pin.led_cntrl w
    let w := delay 250 w
    let w := go_1 Pin.led_cntrl w
    let w := delay 250 w
    let w := go_0 Pin.led_cntrl w
    let w := delay 250 w
    let w := go_1 Pin.led_cntrl w
    let w := delay 250 w
    go_0 Pin.led_cntrl w
  else if !l.bad_bat_stat then
    let w := go_0 Pin.charge_dis w
    let w := go_1 Pin.led_cntrl w
    let w := delay 333 w
    let w := go_0 Pin.led_cntrl w
    let w := delay 333 w
    let w := go_1 Pin.led_cntrl w
    let w := delay 333 w
    go_0 Pin.led_cntrl w
  else
    go_0 Pin.charge_dis w

/-- Lines 295-389: the charger logic, entered after the status has been checked. -/
def chargerLogic (env : Env) (l : Locals) (bat_stat : Nat) (w : World) : Locals × World :=
  if cInt (bat_stat &&& 0x0040 == 0x0040) &&& cInt (!l.bad_bat_stat) ≠ 0 then
    dischargeBranch env l w
  else
    (l, chargerBranch l bat_stat w)

/-- One iteration of the `while(1)` loop (lines 245-391). -/
def cycle (env : Env) (l : Locals) (w : World) : Locals × World :=
  let w := enableDellBattery env w
  let r := readBatteryStatus env w
  let bat_stat := r.1
  let s := checkStatus l bat_stat r.2
  let s := chargerLogic env s.1 bat_stat s.2
  (s.1, delay 29000 s.2)

/-- The first `n` iterations of the loop. -/
def cycles (env : Env) : Nat → Locals → World → Locals × World
  | 0, l, w => (l, w)
  | n + 1, l, w =>
    let s := cycle env l w
    cycles env n s.1 s.2

/-- Lines 238-242: the initial values of the locals. -/
def initLocals : Locals :=
  { old_soc := 50, bad_bat_stat := false, over_temp_count := 0 }

/-! ## The timer event of the fuel gauge (application.c, lines 196-212) -/

/-- Function `application_on_timer_event`, up to the assignment of the global `soc`: read the
Relative State of Charge, once more when it is 150 or more or a NACK was seen. -/
def application_on_timer_event (env : Env) (w : World) : Int × World :=
  let w := { w with error := false }
  let w := startbus w
  let w := send8 0x16 env w
  let w := send8 0x0d env w
  let w := sendrptstart w
  let w := send8 0x17 env w
  let r := read16 env w
  let soc : Int := r.1
  let w := stopbus r.2
  if cInt (decide (soc ≥ 150)) ||| cInt w.error ≠ 0 then
    let w := startbus w
    let w := send8 0x16 env w
    let w := send8 0x0d env w
    let w := sendrptstart w
    let w := send8 0x17 env w
    let r := read16 env w
    let soc : Int := r.1
    let w := stopbus r.2
    (soc, w)
  else
    (soc, w)

/-! ## Observables -/

/-- The effects appended to the history between world `w` and a later world `w1`. -/
def emitted (w w1 : World) : List Effect := w1.trace.drop w.trace.length

/-- How the program holds a pin. -/
inductive Drive
  | released
  | low
  | high
  deriving DecidableEq, Repr

/-- The drive of `pin` after one effect (`read_pin` makes the pin an input). -/
def driveStep (pin : Pin) (d : Drive) : Effect → Drive
  | Effect.go_z p => if p = pin then Drive.released else d
  | Effect.go_0 p => if p = pin then Drive.low else d
  | Effect.go_1 p => if p = pin then Drive.high else d
  | Effect.read_pin p _ => if p = pin then Drive.released else d
  | _ => d

/-- The drive of `pin` after the effects `es`, when it was `d` before them. -/
def driveAfter (pin : Pin) (d : Drive) (es : List Effect) : Drive :=
  es.foldl (driveStep pin) d

/-- The four actions of the State-of-Charge rules. -/
inductive SocAction
  | shutdown
  | blinkWarning
  | ledWarning
  | heartbeat
  deriving DecidableEq, Repr

/-- What each action of the State-of-Charge rules does (lines 324, 331-339, 343-345,
349-351), as it is seen in the history. -/
def SocAction.effects : SocAction → List Effect
  | SocAction.shutdown => [Effect.system Command.shutdownNow]
  | SocAction.blinkWarning =>
    [Effect.go_0 Pin.lcd_pwr, Effect.delay 250, Effect.go_z Pin.lcd_pwr, Effect.delay 2000,
      Effect.go_0 Pin.lcd_pwr, Effect.delay 250, Effect.go_z Pin.lcd_pwr,
      Effect.go_1 Pin.led_cntrl]
  | SocAction.ledWarning =>
    [Effect.go_0 Pin.led_cntrl, Effect.delay 1000, Effect.go_1 Pin.led_cntrl]
  | SocAction.heartbeat =>
    [Effect.go_1 Pin.led_cntrl, Effect.delay 1000, Effect.go_0 Pin.led_cntrl]

/-- Action `a` fires in the step from `w` to `w1`: the step does exactly the effects of
`a`, and nothing else. -/
def Fires (a : SocAction) (w w1 : World) : Prop := emitted w w1 = a.effects

instance (a : SocAction) (w w1 : World) : Decidable (Fires a w w1) := by
  unfold Fires; infer_instance

/-! ## The bus functions in closed form -/

/-- The world `w` after the further effects `es`. -/
def World.extend (w : World) (es : List Effect) : World :=
  { w with trace := w.trace ++ es }

/-- The levels seen by `n` successive reads, the first of which is read number `r`. -/
def samples (env : Env) (r : Nat) : Nat → List Bool
  | 0 => []
  | n + 1 => env r :: samples env (r + 1) n

/-- The effects of `startbus`. -/
def startbusEffects : List Effect :=
  [Effect.enter BusFn.startbus, Effect.delayMicroseconds 1000, Effect.go_0 Pin.data,
    Effect.delayMicroseconds 10, Effect.go_0 Pin.clock, Effect.delayMicroseconds 40]

/-- The effects of `stopbus`. -/
def stopbusEffects : List Effect :=
  [Effect.enter BusFn.stopbus, Effect.go_z Pin.clock, Effect.delayMicroseconds 10,
    Effect.go_z Pin.data, Effect.delayMicroseconds 300]

/-- The effects of `sendrptstart`. -/
def sendrptstartEffects : List Effect :=
  [Effect.enter BusFn.sendrptstart, Effect.go_z Pin.data, Effect.delayMicroseconds 80,
    Effect.go_z Pin.clock, Effect.delayMicroseconds 20, Effect.go_0 Pin.data,
    Effect.delayMicroseconds 20, Effect.go_0 Pin.clock, Effect.delayMicroseconds 160]

/-- The clock pulse that ends every iteration of the bit loops. -/
def clockPulse : List Effect :=
  [Effect.go_z Pin.clock, Effect.delayMicroseconds 20, Effect.go_0 Pin.clock,
    Effect.delayMicroseconds 10]

/-- The effects of the `for` loop of `send8`. -/
def send8LoopEffects (isSigned : Bool) (sendbits : Int) : Nat → Int → List Effect
  | 0, _ => []
  | n + 1, mask =>
    (if intAnd sendbits mask = 0 then Effect.go_0 Pin.data else Effect.go_z Pin.data) ::
      Effect.delayMicroseconds 10 :: clockPulse ++
        send8LoopEffects isSigned sendbits n (toChar isSigned (mask >>> 1))

/-- The effects of the acknowledge phase of `send8`, when the data line is read at `ack`. -/
def send8AckEffects (ack : Bool) : List Effect :=
  [Effect.delayMicroseconds 40, Effect.go_z Pin.data, Effect.delayMicroseconds 10,
    Effect.go_z Pin.clock, Effect.read_pin Pin.data ack, Effect.delayMicroseconds 20,
    Effect.go_0 Pin.clock, Effect.go_0 Pin.data, Effect.delayMicroseconds 900]

/-- The effects of `send8`, when the data line is read at `ack` in the acknowledge phase. -/
def send8Effects (isSigned : Bool) (arg : Int) (ack : Bool) : List Effect :=
  Effect.enter (BusFn.send8 (toChar isSigned arg)) ::
    send8LoopEffects isSigned (toChar isSigned arg) 8 (toChar isSigned 0x80) ++
      send8AckEffects ack

/-- The effects of a `for` loop of `read16` that reads the levels `levels`. -/
def read16LoopEffects : List Bool → List Effect
  | [] => []
  | lv :: levels =>
    Effect.go_z Pin.data :: Effect.delayMicroseconds 10 :: Effect.read_pin Pin.data lv ::
      clockPulse ++ read16LoopEffects levels

/-- The value of `readval` after a `for` loop of `read16` that reads the levels `levels`. -/
def read16LoopValue : List Bool → Nat → Nat → Nat
  | [], readval, _ => readval
  | lv :: levels, readval, mask =>
    read16LoopValue levels (if lv then readval ||| mask else readval) (mask >>> 1)

/-- The effects between the two loops of `read16`: the low byte is acknowledged. -/
def read16AckEffects : List Effect :=
  [Effect.delayMicroseconds 20, Effect.go_0 Pin.data, Effect.delayMicroseconds 10,
    Effect.go_z Pin.clock, Effect.delayMicroseconds 20, Effect.go_0 Pin.clock,
    Effect.go_0 Pin.data, Effect.delayMicroseconds 400]

/-- The effects after the second loop of `read16`: the high byte is not acknowledged. -/
def read16NackEffects : List Effect :=
  [Effect.delayMicroseconds 20, Effect.go_z Pin.data, Effect.delayMicroseconds 10,
    Effect.go_z Pin.clock, Effect.delayMicroseconds 20, Effect.go_0 Pin.clock,
    Effect.go_0 Pin.data, Effect.delayMicroseconds 80]

/-- The effects of `read16` that reads the levels `lo` and then the levels `hi`. -/
def read16Effects (lo hi : List Bool) : List Effect :=
  Effect.enter BusFn.read16 :: read16LoopEffects lo ++ read16AckEffects ++
    read16LoopEffects hi ++ read16NackEffects

/-- The value returned by `read16` that reads the levels `lo` and then the levels `hi`. -/
def read16Value (lo hi : List Bool) : Nat :=
  read16LoopValue hi (read16LoopValue lo 0x00 0x80) 0x8000

/-! ## Bus transactions touch the bus only -/

/-- The effect is a step of the bus transport: it touches no pin other than `clock` and
`data`, and it is neither a `delay` of the loop nor a `system` call. -/
def Effect.onBus : Effect → Bool
  | Effect.go_z p => decide (p = Pin.clock ∨ p = Pin.data)
  | Effect.go_0 p => decide (p = Pin.clock ∨ p = Pin.data)
  | Effect.go_1 p => decide (p = Pin.clock ∨ p = Pin.data)
  | Effect.read_pin p _ => decide (p = Pin.clock ∨ p = Pin.data)
  | Effect.delayMicroseconds _ => true
  | Effect.enter _ => true
  | Effect.wiringPiSetupGpio => true
  | Effect.piHiPri _ => true
  | Effect.delay _ => false
  | Effect.system _ => false

/-- From `w` to `w1` the history grows by steps of the bus transport only. -/
def BusStep (w w1 : World) : Prop :=
  ∃ es : List Effect, w1.trace = w.trace ++ es ∧ es.all Effect.onBus = true

/-- The register read of the specification (section 4.3): Start, Send-Byte(write
address), Send-Byte(register pointer), Repeated-Start, Send-Byte(read address),
Read-Word, Stop. It returns the word read. -/
def registerRead (ptr : Int) (env : Env) (w : World) : Nat × World :=
  let w := startbus w
  let w := send8 0x16 env w
  let w := send8 ptr env w
  let w := sendrptstart w
  let w := send8 0x17 env w
  let r := read16 env w
  (r.1, stopbus r.2)

/-! ## Concrete inputs -/

/-- A world with an empty history, used to evaluate the program on concrete inputs. -/
def World.start : World := { error := false, reads := 0, trace := [] }

/-! ### Definitions for C3: over-temperature debounce -/

/-- The status word used by the cycle that starts in `w`, and the world after the status
read (lines 248-273). -/
def cycleStatus (env : Env) (w : World) : Nat × World :=
  readBatteryStatus env (enableDellBattery env w)

/-- The status read `r` is flagged bad by the test of line 274: the word is all ones or
the error flag is set. -/
def StatusBad (r : Nat × World) : Prop := r.1 = 0xffff ∨ r.2.error = true

instance (r : Nat × World) : Decidable (StatusBad r) := by
  unfold StatusBad; infer_instance

/-- The cycle that starts in `w` has a good status read with bit 0x1000 set. -/
def OverTemp (env : Env) (w : World) : Prop :=
  ¬ StatusBad (cycleStatus env w) ∧ (cycleStatus env w).1 &&& 0x1000 = 0x1000

instance (env : Env) (w : World) : Decidable (OverTemp env w) := by
  unfold OverTemp; infer_instance

/-- The cycle that starts in `w` has a good status read with bit 0x1000 clear. -/
def NotOverTemp (env : Env) (w : World) : Prop :=
  ¬ StatusBad (cycleStatus env w) ∧ (cycleStatus env w).1 &&& 0x1000 ≠ 0x1000

instance (env : Env) (w : World) : Decidable (NotOverTemp env w) := by
  unfold NotOverTemp; infer_instance

/-- The over-temperature rule issues the shutdown in the cycle that starts in `(l, w)`:
the status check of lines 274-293 makes the `system` call. -/
def overTempShutdown (env : Env) (l : Locals) (w : World) : Prop :=
  Effect.system Command.shutdownNow ∈
    emitted (cycleStatus env w).2 (checkStatus l (cycleStatus env w).1 (cycleStatus env w).2).2

instance (env : Env) (l : Locals) (w : World) : Decidable (overTempShutdown env l w) := by
  unfold overTempShutdown; infer_instance

/-- An environment in which every cycle reads the status word 0x1000 with every byte
acknowledged (a cycle that is neither discharging nor bad makes 23 reads). -/
def envOverTemp : Env := fun k => decide (k % 23 = 18)

/-- As `envOverTemp` for three cycles, then the status word is 0x0000. -/
def envOverTempThenClean : Env := fun k => decide (k % 23 = 18 ∧ k < 69)

/-- An environment in which every cycle reads the status word 0x1040 (over temperature
and discharging) and the State of Charge 0, with every byte acknowledged (a discharging
cycle with no retry makes 42 reads). -/
def envOverTempDischarging : Env := fun k => decide (k % 42 = 8 ∨ k % 42 = 18)

/-! ### Definitions for C4: the retry policy -/

/-- The bus functions entered, in order, among the effects `es`. -/
def calls (es : List Effect) : List BusFn :=
  es.filterMap (fun e => match e with
    | Effect.enter f => some f
    | _ => none)

/-- The calls of one register read with register pointer `ptr`. -/
def registerReadCalls (ptr : Int) : List BusFn :=
  [BusFn.startbus, BusFn.send8 0x16, BusFn.send8 ptr, BusFn.sendrptstart, BusFn.send8 0x17,
    BusFn.read16, BusFn.stopbus]

/-- The effects of one register read: `a1`, `a2`, `a3` are the levels read in the three
acknowledge phases, `lo` and `hi` the levels read for the two bytes. -/
def registerReadEffects (ptr : Int) (a1 a2 a3 : Bool) (lo hi : List Bool) : List Effect :=
  startbusEffects ++ (send8Effects charIsSigned 0x16 a1 ++
    (send8Effects charIsSigned ptr a2 ++ (sendrptstartEffects ++
      (send8Effects charIsSigned 0x17 a3 ++ (read16Effects lo hi ++ stopbusEffects)))))

/-- An environment in which every read is low: every byte is acknowledged and every word
read is 0. -/
def envLow : Env := fun _ => false

/-- An environment in which every read is high: no byte is acknowledged and every word
read is 0xFFFF (a battery that is silent or not connected). -/
def envHigh : Env := fun _ => true

/-- The world with the error flag cleared (`error = 0;`). -/
abbrev World.clearError (w : World) : World := { w with error := false }

/-- The first attempt of the status read started in `w`. -/
def statusFirst (env : Env) (w : World) : Nat × World :=
  registerRead 0x16 env w.clearError

/-- The second attempt of the status read started in `w`. -/
def statusSecond (env : Env) (w : World) : Nat × World :=
  registerRead 0x16 env (statusFirst env w).2.clearError

/-- The first attempt of the State-of-Charge read started in `w`. -/
def socFirst (env : Env) (w : World) : Nat × World :=
  registerRead 0x0d env w.clearError

/-- The second attempt of the State-of-Charge read started in `w`. -/
def socSecond (env : Env) (w : World) : Nat × World :=
  registerRead 0x0d env (socFirst env w).2

/-! ### Definitions for C5: send8 presents its argument most-significant bit first -/

/-- The level of a line as the program holds it: released is 1 (the pull-up), asserted
low is 0. -/
def Drive.level : Drive → Bool
  | Drive.released => true
  | Drive.low => false
  | Drive.high => true

/-- The clock-high windows produced by the effects `es`: a window opens when the clock is
released (`go_z(clock)`) and closes when it is driven low (`go_0(clock)`). For each
window the result lists the level of the data line at its opening and after every
further effect inside it. `dat` is the drive of the data line before `es`, `cur` the
levels of the window that is open. -/
def clockHighWindows : Drive → Option (List Bool) → List Effect → List (List Bool)
  | _, _, [] => []
  | dat, none, e :: es =>
    if e = Effect.go_z Pin.clock then
      clockHighWindows (driveStep Pin.data dat e) (some [(driveStep Pin.data dat e).level]) es
    else
      clockHighWindows (driveStep Pin.data dat e) none es
  | dat, some lv, e :: es =>
    if e = Effect.go_0 Pin.clock then
      lv :: clockHighWindows (driveStep Pin.data dat e) none es
    else
      clockHighWindows (driveStep Pin.data dat e)
        (some (lv ++ [(driveStep Pin.data dat e).level])) es

/-- The level read in a window, when it is the same all through the window. -/
def stableLevel : List Bool → Option Bool
  | [] => none
  | x :: xs => if xs.all (fun y => y == x) then some x else none

/-- The bits 7 down to 0 of `b`. -/
def bitsMSB (b : Nat) : List Bool :=
  [b.testBit 7, b.testBit 6, b.testBit 5, b.testBit 4, b.testBit 3, b.testBit 2,
    b.testBit 1, b.testBit 0]

/-- The number whose binary digits are `bits`, most significant first. -/
def byteOfBits (bits : List Bool) : Nat :=
  bits.foldl (fun acc bit => 2 * acc + cInt bit) 0

/-- The levels at which the `for` loop of `send8` holds the data line, one per
iteration: low when the test `!(sendbits & mask)` of line 123 succeeds. -/
def send8LoopBits (isSigned : Bool) (sendbits : Int) : Nat → Int → List Bool
  | 0, _ => []
  | n + 1, mask =>
    (!decide (intAnd sendbits mask = 0)) ::
      send8LoopBits isSigned sendbits n (toChar isSigned (mask >>> 1))

/-! ### Definitions for C6: read16 assembles the word low byte first -/

/-- The levels read from the data line, in order, among the effects `es`. -/
def sampledLevels (es : List Effect) : List Bool :=
  es.filterMap (fun e => match e with
    | Effect.read_pin Pin.data lv => some lv
    | _ => none)

/-! ### Definitions for C7: round trip through the bit-level framing -/

/-- An environment that supplies the levels `levels`, and 1 (the pull-up) after them. -/
def envOfLevels (levels : List Bool) : Env := fun k => levels.getD k true

/-- The levels presented by sending the two bytes of 0xBEEF, low byte first. -/
def levelsBEEF : List Bool :=
  [true, true, true, false, true, true, true, true,
    true, false, true, true, true, true, true, false]

/-! ## The status check and the charger logic in closed form -/

/-- The effects of the status check (lines 274-293) on the status word `bat_stat`, with the
error flag at `err`. -/
def checkStatusEffects (l : Locals) (bat_stat : Nat) (err : Bool) : List Effect :=
  if bat_stat = 0xffff ∨ err = true then [Effect.go_1 Pin.led_cntrl]
  else if bat_stat &&& 0x1000 = 0x1000 ∧ toChar charIsSigned (l.over_temp_count + 1) ≥ 4 then
    [Effect.system Command.shutdownNow]
  else []

/-- The effects of the branch "fully charged" (lines 359-371). -/
def fullyChargedEffects : List Effect :=
  [Effect.go_1 Pin.charge_dis, Effect.go_1 Pin.led_cntrl, Effect.delay 250,
    Effect.go_0 Pin.led_cntrl, Effect.delay 250, Effect.go_1 Pin.led_cntrl, Effect.delay 250,
    Effect.go_0 Pin.led_cntrl, Effect.delay 250, Effect.go_1 Pin.led_cntrl, Effect.delay 250,
    Effect.go_0 Pin.led_cntrl]

/-- The effects of the branch "not fully charged but good status read" (lines 375-383). -/
def chargingEffects : List Effect :=
  [Effect.go_0 Pin.charge_dis, Effect.go_1 Pin.led_cntrl, Effect.delay 333,
    Effect.go_0 Pin.led_cntrl, Effect.delay 333, Effect.go_1 Pin.led_cntrl, Effect.delay 333,
    Effect.go_0 Pin.led_cntrl]

/-- The effects of the branch "error reading battery" (line 387). -/
def badReadEffects : List Effect := [Effect.go_0 Pin.charge_dis]

/-- The effects of the charger branch (lines 356-389). -/
def chargerBranchEffects (bad : Bool) (bat_stat : Nat) : List Effect :=
  if bat_stat &&& 0x0020 = 0x0020 ∧ bad = false then fullyChargedEffects
  else if bad = false then chargingEffects
  else badReadEffects

/-- The number of blinks of the LED among the effects `es`: the LED is turned on
(`go_1(led_cntrl)`) and later turned off (`go_0(led_cntrl)`); `lit` tells whether it has
been turned on among the effects before `es`. -/
def blinkCountFrom (lit : Bool) : List Effect → Nat
  | [] => 0
  | e :: es =>
    if e = Effect.go_1 Pin.led_cntrl then blinkCountFrom true es
    else if e = Effect.go_0 Pin.led_cntrl then (if lit then 1 else 0) + blinkCountFrom false es
    else blinkCountFrom lit es

/-- The number of blinks of the LED among the effects `es`. -/
def ledBlinks (es : List Effect) : Nat := blinkCountFrom false es

/-! ### Definitions for C8: charger logic, fully charged -/

/-- An environment in which the first cycle reads the status word 0x0060 (discharging
and fully charged) with every byte acknowledged. -/
def envDischargingFull : Env := fun k => decide (k = 8 ∨ k = 9)

/-- An environment in which the first cycle reads the status word 0x0020 (fully charged,
not discharging) with every byte acknowledged. -/
def envFull : Env := fun k => decide (k = 9)

/-- A shutdown is issued in the cycle that starts in `(l, w)`: the cycle makes the `system`
call, by whichever rule. -/
def shutdownIssued (env : Env) (l : Locals) (w : World) : Prop :=
  Effect.system Command.shutdownNow ∈ emitted w (cycle env l w).2

instance (env : Env) (l : Locals) (w : World) : Decidable (shutdownIssued env l w) := by
  unfold shutdownIssued; infer_instance

/-! ## The cycle in closed form -/

/-- The effects of the register read with pointer `ptr` whose first pin read is read
number `r` of the run. -/
def readAt (ptr : Int) (env : Env) (r : Nat) : List Effect :=
  registerReadEffects ptr (env r) (env (r + 1)) (env (r + 2)) (samples env (r + 3) 8)
    (samples env (r + 11) 8)

/-- The effects of the vendor enable sequence (lines 248-252): `a1` to `a4` are the levels
read in the four acknowledge phases. -/
def enableEffects (a1 a2 a3 a4 : Bool) : List Effect :=
  send8Effects charIsSigned 0x16 a1 ++ (send8Effects charIsSigned 0x00 a2 ++
    (send8Effects charIsSigned 0x0A a3 ++ (send8Effects charIsSigned 0x00 a4 ++
      stopbusEffects)))

/-- The effects of the vendor enable sequence whose first pin read is read number `r`. -/
def enableAt (env : Env) (r : Nat) : List Effect :=
  enableEffects (env r) (env (r + 1)) (env (r + 2)) (env (r + 3))

/-- The effects of the status read (lines 255-273) started in `w`: one register read, and
a second one when the first attempt is all ones or ends with the error flag set. -/
def statusReadEffects (env : Env) (w : World) : List Effect :=
  if StatusBad (statusFirst env w) then
    readAt 0x16 env w.reads ++ readAt 0x16 env (w.reads + 19)
  else
    readAt 0x16 env w.reads

/-- The first attempt of the State-of-Charge read is not accepted: the error flag is set
after it or the value is 150 or more (line 307). -/
def SocRetry (r : Nat × World) : Prop := r.2.error = true ∨ 150 ≤ r.1

instance (r : Nat × World) : Decidable (SocRetry r) := by
  unfold SocRetry; infer_instance

/-- The effects of the State-of-Charge read (lines 299-316) started in `w`. -/
def socReadEffects (env : Env) (w : World) : List Effect :=
  if SocRetry (socFirst env w) then
    readAt 0x0d env w.reads ++ readAt 0x0d env (w.reads + 19)
  else
    readAt 0x0d env w.reads

/-- The action chosen by the State-of-Charge rules (the tests of lines 322, 328, 341). -/
def socAction (soc old_soc : Int) : SocAction :=
  if soc ≤ 8 ∧ old_soc ≤ 10 then SocAction.shutdown
  else if soc ≤ 10 ∧ old_soc ≤ 12 then SocAction.blinkWarning
  else if soc ≤ 15 ∧ old_soc ≤ 17 then SocAction.ledWarning
  else SocAction.heartbeat

/-- The world in which the status read of the cycle started in `w` begins. -/
def cycleStatusStart (env : Env) (w : World) : World := enableDellBattery env w

/-- The locals and the world after the status check of the cycle started in `(l, w)`. -/
def cycleCheck (env : Env) (l : Locals) (w : World) : Locals × World :=
  checkStatus l (cycleStatus env w).1 (cycleStatus env w).2

/-- The world in which the State-of-Charge read of the cycle started in `(l, w)` begins,
when the cycle takes the discharge branch (after line 297). -/
def cycleSocStart (env : Env) (l : Locals) (w : World) : World :=
  go_0 Pin.charge_dis (cycleCheck env l w).2

/-- The value `soc` and the world after the State-of-Charge read of the cycle started in
`(l, w)`, when the cycle takes the discharge branch. -/
def cycleSoc (env : Env) (l : Locals) (w : World) : Int × World :=
  readSoc env (cycleSocStart env l w)

/-- The cycle started in `w` takes the discharge branch: the test of line 295 succeeds. -/
def Discharging (env : Env) (w : World) : Prop :=
  (cycleStatus env w).1 &&& 0x0040 = 0x0040 ∧ ¬ StatusBad (cycleStatus env w)

instance (env : Env) (w : World) : Decidable (Discharging env w) := by
  unfold Discharging; infer_instance

/-- The effects of the part of a cycle that follows the status check (lines 295-391). -/
def cycleTailEffects (env : Env) (l : Locals) (w : World) : List Effect :=
  if Discharging env w then
    Effect.go_0 Pin.charge_dis :: (socReadEffects env (cycleSocStart env l w) ++
      ((socAction (cycleSoc env l w).1 l.old_soc).effects ++ [Effect.delay 29000]))
  else
    chargerBranchEffects (decide (StatusBad (cycleStatus env w))) (cycleStatus env w).1 ++
      [Effect.delay 29000]

/-- The effects of the cycle started in `(l, w)`. -/
def cycleEffects (env : Env) (l : Locals) (w : World) : List Effect :=
  enableAt env w.reads ++ (statusReadEffects env (cycleStatusStart env w) ++
    (checkStatusEffects l (cycleStatus env w).1 (cycleStatus env w).2.error ++
      cycleTailEffects env l w))

/-- The calls of the vendor enable sequence (lines 248-252). -/
def enableCalls : List BusFn :=
  [BusFn.send8 0x16, BusFn.send8 0x00, BusFn.send8 0x0A, BusFn.send8 0x00, BusFn.stopbus]

/-- An environment in which the first status attempt of the first cycle is not
acknowledged (read 4 is high) and every other read is low. -/
def envRetryGood : Env := fun k => decide (k = 4)

/-- An environment in which the first cycle reads the status word 0x0040 (discharging)
with every byte acknowledged, and every later read is high: both attempts of the
State-of-Charge read are unacknowledged and read 0xFFFF. -/
def envSocGlitch : Env := fun k => decide (k = 8 ∨ 23 ≤ k)

/-- The effects that follow the first `system` call among `es` (none when there is no
such call). -/
def afterShutdown : List Effect → List Effect
  | [] => []
  | e :: es => if e = Effect.system Command.shutdownNow then es else afterShutdown es

/-- The effect acts on a pin: a bus, LED, LCD or charger action. -/
def Effect.isAction : Effect → Bool
  | Effect.go_z _ => true
  | Effect.go_0 _ => true
  | Effect.go_1 _ => true
  | Effect.read_pin _ _ => true
  | _ => false

/-- An environment in which the first cycle reads the status word 0x0040 (discharging) and
the State of Charge 0, with every byte acknowledged. -/
def envDischargingEmpty : Env := fun k => decide (k = 8)

/-! ## Delays -/

/-- The microseconds of a `delayMicroseconds` effect, 0 for any other effect. -/
def Effect.us : Effect → Nat
  | Effect.delayMicroseconds n => n
  | _ => 0

/-- The milliseconds of a `delay` effect, 0 for any other effect. -/
def Effect.ms : Effect → Nat
  | Effect.delay n => n
  | _ => 0

/-- The sum of the `delayMicroseconds` of `es`, in microseconds. -/
def usDelay (es : List Effect) : Nat := (es.map Effect.us).sum

/-- The sum of the `delay` of `es`, in milliseconds. -/
def msDelay (es : List Effect) : Nat := (es.map Effect.ms).sum

/-- The sum of all the delays of `es`, in microseconds. -/
def delayTotal (es : List Effect) : Nat := usDelay es + 1000 * msDelay es

/-- The milliseconds of `delay` in each action of the State-of-Charge rules. -/
def SocAction.ms : SocAction → Nat
  | SocAction.shutdown => 0
  | SocAction.blinkWarning => 2500
  | SocAction.ledWarning => 1000
  | SocAction.heartbeat => 1000

/-- The number of register reads of the status read started in `w`. -/
def statusReadCount (env : Env) (w : World) : Nat :=
  if StatusBad (statusFirst env w) then 2 else 1

/-- The number of register reads of the State-of-Charge read started in `w`. -/
def socReadCount (env : Env) (w : World) : Nat :=
  if SocRetry (socFirst env w) then 2 else 1

/-- The number of register reads of the cycle started in `(l, w)`. -/
def cycleReadCount (env : Env) (l : Locals) (w : World) : Nat :=
  statusReadCount env (cycleStatusStart env w) +
    (if Discharging env w then socReadCount env (cycleSocStart env l w) else 0)

/-- The milliseconds of `delay` of the indicator of the cycle started in `(l, w)`. -/
def cycleIndicatorMs (env : Env) (l : Locals) (w : World) : Nat :=
  if Discharging env w then (socAction (cycleSoc env l w).1 l.old_soc).ms
  else if StatusBad (cycleStatus env w) then 0
  else if (cycleStatus env w).1 &&& 0x0020 = 0x0020 then 1250
  else 999

/-! ## The current read of read_battery.c (lines 255-280) -/

/-- Conversion of an `int` value to `short` (16 bits, two's complement). -/
def toShort (v : Int) : Int := (v + 32768) % 65536 - 32768

/-- Lines 256-280 of read_battery.c, whose bus functions are those of monitor_battery.c:
read the current register 0x0a into the `short bat_current`, and read it again when the
value is out of range, is -1, or a NACK was seen. Returns the value passed to `printf`. -/
def readCurrent (env : Env) (w : World) : Int × World :=
  let w := { w with error := false }
  let w := startbus w
  let w := send8 0x16 env w
  let w := send8 0x0a env w
  let w := sendrptstart w
  let w := send8 0x17 env w
  let r := read16 env w
  let bat_current : Int := toShort r.1
  let w := stopbus r.2
  if cInt (decide (bat_current ≥ 3000)) ||| cInt (decide (bat_current ≤ -3000)) |||
      cInt (decide (bat_current = -1)) ||| cInt w.error ≠ 0 then
    let w := { w with error := false }
    let w := startbus w
    let w := send8 0x16 env w
    let w := send8 0x0a env w
    let w := sendrptstart w
    let w := send8 0x17 env w
    let r := read16 env w
    let bat_current : Int := toShort r.1
    let w := stopbus r.2
    (bat_current, w)
  else
    (bat_current, w)

/-- The first attempt of the current read started in `w`. -/
def currentFirst (env : Env) (w : World) : Nat × World :=
  registerRead 0x0a env w.clearError

/-- The second attempt of the current read started in `w`. -/
def currentSecond (env : Env) (w : World) : Nat × World :=
  registerRead 0x0a env (currentFirst env w).2.clearError

/-- The first attempt `r` of the current read is not accepted (the test of line 265). -/
def CurrentRetry (r : Nat × World) : Prop :=
  toShort r.1 ≥ 3000 ∨ toShort r.1 ≤ -3000 ∨ toShort r.1 = -1 ∨ r.2.error = true

instance (r : Nat × World) : Decidable (CurrentRetry r) := by
  unfold CurrentRetry; infer_instance

/-- An environment in which the current read returns 0x0BB7 = 2999 with every byte
acknowledged: the low byte 0xB7 comes first, then the high byte 0x0B. -/
def envCurrent2999 : Env :=
  envOfLevels [false, false, false,
    true, false, true, true, false, true, true, true,
    false, false, false, false, true, false, true, true,
    false, false, false]

/-- An environment in which the first cycle reads the status word 0x0040 with every byte
acknowledged, and the first byte of the first State-of-Charge attempt is not acknowledged
(read 23 is high); every other read is low. -/
def envSocNack : Env := fun k => decide (k = 8 ∨ k = 23)

/-- The effect is not a ghost marker of a call. -/
def Effect.isReal : Effect → Bool
  | Effect.enter _ => false
  | _ => true

/-! ## The set-up of `main` and the state of the bus lines along the history -/

/-- The effects of `setupbus`. -/
def setupbusEffects : List Effect :=
  [Effect.enter BusFn.setupbus, Effect.wiringPiSetupGpio, Effect.piHiPri 99,
    Effect.go_z Pin.clock, Effect.go_z Pin.data, Effect.delayMicroseconds 200]

/-- Lines 226-237 of `main` in monitor_battery.c: the set-up ahead of the loop. The LCD
power signal is pulsed when `lcd_status` reads low. -/
def mainInit (env : Env) (w : World) : World :=
  let w := setupbus w
  let w := go_0 Pin.led_cntrl w
  let w := go_0 Pin.charge_dis w
  let w := go_z Pin.lcd_pwr w
  let w := delay 1000 w
  let r := read_pin env Pin.lcd_status w
  if !r.1 then
    let w := go_0 Pin.lcd_pwr r.2
    let w := delay 250 w
    go_z Pin.lcd_pwr w
  else
    r.2

/-- The effects of the set-up of `main`, when `lcd_status` is read at `lcd`. -/
def mainInitEffects (lcd : Bool) : List Effect :=
  setupbusEffects ++
    ([Effect.go_0 Pin.led_cntrl, Effect.go_0 Pin.charge_dis, Effect.go_z Pin.lcd_pwr,
        Effect.delay 1000, Effect.read_pin Pin.lcd_status lcd] ++
      (if lcd then []
       else [Effect.go_0 Pin.lcd_pwr, Effect.delay 250, Effect.go_z Pin.lcd_pwr]))

/-- Function `main` of monitor_battery.c (lines 224-392), observed after `n` iterations of
its loop, from the start of the program. -/
def mainAfter (env : Env) (n : Nat) : Locals × World :=
  cycles env n initLocals (mainInit env World.start)

/-- Lines 196-204 of `main` in read_battery.c: `setupbus` and the vendor enable sequence,
which is the one of monitor_battery.c. -/
def readBatteryStart (env : Env) (w : World) : World :=
  enableDellBattery env (setupbus w)

/-- One call of a function of the bus transport, or the assignment `error = 0`. -/
inductive BusCall
  | setupbus
  | startbus
  | send8 (arg : Int)
  | sendrptstart
  | read16
  | stopbus
  | clearError

/-- The world after one call of a function of the bus transport. -/
def BusCall.run (env : Env) : BusCall → World → World
  | BusCall.setupbus, w => BatteryMonitor.setupbus w
  | BusCall.startbus, w => BatteryMonitor.startbus w
  | BusCall.send8 arg, w => BatteryMonitor.send8 arg env w
  | BusCall.sendrptstart, w => BatteryMonitor.sendrptstart w
  | BusCall.read16, w => (BatteryMonitor.read16 env w).2
  | BusCall.stopbus, w => BatteryMonitor.stopbus w
  | BusCall.clearError, w => w.clearError

/-- The world after a sequence of calls of the bus transport. -/
def runCalls (env : Env) : List BusCall → World → World
  | [], w => w
  | c :: cs, w => runCalls env cs (c.run env w)

/-- The effect does not drive a bus line high: it is not `go_1` applied to `clock` or to
`data`. The other effects on a pin are the release `go_z`, the assert-low `go_0` and the
sample `read_pin`. -/
def Effect.busSafe : Effect → Bool
  | Effect.go_1 p => decide (p ≠ Pin.clock ∧ p ≠ Pin.data)
  | _ => true

/-- The effect samples a pin. -/
def Effect.isSample : Effect → Bool
  | Effect.read_pin _ _ => true
  | _ => false

/-- One effect of the history together with the state in which it is done: the bus
function entered last before it, and the drives of the clock and data lines before it. -/
structure LineStep where
  fn : Option BusFn
  clock : Drive
  data : Drive
  effect : Effect
  deriving DecidableEq

/-- The bus function entered last, after one effect. -/
def fnStep (f : Option BusFn) : Effect → Option BusFn
  | Effect.enter g => some g
  | _ => f

/-- The bus function entered last, after the effects `es`. -/
def fnAfter (f : Option BusFn) (es : List Effect) : Option BusFn := es.foldl fnStep f

/-- The effects `es`, each with the state in which it is done, when `f` is the bus function
entered last before `es` and `c`, `d` are the drives of clock and data before `es`. -/
def lineSteps : Option BusFn → Drive → Drive → List Effect → List LineStep
  | _, _, _, [] => []
  | f, c, d, e :: es =>
    { fn := f, clock := c, data := d, effect := e } ::
      lineSteps (fnStep f e) (driveStep Pin.clock c e) (driveStep Pin.data d e) es

/-- A call of `startbus` finds the bus idle: the bus function entered last is `setupbus`
or `stopbus`, and the clock and data lines are both released. Any other step passes. -/
def LineStep.startFromIdle (x : LineStep) : Bool :=
  match x.effect with
  | Effect.enter BusFn.startbus =>
    decide ((x.fn = some BusFn.setupbus ∨ x.fn = some BusFn.stopbus) ∧
      x.clock = Drive.released ∧ x.data = Drive.released)
  | _ => true

/-- A sample is a sample of the data line, taken when the program has the data line
released. Any other step passes. -/
def LineStep.dataSample (x : LineStep) : Bool :=
  match x.effect with
  | Effect.read_pin p _ => decide (p = Pin.data ∧ x.data = Drive.released)
  | _ => true

/-- A sample is a sample of the data line, taken when the program has the data line and
the clock line released. Any other step passes. -/
def LineStep.ackSample (x : LineStep) : Bool :=
  match x.effect with
  | Effect.read_pin p _ =>
    decide (p = Pin.data ∧ x.data = Drive.released ∧ x.clock = Drive.released)
  | _ => true

/-- The step changes the drive of the data line. -/
def LineStep.changesData (x : LineStep) : Bool :=
  decide (driveStep Pin.data x.data x.effect ≠ x.data)

/-- The step leaves the drive of the data line as it is, or it is done while the clock is
asserted low. -/
def LineStep.dataStable (x : LineStep) : Bool :=
  !x.changesData || decide (x.clock = Drive.low)

/-- The changes of the drive of the data line made among `es` while the clock is not
asserted low, each with the bus function that makes it. -/
def dataChangesClockHigh (f : Option BusFn) (c d : Drive) (es : List Effect) :
    List (Option BusFn × Effect) :=
  ((lineSteps f c d es).filter
    (fun x => x.changesData && decide (x.clock ≠ Drive.low))).map (fun x => (x.fn, x.effect))

/-- The clock-high windows produced by the effects `es`, as `clockHighWindows`, with the
drive of the data line in place of its level: for each window, the drive of the data line
at its opening and after every further effect inside it. -/
def clockHighData : Drive → Option (List Drive) → List Effect → List (List Drive)
  | _, _, [] => []
  | dat, none, e :: es =>
    if e = Effect.go_z Pin.clock then
      clockHighData (driveStep Pin.data dat e) (some [driveStep Pin.data dat e]) es
    else
      clockHighData (driveStep Pin.data dat e) none es
  | dat, some ds, e :: es =>
    if e = Effect.go_0 Pin.clock then
      ds :: clockHighData (driveStep Pin.data dat e) none es
    else
      clockHighData (driveStep Pin.data dat e) (some (ds ++ [driveStep Pin.data dat e])) es

/-- The effect leaves the bus alone: it enters no bus function and touches neither the
clock line nor the data line. -/
def Effect.offBus : Effect → Bool
  | Effect.go_z p => decide (p ≠ Pin.clock ∧ p ≠ Pin.data)
  | Effect.go_0 p => decide (p ≠ Pin.clock ∧ p ≠ Pin.data)
  | Effect.go_1 p => decide (p ≠ Pin.clock ∧ p ≠ Pin.data)
  | Effect.read_pin p _ => decide (p ≠ Pin.clock ∧ p ≠ Pin.data)
  | Effect.enter _ => false
  | _ => true

/-- A call of `send8` finds the clock asserted low. Any other step passes. -/
def LineStep.send8ClockLow (x : LineStep) : Bool :=
  match x.effect with
  | Effect.enter (BusFn.send8 _) => decide (x.clock = Drive.low)
  | _ => true

/-! # Part 2: lemmas -/

/-! ## Basic facts -/

@[simp] theorem cInt_and_ne_zero (a b : Bool) :
    (cInt a &&& cInt b ≠ 0) ↔ (a = true ∧ b = true) := by
  cases a <;> cases b <;> decide

@[simp] theorem cInt_or_ne_zero (a b : Bool) :
    (cInt a ||| cInt b ≠ 0) ↔ (a = true ∨ b = true) := by
  cases a <;> cases b <;> decide

@[simp] theorem emit_trace (e : Effect) (w : World) : (emit e w).trace = w.trace ++ [e] := rfl

@[simp] theorem emit_error (e : Effect) (w : World) : (emit e w).error = w.error := rfl

@[simp] theorem emit_reads (e : Effect) (w : World) : (emit e w).reads = w.reads := rfl

theorem emitted_of_trace {w w1 : World} {es : List Effect} (h : w1.trace = w.trace ++ es) :
    emitted w w1 = es := by
  simp [emitted, h]

/-- The history after the State-of-Charge rules, branch by branch. -/
theorem socRules_trace (soc old_soc : Int) (w : World) :
    (socRules soc old_soc w).trace = w.trace ++
      (if soc ≤ 8 ∧ old_soc ≤ 10 then SocAction.shutdown.effects
       else if soc ≤ 10 ∧ old_soc ≤ 12 then SocAction.blinkWarning.effects
       else if soc ≤ 15 ∧ old_soc ≤ 17 then SocAction.ledWarning.effects
       else SocAction.heartbeat.effects) := by
  unfold socRules
  simp only [cInt_and_ne_zero, decide_eq_true_eq]
  split_ifs <;>
    simp [SocAction.effects, system, go_0, go_1, go_z, delay]

/-- The effects of the State-of-Charge rules, branch by branch. -/
theorem socRules_emitted (soc old_soc : Int) (w : World) :
    emitted w (socRules soc old_soc w) =
      (if soc ≤ 8 ∧ old_soc ≤ 10 then SocAction.shutdown.effects
       else if soc ≤ 10 ∧ old_soc ≤ 12 then SocAction.blinkWarning.effects
       else if soc ≤ 15 ∧ old_soc ≤ 17 then SocAction.ledWarning.effects
       else SocAction.heartbeat.effects) :=
  emitted_of_trace (socRules_trace soc old_soc w)

theorem SocAction.effects_injective (a b : SocAction) (h : a.effects = b.effects) : a = b := by
  cases a <;> cases b <;> first | rfl | (exact absurd h (by decide))

/-! ## The bus functions in closed form -/

@[simp] theorem World.extend_trace (w : World) (es : List Effect) :
    (w.extend es).trace = w.trace ++ es := rfl

@[simp] theorem World.extend_error (w : World) (es : List Effect) :
    (w.extend es).error = w.error := rfl

@[simp] theorem World.extend_reads (w : World) (es : List Effect) :
    (w.extend es).reads = w.reads := rfl

@[simp] theorem World.extend_extend (w : World) (es fs : List Effect) :
    (w.extend es).extend fs = w.extend (es ++ fs) := by
  simp [World.extend]

theorem emit_eq_extend (e : Effect) (w : World) : emit e w = w.extend [e] := rfl

@[simp] theorem samples_length (env : Env) (r n : Nat) : (samples env r n).length = n := by
  induction n generalizing r with
  | zero => rfl
  | succ n ih => simp [samples, ih]

theorem startbus_eq (w : World) : startbus w = w.extend startbusEffects := by
  simp [startbus, startbusEffects, go_0, delayMicroseconds, quarter, emit_eq_extend]

theorem stopbus_eq (w : World) : stopbus w = w.extend stopbusEffects := by
  simp [stopbus, stopbusEffects, go_z, delayMicroseconds, quarter, emit_eq_extend]

theorem sendrptstart_eq (w : World) : sendrptstart w = w.extend sendrptstartEffects := by
  simp [sendrptstart, sendrptstartEffects, go_z, go_0, delayMicroseconds, quarter,
    emit_eq_extend]

theorem send8Loop_eq (isSigned : Bool) (sendbits : Int) (n : Nat) (mask : Int) (w : World) :
    send8Loop isSigned sendbits n mask w =
      w.extend (send8LoopEffects isSigned sendbits n mask) := by
  induction n generalizing mask w with
  | zero => simp [send8Loop, send8LoopEffects, World.extend]
  | succ n ih =>
    simp only [send8Loop, send8LoopEffects, ih]
    split_ifs <;>
      simp [go_z, go_0, delayMicroseconds, quarter, emit_eq_extend, clockPulse]

theorem send8With_eq (isSigned : Bool) (arg : Int) (env : Env) (w : World) :
    send8With isSigned arg env w =
      { error := w.error || env w.reads, reads := w.reads + 1,
        trace := w.trace ++ send8Effects isSigned arg (env w.reads) } := by
  simp only [send8With, send8Loop_eq, read_pin]
  cases h : env w.reads <;>
    simp [go_z, go_0, delayMicroseconds, quarter, emit_eq_extend, World.extend,
      send8Effects, send8AckEffects, h]

theorem send8_eq (arg : Int) (env : Env) (w : World) :
    send8 arg env w =
      { error := w.error || env w.reads, reads := w.reads + 1,
        trace := w.trace ++ send8Effects charIsSigned arg (env w.reads) } :=
  send8With_eq charIsSigned arg env w

theorem read16Loop_eq (env : Env) (n readval mask : Nat) (w : World) :
    read16Loop env n readval mask w =
      (read16LoopValue (samples env w.reads n) readval mask,
        { error := w.error, reads := w.reads + n,
          trace := w.trace ++ read16LoopEffects (samples env w.reads n) }) := by
  induction n generalizing readval mask w with
  | zero => simp [read16Loop, read16LoopValue, read16LoopEffects, samples]
  | succ n ih =>
    simp only [read16Loop, ih, read_pin]
    simp [go_z, go_0, delayMicroseconds, quarter, emit_eq_extend, World.extend,
      read16LoopValue, read16LoopEffects, samples, clockPulse, Nat.add_assoc, Nat.add_comm 1 n]

theorem read16_eq (env : Env) (w : World) :
    read16 env w =
      (read16Value (samples env w.reads 8) (samples env (w.reads + 8) 8),
        { error := w.error, reads := w.reads + 16,
          trace := w.trace ++
            read16Effects (samples env w.reads 8) (samples env (w.reads + 8) 8) }) := by
  simp only [read16, read16Loop_eq]
  simp [go_z, go_0, delayMicroseconds, quarter, emit_eq_extend, World.extend,
    read16Value, read16Effects, read16AckEffects, read16NackEffects]

/-! ## Bus transactions touch the bus only -/

theorem BusStep.refl (w : World) : BusStep w w := ⟨[], by simp, rfl⟩

theorem BusStep.trans {a b c : World} (h1 : BusStep a b) (h2 : BusStep b c) : BusStep a c := by
  obtain ⟨es, he, hes⟩ := h1
  obtain ⟨fs, hf, hfs⟩ := h2
  exact ⟨es ++ fs, by rw [hf, he, List.append_assoc], by simp [List.all_append, hes, hfs]⟩

theorem BusStep.of_trace_eq {a b : World} (h : b.trace = a.trace) : BusStep a b :=
  ⟨[], by simp [h], rfl⟩

theorem send8LoopEffects_onBus (isSigned : Bool) (sendbits : Int) (n : Nat) (mask : Int) :
    (send8LoopEffects isSigned sendbits n mask).all Effect.onBus = true := by
  induction n generalizing mask with
  | zero => rfl
  | succ n ih =>
    simp only [send8LoopEffects, List.all_cons, List.all_append, ih]
    split_ifs <;> simp [Effect.onBus, clockPulse]

theorem read16LoopEffects_onBus (levels : List Bool) :
    (read16LoopEffects levels).all Effect.onBus = true := by
  induction levels with
  | nil => rfl
  | cons lv levels ih =>
    simp only [read16LoopEffects, List.all_cons, List.all_append, ih]
    simp [Effect.onBus, clockPulse]

theorem startbus_busStep (w : World) : BusStep w (startbus w) :=
  ⟨startbusEffects, by rw [startbus_eq]; rfl, by decide⟩

theorem stopbus_busStep (w : World) : BusStep w (stopbus w) :=
  ⟨stopbusEffects, by rw [stopbus_eq]; rfl, by decide⟩

theorem sendrptstart_busStep (w : World) : BusStep w (sendrptstart w) :=
  ⟨sendrptstartEffects, by rw [sendrptstart_eq]; rfl, by decide⟩

theorem send8_busStep (arg : Int) (env : Env) (w : World) : BusStep w (send8 arg env w) := by
  refine ⟨send8Effects charIsSigned arg (env w.reads), by rw [send8_eq], ?_⟩
  simp [send8Effects, send8AckEffects, List.all_append, send8LoopEffects_onBus, Effect.onBus]

theorem read16_busStep (env : Env) (w : World) : BusStep w (read16 env w).2 := by
  refine ⟨read16Effects (samples env w.reads 8) (samples env (w.reads + 8) 8),
    by rw [read16_eq], ?_⟩
  simp [read16Effects, read16AckEffects, read16NackEffects, List.all_append,
    read16LoopEffects_onBus, Effect.onBus]

theorem clearError_busStep (w : World) : BusStep w { w with error := false } :=
  BusStep.of_trace_eq rfl

theorem enableDellBattery_busStep (env : Env) (w : World) :
    BusStep w (enableDellBattery env w) := by
  unfold enableDellBattery
  exact (((send8_busStep _ _ _).trans (send8_busStep _ _ _)).trans
    ((send8_busStep _ _ _).trans (send8_busStep _ _ _))).trans (stopbus_busStep _)

theorem registerRead_busStep (ptr : Int) (env : Env) (w : World) :
    BusStep w (registerRead ptr env w).2 := by
  unfold registerRead
  exact ((((((startbus_busStep _).trans (send8_busStep _ _ _)).trans
    (send8_busStep _ _ _)).trans (sendrptstart_busStep _)).trans
    (send8_busStep _ _ _)).trans (read16_busStep _ _)).trans (stopbus_busStep _)

/-! ### Lemmas for C3: over-temperature debounce -/

theorem cycle_eq (env : Env) (l : Locals) (w : World) :
    cycle env l w =
      ((chargerLogic env (checkStatus l (cycleStatus env w).1 (cycleStatus env w).2).1
          (cycleStatus env w).1 (checkStatus l (cycleStatus env w).1 (cycleStatus env w).2).2).1,
        delay 29000
          (chargerLogic env (checkStatus l (cycleStatus env w).1 (cycleStatus env w).2).1
            (cycleStatus env w).1
            (checkStatus l (cycleStatus env w).1 (cycleStatus env w).2).2).2) := rfl

theorem chargerLogic_over_temp_count (env : Env) (l : Locals) (bat_stat : Nat) (w : World) :
    (chargerLogic env l bat_stat w).1.over_temp_count = l.over_temp_count := by
  unfold chargerLogic dischargeBranch
  split_ifs <;> rfl

theorem cycle_over_temp_count (env : Env) (l : Locals) (w : World) :
    (cycle env l w).1.over_temp_count =
      (checkStatus l (cycleStatus env w).1 (cycleStatus env w).2).1.over_temp_count := by
  rw [cycle_eq]
  exact chargerLogic_over_temp_count _ _ _ _

/-- The status check on a good read with the over-temperature bit set. -/
theorem checkStatus_overTemp (l : Locals) (r : Nat × World) (hgood : ¬ StatusBad r)
    (hbit : r.1 &&& 0x1000 = 0x1000) :
    checkStatus l r.1 r.2 =
      if toChar charIsSigned (l.over_temp_count + 1) ≥ 4 then
        ({ l with bad_bat_stat := false,
                  over_temp_count := toChar charIsSigned (l.over_temp_count + 1) },
          system Command.shutdownNow r.2)
      else
        ({ l with bad_bat_stat := false,
                  over_temp_count := toChar charIsSigned (l.over_temp_count + 1) }, r.2) := by
  have hb : ¬ (r.1 = 0xffff ∨ r.2.error = true) := hgood
  unfold checkStatus
  simp only [cInt_or_ne_zero, beq_iff_eq]
  rw [if_neg hb, if_pos hbit]

/-- The status check on a good read with the over-temperature bit clear. -/
theorem checkStatus_notOverTemp (l : Locals) (r : Nat × World) (hgood : ¬ StatusBad r)
    (hbit : r.1 &&& 0x1000 ≠ 0x1000) :
    checkStatus l r.1 r.2 = ({ l with over_temp_count := 0, bad_bat_stat := false }, r.2) := by
  have hb : ¬ (r.1 = 0xffff ∨ r.2.error = true) := hgood
  unfold checkStatus
  simp only [cInt_or_ne_zero, beq_iff_eq]
  rw [if_neg hb, if_neg hbit]

theorem emitted_self (w : World) : emitted w w = [] := by
  simp [emitted]

theorem emitted_system (c : Command) (w : World) : emitted w (system c w) = [Effect.system c] :=
  emitted_of_trace rfl

/-- One over-temperature cycle: the counter is incremented, and the shutdown is issued
exactly when the new count is at least 4. -/
theorem cycle_overTemp (env : Env) (l : Locals) (w : World) (h : OverTemp env w) :
    (cycle env l w).1.over_temp_count = toChar charIsSigned (l.over_temp_count + 1) ∧
    (overTempShutdown env l w ↔ toChar charIsSigned (l.over_temp_count + 1) ≥ 4) := by
  unfold overTempShutdown
  rw [cycle_over_temp_count, checkStatus_overTemp l _ h.1 h.2]
  split_ifs with hc
  · simp [emitted_system, hc]
  · simp [emitted_self, hc]

/-- One good cycle without over-temperature: the counter is reset, no shutdown by the
over-temperature rule. -/
theorem cycle_notOverTemp (env : Env) (l : Locals) (w : World) (h : NotOverTemp env w) :
    (cycle env l w).1.over_temp_count = 0 ∧ ¬ overTempShutdown env l w := by
  unfold overTempShutdown
  rw [cycle_over_temp_count, checkStatus_notOverTemp l _ h.1 h.2]
  simp [emitted_self]

/-! ### Lemmas for C4: the retry policy -/

theorem read16LoopValue_lt (levels : List Bool) (readval mask : Nat)
    (hr : readval < 2 ^ 16) (hm : mask < 2 ^ 16) :
    read16LoopValue levels readval mask < 2 ^ 16 := by
  induction levels generalizing readval mask with
  | nil => simpa [read16LoopValue] using hr
  | cons lv levels ih =>
    simp only [read16LoopValue]
    apply ih
    · split_ifs
      · exact Nat.or_lt_two_pow hr hm
      · exact hr
    · rw [Nat.shiftRight_eq_div_pow]
      exact lt_of_le_of_lt (Nat.div_le_self _ _) hm

theorem read16Value_lt (lo hi : List Bool) : read16Value lo hi < 65536 := by
  unfold read16Value
  exact read16LoopValue_lt hi _ _ (read16LoopValue_lt lo _ _ (by norm_num) (by norm_num))
    (by norm_num)

/-- One register read in closed form: the word comes from the 16 data samples, the error
flag is raised by a high level in any of the three acknowledge phases. -/
theorem registerRead_eq (ptr : Int) (env : Env) (w : World) :
    registerRead ptr env w =
      (read16Value (samples env (w.reads + 3) 8) (samples env (w.reads + 11) 8),
        { error := w.error || env w.reads || env (w.reads + 1) || env (w.reads + 2),
          reads := w.reads + 19,
          trace := w.trace ++ registerReadEffects ptr (env w.reads) (env (w.reads + 1))
            (env (w.reads + 2)) (samples env (w.reads + 3) 8)
            (samples env (w.reads + 11) 8) }) := by
  simp only [registerRead, startbus_eq, send8_eq, sendrptstart_eq, read16_eq, stopbus_eq,
    World.extend, registerReadEffects, List.append_assoc, Nat.add_assoc]

theorem registerRead_value_lt (ptr : Int) (env : Env) (w : World) :
    (registerRead ptr env w).1 < 65536 := by
  rw [registerRead_eq]
  exact read16Value_lt _ _

theorem calls_append (es fs : List Effect) : calls (es ++ fs) = calls es ++ calls fs := by
  simp [calls, List.filterMap_append]

theorem calls_send8LoopEffects (isSigned : Bool) (sendbits : Int) (n : Nat) (mask : Int) :
    calls (send8LoopEffects isSigned sendbits n mask) = [] := by
  induction n generalizing mask with
  | zero => rfl
  | succ n ih =>
    have h := ih (toChar isSigned (mask >>> 1))
    simp only [calls] at h
    simp only [send8LoopEffects, calls, clockPulse]
    split_ifs <;> simp [h]

theorem calls_send8Effects (isSigned : Bool) (arg : Int) (ack : Bool) :
    calls (send8Effects isSigned arg ack) = [BusFn.send8 (toChar isSigned arg)] := by
  have h := calls_send8LoopEffects isSigned (toChar isSigned arg) 8 (toChar isSigned 0x80)
  simp only [calls] at h
  simp [send8Effects, calls, send8AckEffects, List.filterMap_append, h]

theorem calls_read16LoopEffects (levels : List Bool) : calls (read16LoopEffects levels) = [] := by
  induction levels with
  | nil => rfl
  | cons lv levels ih =>
    simp only [calls] at ih
    simp [read16LoopEffects, calls, clockPulse, ih]

theorem calls_read16Effects (lo hi : List Bool) :
    calls (read16Effects lo hi) = [BusFn.read16] := by
  have h1 := calls_read16LoopEffects lo
  have h2 := calls_read16LoopEffects hi
  simp only [calls] at h1 h2
  simp [read16Effects, calls, read16AckEffects, read16NackEffects, List.filterMap_append, h1, h2]

theorem calls_registerReadEffects (ptr : Int) (a1 a2 a3 : Bool) (lo hi : List Bool) :
    calls (registerReadEffects ptr a1 a2 a3 lo hi) =
      registerReadCalls (toChar charIsSigned ptr) := by
  simp only [registerReadEffects, calls_append, calls_send8Effects, calls_read16Effects]
  rfl

theorem emitted_registerRead (ptr : Int) (env : Env) (w : World) :
    emitted w (registerRead ptr env w).2 =
      registerReadEffects ptr (env w.reads) (env (w.reads + 1)) (env (w.reads + 2))
        (samples env (w.reads + 3) 8) (samples env (w.reads + 11) 8) := by
  apply emitted_of_trace
  rw [registerRead_eq]

/-- The status read is the register read of register 0x16 from a cleared error flag,
repeated once from a cleared error flag when the word is all ones or the flag is set. -/
theorem readBatteryStatus_eq (env : Env) (w : World) :
    readBatteryStatus env w =
      if (registerRead 0x16 env { w with error := false }).1 = 0xffff ∨
          (registerRead 0x16 env { w with error := false }).2.error = true then
        registerRead 0x16 env
          { (registerRead 0x16 env { w with error := false }).2 with error := false }
      else
        registerRead 0x16 env { w with error := false } := by
  have h1 := registerRead_value_lt 0x16 env { w with error := false }
  have h2 := registerRead_value_lt 0x16 env
    { (registerRead 0x16 env { w with error := false }).2 with error := false }
  unfold readBatteryStatus
  simp only [cInt_or_ne_zero, beq_iff_eq]
  unfold registerRead at h1 h2 ⊢
  simp only [Nat.mod_eq_of_lt h1, Nat.mod_eq_of_lt h2]

/-- The State-of-Charge read is the register read of register 0x0d from a cleared error
flag, repeated once (the flag is left as it is) when the word is 150 or more or the
flag is set. -/
theorem readSoc_eq (env : Env) (w : World) :
    readSoc env w =
      if 150 ≤ (registerRead 0x0d env { w with error := false }).1 ∨
          (registerRead 0x0d env { w with error := false }).2.error = true then
        (((registerRead 0x0d env (registerRead 0x0d env { w with error := false }).2).1 : Int),
          (registerRead 0x0d env (registerRead 0x0d env { w with error := false }).2).2)
      else
        (((registerRead 0x0d env { w with error := false }).1 : Int),
          (registerRead 0x0d env { w with error := false }).2) := by
  unfold readSoc
  simp only [cInt_or_ne_zero, decide_eq_true_eq, ge_iff_le]
  unfold registerRead
  simp only [Nat.ofNat_le_cast]

theorem application_on_timer_event_eq (env : Env) (w : World) :
    application_on_timer_event env w = readSoc env w := rfl

theorem calls_emitted_statusFirst (env : Env) (w : World) :
    calls (emitted w (statusFirst env w).2) = registerReadCalls 0x16 := by
  have h := emitted_registerRead 0x16 env w.clearError
  unfold statusFirst
  unfold emitted at h ⊢
  rw [h, calls_registerReadEffects]
  rfl

theorem calls_emitted_statusSecond (env : Env) (w : World) :
    calls (emitted w (statusSecond env w).2) =
      registerReadCalls 0x16 ++ registerReadCalls 0x16 := by
  unfold statusSecond statusFirst emitted
  rw [registerRead_eq, registerRead_eq]
  simp only [List.append_assoc, List.drop_left, calls_append, calls_registerReadEffects]
  rfl

theorem calls_emitted_socFirst (env : Env) (w : World) :
    calls (emitted w (socFirst env w).2) = registerReadCalls 0x0d := by
  have h := emitted_registerRead 0x0d env w.clearError
  unfold socFirst
  unfold emitted at h ⊢
  rw [h, calls_registerReadEffects]
  rfl

theorem calls_emitted_socSecond (env : Env) (w : World) :
    calls (emitted w (socSecond env w).2) =
      registerReadCalls 0x0d ++ registerReadCalls 0x0d := by
  unfold socSecond socFirst emitted
  rw [registerRead_eq, registerRead_eq]
  simp only [List.append_assoc, List.drop_left, calls_append, calls_registerReadEffects]
  rfl

/-! ### Lemmas for C5: send8 presents its argument most-significant bit first -/

theorem send8LoopBits_length (isSigned : Bool) (sendbits : Int) (n : Nat) (mask : Int) :
    (send8LoopBits isSigned sendbits n mask).length = n := by
  induction n generalizing mask with
  | zero => rfl
  | succ n ih => simp [send8LoopBits, ih]

/-- Each iteration of the loop of `send8` makes one clock-high window, all through which
the data line is at the level chosen by the iteration. -/
theorem clockHighWindows_send8Loop (isSigned : Bool) (sendbits : Int) (n : Nat) (mask : Int)
    (dat : Drive) (rest : List Effect) :
    ∃ dat1 : Drive,
      clockHighWindows dat none (send8LoopEffects isSigned sendbits n mask ++ rest) =
        (send8LoopBits isSigned sendbits n mask).map (fun x => [x, x]) ++
          clockHighWindows dat1 none rest := by
  induction n generalizing mask dat with
  | zero => exact ⟨dat, by simp [send8LoopEffects, send8LoopBits]⟩
  | succ n ih =>
    by_cases h : intAnd sendbits mask = 0
    · obtain ⟨dat1, h1⟩ := ih (toChar isSigned (mask >>> 1)) Drive.low
      refine ⟨dat1, ?_⟩
      simp [send8LoopEffects, send8LoopBits, clockPulse, clockHighWindows, driveStep, h, h1,
        Drive.level]
    · obtain ⟨dat1, h1⟩ := ih (toChar isSigned (mask >>> 1)) Drive.released
      refine ⟨dat1, ?_⟩
      simp [send8LoopEffects, send8LoopBits, clockPulse, clockHighWindows, driveStep, h, h1,
        Drive.level]

set_option maxRecDepth 100000 in
theorem send8LoopBits_unsigned :
    ∀ b : Fin 256, send8LoopBits false (toChar false (b.val : Int)) 8 (toChar false 0x80) =
      bitsMSB b.val := by
  decide

set_option maxRecDepth 100000 in
theorem byteOfBits_bitsMSB : ∀ b : Fin 256, byteOfBits (bitsMSB b.val) = b.val := by
  decide

theorem clockHighWindows_enter (dat : Drive) (f : BusFn) (es : List Effect) :
    clockHighWindows dat none (Effect.enter f :: es) = clockHighWindows dat none es := by
  simp [clockHighWindows, driveStep]

theorem stableLevel_pair (bits : List Bool) :
    (bits.map (fun x => [x, x])).map stableLevel = bits.map some := by
  induction bits with
  | nil => rfl
  | cons x xs ih => simp [stableLevel, ih]

/-- The levels of the data line in the eight data windows of `send8(b)`. -/
theorem send8_windows (b : Nat) (hb : b < 256) (env : Env) (w : World) (dat : Drive) :
    ((clockHighWindows dat none (emitted w (send8 (b : Int) env w))).take 8).map stableLevel =
      (bitsMSB b).map some := by
  have he : emitted w (send8 (b : Int) env w) =
      send8Effects charIsSigned (b : Int) (env w.reads) :=
    emitted_of_trace (by rw [send8_eq])
  obtain ⟨dat1, h1⟩ := clockHighWindows_send8Loop charIsSigned (toChar charIsSigned (b : Int)) 8
    (toChar charIsSigned 0x80) dat (send8AckEffects (env w.reads))
  have hbits := send8LoopBits_unsigned ⟨b, hb⟩
  have hlen := send8LoopBits_length charIsSigned (toChar charIsSigned (b : Int)) 8
    (toChar charIsSigned 0x80)
  rw [he]
  unfold send8Effects
  rw [List.cons_append, clockHighWindows_enter, h1,
    List.take_left' (by rw [List.length_map]; exact hlen), stableLevel_pair]
  exact congrArg (List.map some) hbits

/-- On an ABI whose plain `char` is signed the mask of `send8` would be sign-extended by
the shifts: the byte 0x16 would be presented as 0x1F. (The target ABI is unsigned.) -/
theorem send8LoopBits_signed_char :
    send8LoopBits true (toChar true 0x16) 8 (toChar true 0x80) = bitsMSB 0x1F := by
  decide

/-! ### Lemmas for C6: read16 assembles the word low byte first -/

theorem samples_append (env : Env) (r m n : Nat) :
    samples env r (m + n) = samples env r m ++ samples env (r + m) n := by
  induction m generalizing r with
  | zero => simp [samples]
  | succ m ih =>
    rw [Nat.add_right_comm, samples, samples, ih (r + 1), List.cons_append]
    congr 3
    omega

theorem sampledLevels_read16LoopEffects (levels : List Bool) (rest : List Effect) :
    sampledLevels (read16LoopEffects levels ++ rest) = levels ++ sampledLevels rest := by
  induction levels with
  | nil => rfl
  | cons lv levels ih =>
    simp only [sampledLevels] at ih
    simp [read16LoopEffects, sampledLevels, clockPulse, ih]

theorem sampledLevels_read16Effects (lo hi : List Bool) :
    sampledLevels (read16Effects lo hi) = lo ++ hi := by
  have h1 := sampledLevels_read16LoopEffects lo
    (read16AckEffects ++ (read16LoopEffects hi ++ read16NackEffects))
  have h2 := sampledLevels_read16LoopEffects hi read16NackEffects
  have h3 : sampledLevels read16NackEffects = [] := by decide
  have h4 : ∀ es, sampledLevels (read16AckEffects ++ es) = sampledLevels es := by
    intro es
    simp [sampledLevels, read16AckEffects]
  have h5 : ∀ es, sampledLevels (Effect.enter BusFn.read16 :: es) = sampledLevels es := by
    intro es
    simp [sampledLevels]
  unfold read16Effects
  rw [List.append_assoc, List.append_assoc, List.cons_append, h5, h1, h4, h2, h3,
    List.append_nil]

theorem read16LoopValue_or (levels : List Bool) (readval mask : Nat) :
    read16LoopValue levels readval mask = readval ||| read16LoopValue levels 0 mask := by
  induction levels generalizing readval mask with
  | nil => simp [read16LoopValue]
  | cons lv levels ih =>
    simp only [read16LoopValue]
    cases lv
    · simpa using ih readval (mask >>> 1)
    · simp only [if_true, Nat.zero_or]
      rw [ih (readval ||| mask), ih mask, Nat.or_assoc]

theorem read16LoopValue_low :
    ∀ b0 b1 b2 b3 b4 b5 b6 b7 : Bool,
      read16LoopValue [b0, b1, b2, b3, b4, b5, b6, b7] 0 0x80 =
        byteOfBits [b0, b1, b2, b3, b4, b5, b6, b7] := by
  decide

theorem read16LoopValue_high :
    ∀ b0 b1 b2 b3 b4 b5 b6 b7 : Bool,
      read16LoopValue [b0, b1, b2, b3, b4, b5, b6, b7] 0 0x8000 =
        byteOfBits [b0, b1, b2, b3, b4, b5, b6, b7] <<< 8 := by
  decide

theorem samples_eight (env : Env) (r : Nat) :
    samples env r 8 =
      [env r, env (r + 1), env (r + 2), env (r + 3), env (r + 4), env (r + 5), env (r + 6),
        env (r + 7)] := by
  simp [samples, Nat.add_assoc]

/-- The word returned by `read16`, from the levels the environment supplies. -/
theorem read16_value (env : Env) (w : World) :
    (read16 env w).1 =
      byteOfBits (samples env w.reads 8) ||| (byteOfBits (samples env (w.reads + 8) 8) <<< 8) := by
  rw [read16_eq]
  unfold read16Value
  rw [read16LoopValue_or, samples_eight, samples_eight, read16LoopValue_low,
    read16LoopValue_high]

/-! ### Lemmas for C7: round trip through the bit-level framing -/

theorem split_word (v : Nat) : (v &&& 0xFF) ||| ((v >>> 8) <<< 8) = v := by
  apply Nat.eq_of_testBit_eq
  intro i
  have h255 : (0xFF : Nat) = 2 ^ 8 - 1 := by norm_num
  rw [Nat.testBit_or, Nat.testBit_and, Nat.testBit_shiftLeft, Nat.testBit_shiftRight, h255,
    Nat.testBit_two_pow_sub_one]
  by_cases h : i < 8
  · simp [h]
  · have h8 : 8 ≤ i := not_lt.mp h
    simp [h, h8, Nat.add_sub_cancel' h8]

theorem and_255_lt (v : Nat) : v &&& 0xFF < 256 := by
  have h255 : (0xFF : Nat) = 2 ^ 8 - 1 := by norm_num
  rw [h255, Nat.and_pow_two_sub_one_eq_mod]
  exact Nat.mod_lt _ (by norm_num)

theorem shiftRight_8_lt (v : Nat) (h : v < 65536) : v >>> 8 < 256 := by
  rw [Nat.shiftRight_eq_div_pow]
  omega

theorem bitsMSB_length (b : Nat) : (bitsMSB b).length = 8 := rfl

/-! ## The status check and the charger logic in closed form -/

theorem checkStatus_eq (l : Locals) (bat_stat : Nat) (w : World) :
    (checkStatus l bat_stat w).2 = w.extend (checkStatusEffects l bat_stat w.error) ∧
    (checkStatus l bat_stat w).1.bad_bat_stat = decide (bat_stat = 0xffff ∨ w.error = true) ∧
    (checkStatus l bat_stat w).1.old_soc = l.old_soc := by
  unfold checkStatus checkStatusEffects
  simp only [cInt_or_ne_zero, beq_iff_eq]
  by_cases h1 : bat_stat = 0xffff ∨ w.error = true
  · simp [h1, go_1, emit_eq_extend]
  · by_cases h2 : bat_stat &&& 0x1000 = 0x1000
    · by_cases h3 : toChar charIsSigned (l.over_temp_count + 1) ≥ 4
      · simp [h1, h2, h3, system, emit_eq_extend]
      · simp [h1, h2, h3, World.extend]
    · simp [h1, h2, World.extend]

theorem chargerBranch_eq (l : Locals) (bat_stat : Nat) (w : World) :
    chargerBranch l bat_stat w = w.extend (chargerBranchEffects l.bad_bat_stat bat_stat) := by
  unfold chargerBranch chargerBranchEffects
  simp only [cInt_and_ne_zero, beq_iff_eq, Bool.not_eq_true']
  split_ifs <;>
    simp [go_0, go_1, delay, emit_eq_extend, fullyChargedEffects, chargingEffects,
      badReadEffects]

theorem readBatteryStatus_busStep (env : Env) (w : World) :
    BusStep w (readBatteryStatus env w).2 := by
  rw [readBatteryStatus_eq]
  split_ifs
  · exact (((clearError_busStep w).trans (registerRead_busStep _ _ _)).trans
      (clearError_busStep _)).trans (registerRead_busStep _ _ _)
  · exact (clearError_busStep w).trans (registerRead_busStep _ _ _)

theorem cycleStatus_busStep (env : Env) (w : World) : BusStep w (cycleStatus env w).2 :=
  (enableDellBattery_busStep env w).trans (readBatteryStatus_busStep env _)

/-- The effects of a cycle that takes the charger branch: bus steps up to the end of the
status read, then the status check, the charger branch and the final delay. -/
theorem cycle_emitted_chargerBranch (env : Env) (l : Locals) (w : World)
    (h : ¬ ((cycleStatus env w).1 &&& 0x0040 = 0x0040 ∧ ¬ StatusBad (cycleStatus env w))) :
    ∃ pre : List Effect, pre.all Effect.onBus = true ∧
      emitted w (cycle env l w).2 =
        pre ++ (checkStatusEffects l (cycleStatus env w).1 (cycleStatus env w).2.error ++
          (chargerBranchEffects (decide (StatusBad (cycleStatus env w))) (cycleStatus env w).1 ++
            [Effect.delay 29000])) := by
  obtain ⟨pre, hpre, hall⟩ := cycleStatus_busStep env w
  obtain ⟨hc1, hc2, _⟩ := checkStatus_eq l (cycleStatus env w).1 (cycleStatus env w).2
  refine ⟨pre, hall, ?_⟩
  apply emitted_of_trace
  rw [cycle_eq]
  have hb : (checkStatus l (cycleStatus env w).1 (cycleStatus env w).2).1.bad_bat_stat =
      decide (StatusBad (cycleStatus env w)) := hc2
  have hcl : chargerLogic env (checkStatus l (cycleStatus env w).1 (cycleStatus env w).2).1
      (cycleStatus env w).1 (checkStatus l (cycleStatus env w).1 (cycleStatus env w).2).2 =
      ((checkStatus l (cycleStatus env w).1 (cycleStatus env w).2).1,
        chargerBranch (checkStatus l (cycleStatus env w).1 (cycleStatus env w).2).1
          (cycleStatus env w).1 (checkStatus l (cycleStatus env w).1 (cycleStatus env w).2).2) := by
    unfold chargerLogic
    simp only [cInt_and_ne_zero, beq_iff_eq, hb]
    rw [if_neg]
    simpa using h
  rw [hcl]
  simp only [chargerBranch_eq, hc1, hb, delay, emit_trace, World.extend_trace, hpre,
    List.append_assoc]

theorem driveStep_onBus (pin : Pin) (hc : pin ≠ Pin.clock) (hd : pin ≠ Pin.data) (d : Drive)
    (e : Effect) (h : e.onBus = true) : driveStep pin d e = d := by
  cases e <;> simp_all [driveStep, Effect.onBus] <;> rintro rfl <;> simp_all

theorem driveAfter_append (pin : Pin) (d : Drive) (es fs : List Effect) :
    driveAfter pin d (es ++ fs) = driveAfter pin (driveAfter pin d es) fs := by
  simp [driveAfter, List.foldl_append]

theorem driveAfter_onBus (pin : Pin) (hc : pin ≠ Pin.clock) (hd : pin ≠ Pin.data) (d : Drive)
    (es : List Effect) (h : es.all Effect.onBus = true) : driveAfter pin d es = d := by
  induction es generalizing d with
  | nil => rfl
  | cons e es ih =>
    simp only [List.all_cons, Bool.and_eq_true] at h
    simp only [driveAfter, List.foldl_cons]
    rw [driveStep_onBus pin hc hd d e h.1]
    exact ih d h.2

theorem blinkCountFrom_onBus (lit : Bool) (es fs : List Effect)
    (h : es.all Effect.onBus = true) :
    blinkCountFrom lit (es ++ fs) = blinkCountFrom lit fs := by
  induction es with
  | nil => rfl
  | cons e es ih =>
    simp only [List.all_cons, Bool.and_eq_true] at h
    have h1 : e ≠ Effect.go_1 Pin.led_cntrl := by
      rintro rfl
      exact absurd h.1 (by decide)
    have h2 : e ≠ Effect.go_0 Pin.led_cntrl := by
      rintro rfl
      exact absurd h.1 (by decide)
    simp only [List.cons_append, blinkCountFrom, if_neg h1, if_neg h2]
    exact ih h.2

theorem checkStatusEffects_good (l : Locals) (r : Nat × World) (hgood : ¬ StatusBad r) :
    checkStatusEffects l r.1 r.2.error = [] ∨
      checkStatusEffects l r.1 r.2.error = [Effect.system Command.shutdownNow] := by
  have hb : ¬ (r.1 = 0xffff ∨ r.2.error = true) := hgood
  unfold checkStatusEffects
  rw [if_neg hb]
  split_ifs
  · exact Or.inr rfl
  · exact Or.inl rfl

theorem checkStatusEffects_bad (l : Locals) (r : Nat × World) (hbad : StatusBad r) :
    checkStatusEffects l r.1 r.2.error = [Effect.go_1 Pin.led_cntrl] := by
  have hb : r.1 = 0xffff ∨ r.2.error = true := hbad
  unfold checkStatusEffects
  rw [if_pos hb]

theorem readSoc_busStep (env : Env) (w : World) : BusStep w (readSoc env w).2 := by
  rw [readSoc_eq]
  split_ifs
  · exact ((clearError_busStep w).trans (registerRead_busStep _ _ _)).trans
      (registerRead_busStep _ _ _)
  · exact (clearError_busStep w).trans (registerRead_busStep _ _ _)

/-- The State-of-Charge rules do the effects of one of the four actions. -/
theorem socRules_action (soc old_soc : Int) (w : World) :
    ∃ a : SocAction, (socRules soc old_soc w).trace = w.trace ++ a.effects := by
  rw [socRules_trace]
  split_ifs
  · exact ⟨SocAction.shutdown, rfl⟩
  · exact ⟨SocAction.blinkWarning, rfl⟩
  · exact ⟨SocAction.ledWarning, rfl⟩
  · exact ⟨SocAction.heartbeat, rfl⟩

/-- The effects of a cycle that takes the discharge branch: bus steps up to the end of the
status read, the status check, `go_0(charge_dis)`, the bus steps of the State-of-Charge
read, one of the four actions and the final delay. -/
theorem cycle_emitted_dischargeBranch (env : Env) (l : Locals) (w : World)
    (hgood : ¬ StatusBad (cycleStatus env w))
    (hdis : (cycleStatus env w).1 &&& 0x0040 = 0x0040) :
    ∃ (pre mid : List Effect) (a : SocAction),
      pre.all Effect.onBus = true ∧ mid.all Effect.onBus = true ∧
      emitted w (cycle env l w).2 =
        pre ++ (checkStatusEffects l (cycleStatus env w).1 (cycleStatus env w).2.error ++
          (Effect.go_0 Pin.charge_dis :: (mid ++ (a.effects ++ [Effect.delay 29000])))) := by
  obtain ⟨pre, hpre, hall⟩ := cycleStatus_busStep env w
  obtain ⟨hc1, hc2, _⟩ := checkStatus_eq l (cycleStatus env w).1 (cycleStatus env w).2
  have hb : (checkStatus l (cycleStatus env w).1 (cycleStatus env w).2).1.bad_bat_stat =
      false := by
    rw [hc2]
    simpa [StatusBad] using hgood
  have hcl : chargerLogic env (checkStatus l (cycleStatus env w).1 (cycleStatus env w).2).1
      (cycleStatus env w).1 (checkStatus l (cycleStatus env w).1 (cycleStatus env w).2).2 =
      dischargeBranch env (checkStatus l (cycleStatus env w).1 (cycleStatus env w).2).1
        (checkStatus l (cycleStatus env w).1 (cycleStatus env w).2).2 := by
    unfold chargerLogic
    simp only [cInt_and_ne_zero, beq_iff_eq, hb]
    rw [if_pos]
    exact ⟨by simpa using hdis, rfl⟩
  obtain ⟨mid, hmid, hmidall⟩ := readSoc_busStep env
    (go_0 Pin.charge_dis (checkStatus l (cycleStatus env w).1 (cycleStatus env w).2).2)
  obtain ⟨a, ha⟩ := socRules_action
    (readSoc env
      (go_0 Pin.charge_dis (checkStatus l (cycleStatus env w).1 (cycleStatus env w).2).2)).1
    (checkStatus l (cycleStatus env w).1 (cycleStatus env w).2).1.old_soc
    (readSoc env
      (go_0 Pin.charge_dis (checkStatus l (cycleStatus env w).1 (cycleStatus env w).2).2)).2
  refine ⟨pre, mid, a, hall, hmidall, ?_⟩
  apply emitted_of_trace
  rw [cycle_eq, hcl]
  unfold dischargeBranch
  simp only [delay, emit_trace]
  rw [ha, hmid]
  simp only [go_0, emit_trace, hc1, World.extend_trace, hpre, List.append_assoc,
    List.singleton_append, List.cons_append, List.nil_append]

theorem SocAction.effects_spare_charge_dis (a : SocAction) (d : Drive) :
    driveAfter Pin.charge_dis d a.effects = d := by
  cases a <;> rfl

/-- A good cycle with the discharging bit set leaves `charge_dis` driven low. -/
theorem cycle_discharging_charge_dis (env : Env) (l : Locals) (w : World) (d : Drive)
    (hgood : ¬ StatusBad (cycleStatus env w))
    (hdis : (cycleStatus env w).1 &&& 0x0040 = 0x0040) :
    driveAfter Pin.charge_dis d (emitted w (cycle env l w).2) = Drive.low := by
  obtain ⟨pre, mid, a, hall, hmidall, he⟩ := cycle_emitted_dischargeBranch env l w hgood hdis
  rw [he, driveAfter_append, driveAfter_onBus Pin.charge_dis (by decide) (by decide) d pre hall,
    driveAfter_append]
  have hcheck : driveAfter Pin.charge_dis d
      (checkStatusEffects l (cycleStatus env w).1 (cycleStatus env w).2.error) = d := by
    rcases checkStatusEffects_good l _ hgood with h | h <;> rw [h] <;> rfl
  rw [hcheck]
  have hstep : driveAfter Pin.charge_dis d
      (Effect.go_0 Pin.charge_dis :: (mid ++ (a.effects ++ [Effect.delay 29000]))) =
      driveAfter Pin.charge_dis Drive.low (mid ++ (a.effects ++ [Effect.delay 29000])) := by
    simp [driveAfter, driveStep]
  rw [hstep, driveAfter_append,
    driveAfter_onBus Pin.charge_dis (by decide) (by decide) Drive.low mid hmidall,
    driveAfter_append, SocAction.effects_spare_charge_dis]
  rfl

/-- A cycle whose status read is flagged bad leaves `charge_dis` driven low and the LED
driven high, without a blink. -/
theorem cycle_bad_read (env : Env) (l : Locals) (w : World) (d : Drive)
    (hbad : StatusBad (cycleStatus env w)) :
    driveAfter Pin.charge_dis d (emitted w (cycle env l w).2) = Drive.low ∧
    ledBlinks (emitted w (cycle env l w).2) = 0 ∧
    driveAfter Pin.led_cntrl d (emitted w (cycle env l w).2) = Drive.high := by
  obtain ⟨pre, hall, he⟩ := cycle_emitted_chargerBranch env l w (fun hc => hc.2 hbad)
  have hcb : chargerBranchEffects (decide (StatusBad (cycleStatus env w))) (cycleStatus env w).1 =
      badReadEffects := by
    unfold chargerBranchEffects
    simp [hbad]
  rw [he, hcb, checkStatusEffects_bad l _ hbad]
  refine ⟨?_, ?_, ?_⟩
  · rw [driveAfter_append, driveAfter_onBus Pin.charge_dis (by decide) (by decide) d pre hall]
    cases d <;> decide
  · unfold ledBlinks
    rw [blinkCountFrom_onBus false pre _ hall]
    decide
  · rw [driveAfter_append, driveAfter_onBus Pin.led_cntrl (by decide) (by decide) d pre hall]
    cases d <;> decide

/-! ## Which rule issues a shutdown -/

theorem overTempShutdown_iff (env : Env) (l : Locals) (w : World) :
    overTempShutdown env l w ↔
      Effect.system Command.shutdownNow ∈
        checkStatusEffects l (cycleStatus env w).1 (cycleStatus env w).2.error := by
  unfold overTempShutdown
  rw [emitted_of_trace
    (congrArg World.trace (checkStatus_eq l (cycleStatus env w).1 (cycleStatus env w).2).1)]

theorem not_mem_of_all_onBus (es : List Effect) (h : es.all Effect.onBus = true) :
    Effect.system Command.shutdownNow ∉ es := by
  intro hm
  have h1 := List.all_eq_true.mp h _ hm
  exact absurd h1 (by decide)

/-- The system call of the over-temperature rule is part of the effects of the cycle. -/
theorem shutdownIssued_of_overTempShutdown (env : Env) (l : Locals) (w : World)
    (h : overTempShutdown env l w) : shutdownIssued env l w := by
  rw [overTempShutdown_iff] at h
  unfold shutdownIssued
  by_cases hb : (cycleStatus env w).1 &&& 0x0040 = 0x0040 ∧ ¬ StatusBad (cycleStatus env w)
  · obtain ⟨pre, mid, a, _, _, he⟩ := cycle_emitted_dischargeBranch env l w hb.2 hb.1
    rw [he]
    exact List.mem_append_right _ (List.mem_append_left _ h)
  · obtain ⟨pre, _, he⟩ := cycle_emitted_chargerBranch env l w hb
    rw [he]
    exact List.mem_append_right _ (List.mem_append_left _ h)

/-- In a cycle that takes the charger branch, the over-temperature rule is the only one
that can issue a shutdown. -/
theorem overTempShutdown_of_shutdownIssued (env : Env) (l : Locals) (w : World)
    (hb : ¬ ((cycleStatus env w).1 &&& 0x0040 = 0x0040 ∧ ¬ StatusBad (cycleStatus env w)))
    (h : shutdownIssued env l w) : overTempShutdown env l w := by
  rw [overTempShutdown_iff]
  unfold shutdownIssued at h
  obtain ⟨pre, hall, he⟩ := cycle_emitted_chargerBranch env l w hb
  rw [he] at h
  rcases List.mem_append.mp h with h | h
  · exact absurd h (not_mem_of_all_onBus pre hall)
  · rcases List.mem_append.mp h with h | h
    · exact h
    · exfalso
      revert h
      unfold chargerBranchEffects
      split_ifs <;> decide

/-! ## The cycle in closed form -/

theorem enableDellBattery_eq (env : Env) (w : World) :
    enableDellBattery env w =
      { error := w.error || env w.reads || env (w.reads + 1) || env (w.reads + 2) ||
          env (w.reads + 3),
        reads := w.reads + 4,
        trace := w.trace ++ enableAt env w.reads } := by
  simp only [enableDellBattery, send8_eq, stopbus_eq, World.extend, enableAt, enableEffects,
    List.append_assoc, Nat.add_assoc]

theorem registerRead_trace (ptr : Int) (env : Env) (w : World) :
    (registerRead ptr env w).2.trace = w.trace ++ readAt ptr env w.reads := by
  rw [registerRead_eq]
  rfl

theorem registerRead_reads (ptr : Int) (env : Env) (w : World) :
    (registerRead ptr env w).2.reads = w.reads + 19 := by
  rw [registerRead_eq]

theorem registerRead_error (ptr : Int) (env : Env) (w : World) :
    (registerRead ptr env w).2.error =
      (w.error || env w.reads || env (w.reads + 1) || env (w.reads + 2)) := by
  rw [registerRead_eq]

/-- The status read: the first attempt when it is good, the second attempt otherwise. -/
theorem readBatteryStatus_cases (env : Env) (w : World) :
    readBatteryStatus env w =
      if StatusBad (statusFirst env w) then statusSecond env w else statusFirst env w := by
  rw [readBatteryStatus_eq]
  rfl

theorem readBatteryStatus_trace (env : Env) (w : World) :
    (readBatteryStatus env w).2.trace = w.trace ++ statusReadEffects env w := by
  rw [readBatteryStatus_cases]
  unfold statusReadEffects
  split_ifs
  · unfold statusSecond statusFirst
    rw [registerRead_trace, registerRead_reads, registerRead_trace, List.append_assoc]
  · unfold statusFirst
    rw [registerRead_trace]

/-- The State-of-Charge read: the first attempt when it is good, else the second. -/
theorem readSoc_cases (env : Env) (w : World) :
    readSoc env w =
      if SocRetry (socFirst env w) then
        (((socSecond env w).1 : Int), (socSecond env w).2)
      else
        (((socFirst env w).1 : Int), (socFirst env w).2) := by
  rw [readSoc_eq]
  unfold SocRetry socSecond socFirst
  by_cases h : 150 ≤ (registerRead 0x0d env { w with error := false }).1 ∨
      (registerRead 0x0d env { w with error := false }).2.error = true
  · rw [if_pos h, if_pos h.symm]
  · rw [if_neg h, if_neg (fun hc => h hc.symm)]

theorem readSoc_trace (env : Env) (w : World) :
    (readSoc env w).2.trace = w.trace ++ socReadEffects env w := by
  rw [readSoc_cases]
  unfold socReadEffects
  split_ifs
  · unfold socSecond socFirst
    rw [registerRead_trace, registerRead_reads, registerRead_trace, List.append_assoc]
  · unfold socFirst
    rw [registerRead_trace]

theorem socRules_trace_action (soc old_soc : Int) (w : World) :
    (socRules soc old_soc w).trace = w.trace ++ (socAction soc old_soc).effects := by
  rw [socRules_trace]
  unfold socAction
  split_ifs <;> rfl

theorem cycleStatus_trace (env : Env) (w : World) :
    (cycleStatus env w).2.trace =
      w.trace ++ (enableAt env w.reads ++ statusReadEffects env (cycleStatusStart env w)) := by
  unfold cycleStatus cycleStatusStart
  rw [readBatteryStatus_trace, enableDellBattery_eq, List.append_assoc]

theorem cycleCheck_trace (env : Env) (l : Locals) (w : World) :
    (cycleCheck env l w).2.trace =
      (cycleStatus env w).2.trace ++
        checkStatusEffects l (cycleStatus env w).1 (cycleStatus env w).2.error := by
  unfold cycleCheck
  rw [(checkStatus_eq l _ _).1]
  rfl

theorem cycleCheck_bad_bat_stat (env : Env) (l : Locals) (w : World) :
    (cycleCheck env l w).1.bad_bat_stat = decide (StatusBad (cycleStatus env w)) :=
  (checkStatus_eq l _ _).2.1

theorem cycleCheck_old_soc (env : Env) (l : Locals) (w : World) :
    (cycleCheck env l w).1.old_soc = l.old_soc :=
  (checkStatus_eq l _ _).2.2

/-- A cycle that takes the discharge branch. -/
theorem cycle_discharging (env : Env) (l : Locals) (w : World) (h : Discharging env w) :
    cycle env l w =
      ({ (cycleCheck env l w).1 with old_soc := (cycleSoc env l w).1 },
        delay 29000 (socRules (cycleSoc env l w).1 l.old_soc (cycleSoc env l w).2)) := by
  have hb : (cycleCheck env l w).1.bad_bat_stat = false := by
    rw [cycleCheck_bad_bat_stat]
    simpa using h.2
  have hcl : chargerLogic env (cycleCheck env l w).1 (cycleStatus env w).1
      (cycleCheck env l w).2 =
      dischargeBranch env (cycleCheck env l w).1 (cycleCheck env l w).2 := by
    unfold chargerLogic
    simp only [cInt_and_ne_zero, beq_iff_eq, hb]
    rw [if_pos]
    exact ⟨by simpa using h.1, rfl⟩
  rw [cycle_eq]
  change ((chargerLogic env (cycleCheck env l w).1 (cycleStatus env w).1
      (cycleCheck env l w).2).1,
    delay 29000 (chargerLogic env (cycleCheck env l w).1 (cycleStatus env w).1
      (cycleCheck env l w).2).2) = _
  rw [hcl]
  unfold dischargeBranch
  rw [cycleCheck_old_soc]
  rfl

/-- A cycle that takes the charger branch. -/
theorem cycle_not_discharging (env : Env) (l : Locals) (w : World) (h : ¬ Discharging env w) :
    cycle env l w =
      ((cycleCheck env l w).1,
        delay 29000
          (chargerBranch (cycleCheck env l w).1 (cycleStatus env w).1 (cycleCheck env l w).2)) := by
  have hcl : chargerLogic env (cycleCheck env l w).1 (cycleStatus env w).1
      (cycleCheck env l w).2 =
      ((cycleCheck env l w).1,
        chargerBranch (cycleCheck env l w).1 (cycleStatus env w).1 (cycleCheck env l w).2) := by
    unfold chargerLogic
    simp only [cInt_and_ne_zero, beq_iff_eq, cycleCheck_bad_bat_stat]
    rw [if_neg]
    simpa [Discharging] using h
  rw [cycle_eq]
  change ((chargerLogic env (cycleCheck env l w).1 (cycleStatus env w).1
      (cycleCheck env l w).2).1,
    delay 29000 (chargerLogic env (cycleCheck env l w).1 (cycleStatus env w).1
      (cycleCheck env l w).2).2) = _
  rw [hcl]

/-- The effects of a cycle, in every branch. -/
theorem cycle_trace (env : Env) (l : Locals) (w : World) :
    (cycle env l w).2.trace = w.trace ++ cycleEffects env l w := by
  unfold cycleEffects cycleTailEffects
  by_cases h : Discharging env w
  · rw [cycle_discharging env l w h, if_pos h]
    simp only [delay, emit_trace, socRules_trace_action]
    unfold cycleSoc
    rw [readSoc_trace]
    unfold cycleSocStart
    simp only [go_0, emit_trace, cycleCheck_trace, cycleStatus_trace, List.append_assoc,
      List.singleton_append, List.cons_append, List.nil_append]
  · rw [cycle_not_discharging env l w h, if_neg h]
    simp only [delay, emit_trace, chargerBranch_eq, World.extend_trace, cycleCheck_trace,
      cycleStatus_trace, cycleCheck_bad_bat_stat, List.append_assoc]

theorem cycle_emitted (env : Env) (l : Locals) (w : World) :
    emitted w (cycle env l w).2 = cycleEffects env l w :=
  emitted_of_trace (cycle_trace env l w)

theorem cycle_bad_bat_stat (env : Env) (l : Locals) (w : World) :
    (cycle env l w).1.bad_bat_stat = decide (StatusBad (cycleStatus env w)) := by
  by_cases h : Discharging env w
  · rw [cycle_discharging env l w h]
    exact cycleCheck_bad_bat_stat env l w
  · rw [cycle_not_discharging env l w h]
    exact cycleCheck_bad_bat_stat env l w

theorem cycleStatus_cases (env : Env) (w : World) :
    cycleStatus env w =
      if StatusBad (statusFirst env (cycleStatusStart env w)) then
        statusSecond env (cycleStatusStart env w)
      else
        statusFirst env (cycleStatusStart env w) := by
  unfold cycleStatus cycleStatusStart
  exact readBatteryStatus_cases env _

/-- The status read of a cycle is flagged bad exactly when both attempts failed. -/
theorem statusBad_iff (env : Env) (w : World) :
    StatusBad (cycleStatus env w) ↔
      (StatusBad (statusFirst env (cycleStatusStart env w)) ∧
        StatusBad (statusSecond env (cycleStatusStart env w))) := by
  rw [cycleStatus_cases]
  split_ifs with h
  · exact ⟨fun h2 => ⟨h, h2⟩, fun h2 => h2.2⟩
  · exact ⟨fun h2 => absurd h2 h, fun h2 => absurd h2.1 h⟩

theorem not_discharging_of_bad (env : Env) (w : World) (hbad : StatusBad (cycleStatus env w)) :
    ¬ Discharging env w := fun h => h.2 hbad

theorem calls_enableEffects (a1 a2 a3 a4 : Bool) :
    calls (enableEffects a1 a2 a3 a4) = enableCalls := by
  unfold enableEffects
  simp only [calls_append, calls_send8Effects]
  rfl

theorem calls_readAt (ptr : Int) (env : Env) (r : Nat) :
    calls (readAt ptr env r) = registerReadCalls (toChar charIsSigned ptr) :=
  calls_registerReadEffects ptr _ _ _ _ _

theorem calls_readAt_status (env : Env) (r : Nat) :
    calls (readAt 0x16 env r) = registerReadCalls 0x16 := by
  rw [calls_readAt]
  rfl

theorem calls_readAt_soc (env : Env) (r : Nat) :
    calls (readAt 0x0d env r) = registerReadCalls 0x0d := by
  rw [calls_readAt]
  rfl

theorem cycle_over_temp_count_of_bad (env : Env) (l : Locals) (w : World)
    (hbad : StatusBad (cycleStatus env w)) :
    (cycle env l w).1.over_temp_count = l.over_temp_count := by
  have hb : (cycleStatus env w).1 = 0xffff ∨ (cycleStatus env w).2.error = true := hbad
  rw [cycle_over_temp_count]
  unfold checkStatus
  simp only [cInt_or_ne_zero, beq_iff_eq]
  rw [if_pos hb]

theorem cycle_old_soc_of_not_discharging (env : Env) (l : Locals) (w : World)
    (h : ¬ Discharging env w) : (cycle env l w).1.old_soc = l.old_soc := by
  rw [cycle_not_discharging env l w h]
  exact cycleCheck_old_soc env l w

/-- The effects of a cycle whose status read is flagged bad. -/
theorem cycleEffects_of_bad (env : Env) (l : Locals) (w : World)
    (hbad : StatusBad (cycleStatus env w)) :
    cycleEffects env l w =
      enableAt env w.reads ++
        ((readAt 0x16 env (cycleStatusStart env w).reads ++
            readAt 0x16 env ((cycleStatusStart env w).reads + 19)) ++
          ([Effect.go_1 Pin.led_cntrl] ++ (badReadEffects ++ [Effect.delay 29000]))) := by
  have h1 := ((statusBad_iff env w).mp hbad).1
  unfold cycleEffects cycleTailEffects statusReadEffects chargerBranchEffects
  rw [if_pos h1, if_neg (not_discharging_of_bad env w hbad), checkStatusEffects_bad l _ hbad]
  simp [hbad]

theorem calls_cycleEffects_of_bad (env : Env) (l : Locals) (w : World)
    (hbad : StatusBad (cycleStatus env w)) :
    calls (cycleEffects env l w) =
      enableCalls ++ (registerReadCalls 0x16 ++ registerReadCalls 0x16) := by
  rw [cycleEffects_of_bad env l w hbad]
  simp only [calls_append, calls_readAt_status, enableAt, calls_enableEffects]
  have h1 : calls [Effect.go_1 Pin.led_cntrl] = [] := rfl
  have h2 : calls badReadEffects = [] := rfl
  have h3 : calls [Effect.delay 29000] = [] := rfl
  rw [h1, h2, h3]
  simp

theorem not_shutdownIssued_of_bad (env : Env) (l : Locals) (w : World)
    (hbad : StatusBad (cycleStatus env w)) : ¬ shutdownIssued env l w := by
  intro hs
  have h1 := overTempShutdown_of_shutdownIssued env l w (fun hc => hc.2 hbad) hs
  rw [overTempShutdown_iff, checkStatusEffects_bad l _ hbad] at h1
  exact absurd h1 (by decide)

theorem sampledLevels_append (es fs : List Effect) :
    sampledLevels (es ++ fs) = sampledLevels es ++ sampledLevels fs := by
  simp [sampledLevels, List.filterMap_append]

theorem sampledLevels_send8LoopEffects (isSigned : Bool) (sendbits : Int) (n : Nat)
    (mask : Int) : sampledLevels (send8LoopEffects isSigned sendbits n mask) = [] := by
  induction n generalizing mask with
  | zero => rfl
  | succ n ih =>
    have h := ih (toChar isSigned (mask >>> 1))
    simp only [sampledLevels] at h
    simp only [send8LoopEffects, sampledLevels, clockPulse]
    split_ifs <;> simp [h]

theorem sampledLevels_send8Effects (isSigned : Bool) (arg : Int) (ack : Bool) :
    sampledLevels (send8Effects isSigned arg ack) = [ack] := by
  have h := sampledLevels_send8LoopEffects isSigned (toChar isSigned arg) 8
    (toChar isSigned 0x80)
  simp only [sampledLevels] at h
  simp [send8Effects, sampledLevels, send8AckEffects, List.filterMap_append, h]

theorem sampledLevels_readAt (ptr : Int) (env : Env) (r : Nat) :
    sampledLevels (readAt ptr env r) =
      [env r, env (r + 1), env (r + 2)] ++ samples env (r + 3) 16 := by
  have h1 : sampledLevels startbusEffects = [] := rfl
  have h2 : sampledLevels sendrptstartEffects = [] := rfl
  have h3 : sampledLevels stopbusEffects = [] := rfl
  have h4 : samples env (r + 3) 16 = samples env (r + 3) 8 ++ samples env (r + 11) 8 :=
    samples_append env (r + 3) 8 8
  unfold readAt registerReadEffects
  simp only [sampledLevels_append, sampledLevels_send8Effects, sampledLevels_read16Effects,
    h1, h2, h3, h4]
  simp

theorem cycles_succ (env : Env) (n : Nat) (l : Locals) (w : World) :
    cycles env (n + 1) l w = cycle env (cycles env n l w).1 (cycles env n l w).2 := by
  induction n generalizing l w with
  | zero => rfl
  | succ n ih =>
    have h : cycles env (n + 1 + 1) l w =
        cycles env (n + 1) (cycle env l w).1 (cycle env l w).2 := rfl
    rw [h, ih]
    rfl

theorem cycle_old_soc_of_discharging (env : Env) (l : Locals) (w : World)
    (h : Discharging env w) : (cycle env l w).1.old_soc = (cycleSoc env l w).1 := by
  rw [cycle_discharging env l w h]

/-- The value used by the State-of-Charge read: the first sample when the first attempt is
accepted, the second sample otherwise. -/
theorem cycleSoc_value (env : Env) (l : Locals) (w : World) :
    (cycleSoc env l w).1 =
      if SocRetry (socFirst env (cycleSocStart env l w)) then
        ((socSecond env (cycleSocStart env l w)).1 : Int)
      else
        ((socFirst env (cycleSocStart env l w)).1 : Int) := by
  unfold cycleSoc
  rw [readSoc_cases]
  split_ifs <;> rfl

theorem cycleSoc_value_bounds (env : Env) (l : Locals) (w : World) :
    0 ≤ (cycleSoc env l w).1 ∧ (cycleSoc env l w).1 < 65536 := by
  rw [cycleSoc_value]
  have h1 := registerRead_value_lt 0x0d env (cycleSocStart env l w).clearError
  have h2 := registerRead_value_lt 0x0d env
    (registerRead 0x0d env (cycleSocStart env l w).clearError).2
  unfold socSecond socFirst
  split_ifs
  · exact ⟨Int.natCast_nonneg _, by exact_mod_cast h2⟩
  · exact ⟨Int.natCast_nonneg _, by exact_mod_cast h1⟩

/-- One cycle keeps `old_soc` within the range of a 16-bit word. -/
theorem cycle_old_soc_bounds (env : Env) (l : Locals) (w : World)
    (h : 0 ≤ l.old_soc ∧ l.old_soc < 65536) :
    0 ≤ (cycle env l w).1.old_soc ∧ (cycle env l w).1.old_soc < 65536 := by
  by_cases hd : Discharging env w
  · rw [cycle_old_soc_of_discharging env l w hd]
    exact cycleSoc_value_bounds env l w
  · rw [cycle_old_soc_of_not_discharging env l w hd]
    exact h

theorem cycles_old_soc_bounds (env : Env) (n : Nat) (l : Locals) (w : World)
    (h : 0 ≤ l.old_soc ∧ l.old_soc < 65536) :
    0 ≤ (cycles env n l w).1.old_soc ∧ (cycles env n l w).1.old_soc < 65536 := by
  induction n with
  | zero => exact h
  | succ n ih =>
    rw [cycles_succ]
    exact cycle_old_soc_bounds env _ _ ih

/-! ## What follows a shutdown -/

theorem afterShutdown_append (es fs : List Effect)
    (h : Effect.system Command.shutdownNow ∉ es) :
    afterShutdown (es ++ Effect.system Command.shutdownNow :: fs) = fs := by
  induction es with
  | nil => simp [afterShutdown]
  | cons e es ih =>
    have h1 : e ≠ Effect.system Command.shutdownNow := fun hc => h (by simp [hc])
    have h2 : Effect.system Command.shutdownNow ∉ es := fun hc => h (by simp [hc])
    simp only [List.cons_append, afterShutdown, if_neg h1]
    exact ih h2

theorem send8Effects_onBus (isSigned : Bool) (arg : Int) (ack : Bool) :
    (send8Effects isSigned arg ack).all Effect.onBus = true := by
  simp [send8Effects, send8AckEffects, List.all_append, send8LoopEffects_onBus, Effect.onBus]

theorem read16Effects_onBus (lo hi : List Bool) :
    (read16Effects lo hi).all Effect.onBus = true := by
  simp [read16Effects, read16AckEffects, read16NackEffects, List.all_append,
    read16LoopEffects_onBus, Effect.onBus]

theorem readAt_onBus (ptr : Int) (env : Env) (r : Nat) :
    (readAt ptr env r).all Effect.onBus = true := by
  have h1 : startbusEffects.all Effect.onBus = true := by decide
  have h2 : sendrptstartEffects.all Effect.onBus = true := by decide
  have h3 : stopbusEffects.all Effect.onBus = true := by decide
  simp [readAt, registerReadEffects, List.all_append, send8Effects_onBus, read16Effects_onBus,
    h1, h2, h3]

theorem enableAt_onBus (env : Env) (r : Nat) : (enableAt env r).all Effect.onBus = true := by
  have h3 : stopbusEffects.all Effect.onBus = true := by decide
  simp [enableAt, enableEffects, List.all_append, send8Effects_onBus, h3]

theorem statusReadEffects_onBus (env : Env) (w : World) :
    (statusReadEffects env w).all Effect.onBus = true := by
  unfold statusReadEffects
  split_ifs <;> simp [List.all_append, readAt_onBus]

theorem socReadEffects_onBus (env : Env) (w : World) :
    (socReadEffects env w).all Effect.onBus = true := by
  unfold socReadEffects
  split_ifs <;> simp [List.all_append, readAt_onBus]

/-- When the over-temperature rule issues the shutdown, the status check does nothing
else, and the status read is good. -/
theorem checkStatusEffects_of_overTempShutdown (env : Env) (l : Locals) (w : World)
    (h : overTempShutdown env l w) :
    checkStatusEffects l (cycleStatus env w).1 (cycleStatus env w).2.error =
      [Effect.system Command.shutdownNow] ∧ ¬ StatusBad (cycleStatus env w) := by
  rw [overTempShutdown_iff] at h
  by_cases hb : StatusBad (cycleStatus env w)
  · rw [checkStatusEffects_bad l _ hb] at h
    exact absurd h (by decide)
  · rcases checkStatusEffects_good l _ hb with h1 | h1
    · rw [h1] at h
      exact absurd h (by decide)
    · exact ⟨h1, hb⟩

/-- After the shutdown of the over-temperature rule the cycle goes on with everything
that follows the status check. -/
theorem afterShutdown_of_overTempShutdown (env : Env) (l : Locals) (w : World)
    (h : overTempShutdown env l w) :
    afterShutdown (emitted w (cycle env l w).2) = cycleTailEffects env l w := by
  have h1 := (checkStatusEffects_of_overTempShutdown env l w h).1
  have h2 : Effect.system Command.shutdownNow ∉
      enableAt env w.reads ++ statusReadEffects env (cycleStatusStart env w) :=
    not_mem_of_all_onBus _ (by simp [List.all_append, enableAt_onBus, statusReadEffects_onBus])
  rw [cycle_emitted]
  unfold cycleEffects
  rw [h1, ← List.append_assoc, List.singleton_append]
  exact afterShutdown_append _ _ h2

/-- After a good status read the rest of the cycle acts on the charger pin. -/
theorem cycleTailEffects_charger_action (env : Env) (l : Locals) (w : World)
    (hgood : ¬ StatusBad (cycleStatus env w)) :
    Effect.go_0 Pin.charge_dis ∈ cycleTailEffects env l w ∨
      Effect.go_1 Pin.charge_dis ∈ cycleTailEffects env l w := by
  unfold cycleTailEffects
  split_ifs
  · exact Or.inl (List.mem_cons_self _ _)
  · unfold chargerBranchEffects
    have hg : decide (StatusBad (cycleStatus env w)) = false := by simpa using hgood
    rw [hg]
    split_ifs
    · exact Or.inr (List.mem_append_left _ (by decide))
    · exact Or.inl (List.mem_append_left _ (by decide))
    · exact Or.inl (List.mem_append_left _ (by decide))

/-- When the State-of-Charge rule issues the shutdown, only the final delay follows. -/
theorem cycleEffects_of_socShutdown (env : Env) (l : Locals) (w : World)
    (hd : Discharging env w)
    (hs : socAction (cycleSoc env l w).1 l.old_soc = SocAction.shutdown) :
    cycleEffects env l w =
      (enableAt env w.reads ++ (statusReadEffects env (cycleStatusStart env w) ++
        (checkStatusEffects l (cycleStatus env w).1 (cycleStatus env w).2.error ++
          (Effect.go_0 Pin.charge_dis :: socReadEffects env (cycleSocStart env l w))))) ++
        [Effect.system Command.shutdownNow, Effect.delay 29000] := by
  unfold cycleEffects cycleTailEffects
  rw [if_pos hd, hs]
  simp [SocAction.effects]

theorem cycleEffects_head (env : Env) (l : Locals) (w : World) :
    (cycleEffects env l w).head? = some (Effect.enter (BusFn.send8 0x16)) := by
  unfold cycleEffects enableAt enableEffects send8Effects
  rfl

/-! ## Delays -/

theorem usDelay_append (es fs : List Effect) : usDelay (es ++ fs) = usDelay es + usDelay fs := by
  simp [usDelay]

theorem msDelay_append (es fs : List Effect) : msDelay (es ++ fs) = msDelay es + msDelay fs := by
  simp [msDelay]

theorem usDelay_cons (e : Effect) (es : List Effect) : usDelay (e :: es) = e.us + usDelay es := by
  simp [usDelay]

theorem msDelay_cons (e : Effect) (es : List Effect) : msDelay (e :: es) = e.ms + msDelay es := by
  simp [msDelay]

theorem msDelay_onBus (es : List Effect) (h : es.all Effect.onBus = true) : msDelay es = 0 := by
  induction es with
  | nil => rfl
  | cons e es ih =>
    simp only [List.all_cons, Bool.and_eq_true] at h
    rw [msDelay_cons, ih h.2]
    cases e <;> simp_all [Effect.ms, Effect.onBus]

theorem usDelay_send8LoopEffects (isSigned : Bool) (sendbits : Int) (n : Nat) (mask : Int) :
    usDelay (send8LoopEffects isSigned sendbits n mask) = 40 * n := by
  induction n generalizing mask with
  | zero => rfl
  | succ n ih =>
    simp only [send8LoopEffects, usDelay_cons, usDelay_append, ih]
    have h : usDelay clockPulse = 30 := rfl
    rw [h]
    split_ifs <;> simp [Effect.us] <;> omega

theorem usDelay_send8Effects (isSigned : Bool) (arg : Int) (ack : Bool) :
    usDelay (send8Effects isSigned arg ack) = 1290 := by
  have h : usDelay (send8AckEffects ack) = 970 := by
    simp [usDelay, send8AckEffects, Effect.us]
  simp only [send8Effects, usDelay_cons, usDelay_append, usDelay_send8LoopEffects, h]
  simp [Effect.us]

theorem usDelay_read16LoopEffects (levels : List Bool) :
    usDelay (read16LoopEffects levels) = 40 * levels.length := by
  induction levels with
  | nil => rfl
  | cons lv levels ih =>
    have h : usDelay clockPulse = 30 := rfl
    simp only [read16LoopEffects, usDelay_cons, usDelay_append, ih, h, List.length_cons]
    simp [Effect.us]
    omega

theorem usDelay_read16Effects (lo hi : List Bool) (hlo : lo.length = 8) (hhi : hi.length = 8) :
    usDelay (read16Effects lo hi) = 1220 := by
  have h1 : usDelay read16AckEffects = 450 := rfl
  have h2 : usDelay read16NackEffects = 130 := rfl
  simp only [read16Effects, usDelay_cons, usDelay_append, usDelay_read16LoopEffects, h1, h2, hlo,
    hhi]
  rfl

theorem usDelay_readAt (ptr : Int) (env : Env) (r : Nat) : usDelay (readAt ptr env r) = 6730 := by
  have h1 : usDelay startbusEffects = 1050 := rfl
  have h2 : usDelay sendrptstartEffects = 280 := rfl
  have h3 : usDelay stopbusEffects = 310 := rfl
  simp only [readAt, registerReadEffects, usDelay_append, usDelay_send8Effects,
    usDelay_read16Effects _ _ (samples_length _ _ _) (samples_length _ _ _), h1, h2, h3]

theorem usDelay_enableAt (env : Env) (r : Nat) : usDelay (enableAt env r) = 5470 := by
  have h3 : usDelay stopbusEffects = 310 := rfl
  simp only [enableAt, enableEffects, usDelay_append, usDelay_send8Effects, h3]

theorem usDelay_statusReadEffects (env : Env) (w : World) :
    usDelay (statusReadEffects env w) = 6730 * statusReadCount env w := by
  unfold statusReadEffects statusReadCount
  split_ifs <;> simp [usDelay_append, usDelay_readAt]

theorem usDelay_socReadEffects (env : Env) (w : World) :
    usDelay (socReadEffects env w) = 6730 * socReadCount env w := by
  unfold socReadEffects socReadCount
  split_ifs <;> simp [usDelay_append, usDelay_readAt]

theorem usDelay_checkStatusEffects (l : Locals) (bat_stat : Nat) (err : Bool) :
    usDelay (checkStatusEffects l bat_stat err) = 0 := by
  unfold checkStatusEffects
  split_ifs <;> rfl

theorem msDelay_checkStatusEffects (l : Locals) (bat_stat : Nat) (err : Bool) :
    msDelay (checkStatusEffects l bat_stat err) = 0 := by
  unfold checkStatusEffects
  split_ifs <;> rfl

theorem usDelay_socAction (a : SocAction) : usDelay a.effects = 0 := by
  cases a <;> rfl

theorem msDelay_socAction (a : SocAction) : msDelay a.effects = a.ms := by
  cases a <;> rfl

theorem usDelay_chargerBranchEffects (bad : Bool) (bat_stat : Nat) :
    usDelay (chargerBranchEffects bad bat_stat) = 0 := by
  unfold chargerBranchEffects
  split_ifs <;> rfl

theorem msDelay_chargerBranchEffects (bad : Bool) (bat_stat : Nat) :
    msDelay (chargerBranchEffects bad bat_stat) =
      if bat_stat &&& 0x0020 = 0x0020 ∧ bad = false then 1250
      else if bad = false then 999 else 0 := by
  unfold chargerBranchEffects
  split_ifs <;> rfl

/-- The microsecond delays of a cycle: those of the enable sequence and of its register
reads. -/
theorem usDelay_cycleEffects (env : Env) (l : Locals) (w : World) :
    usDelay (cycleEffects env l w) = 5470 + 6730 * cycleReadCount env l w := by
  unfold cycleEffects cycleTailEffects cycleReadCount
  simp only [usDelay_append, usDelay_enableAt, usDelay_statusReadEffects,
    usDelay_checkStatusEffects]
  split_ifs
  · simp only [usDelay_cons, usDelay_append, usDelay_socReadEffects, usDelay_socAction]
    simp [Effect.us, usDelay]
    ring
  · simp only [usDelay_append, usDelay_chargerBranchEffects]
    simp [usDelay, Effect.us]

/-- The millisecond delays of a cycle: those of its indicator and the final 29000. -/
theorem msDelay_cycleEffects (env : Env) (l : Locals) (w : World) :
    msDelay (cycleEffects env l w) = cycleIndicatorMs env l w + 29000 := by
  unfold cycleEffects cycleTailEffects cycleIndicatorMs
  simp only [msDelay_append, msDelay_onBus _ (enableAt_onBus _ _),
    msDelay_onBus _ (statusReadEffects_onBus _ _), msDelay_checkStatusEffects]
  split_ifs with h1 h2 h3
  · simp only [msDelay_cons, msDelay_append, msDelay_onBus _ (socReadEffects_onBus _ _),
      msDelay_socAction]
    simp [Effect.ms, msDelay]
  · rw [msDelay_append, msDelay_chargerBranchEffects]
    simp [h2, msDelay, Effect.ms]
  · rw [msDelay_append, msDelay_chargerBranchEffects]
    simp [h2, h3, msDelay, Effect.ms]
  · rw [msDelay_append, msDelay_chargerBranchEffects]
    simp [h2, h3, msDelay, Effect.ms]

theorem cycleReadCount_bounds (env : Env) (l : Locals) (w : World) :
    1 ≤ cycleReadCount env l w ∧ cycleReadCount env l w ≤ 4 ∧
    (Discharging env w → 2 ≤ cycleReadCount env l w) ∧
    (StatusBad (cycleStatus env w) → cycleReadCount env l w = 2) := by
  unfold cycleReadCount statusReadCount socReadCount
  refine ⟨?_, ?_, ?_, ?_⟩
  · split_ifs <;> omega
  · split_ifs <;> omega
  · intro hd
    rw [if_pos hd]
    split_ifs <;> omega
  · intro hbad
    rw [if_pos ((statusBad_iff env w).mp hbad).1, if_neg (not_discharging_of_bad env w hbad)]

theorem cycleEffects_ends_with_delay (env : Env) (l : Locals) (w : World) :
    ∃ before : List Effect, cycleEffects env l w = before ++ [Effect.delay 29000] := by
  unfold cycleEffects cycleTailEffects
  split_ifs
  · exact ⟨enableAt env w.reads ++ (statusReadEffects env (cycleStatusStart env w) ++
      (checkStatusEffects l (cycleStatus env w).1 (cycleStatus env w).2.error ++
        (Effect.go_0 Pin.charge_dis :: (socReadEffects env (cycleSocStart env l w) ++
          (socAction (cycleSoc env l w).1 l.old_soc).effects)))), by simp⟩
  · exact ⟨enableAt env w.reads ++ (statusReadEffects env (cycleStatusStart env w) ++
      (checkStatusEffects l (cycleStatus env w).1 (cycleStatus env w).2.error ++
        chargerBranchEffects (decide (StatusBad (cycleStatus env w))) (cycleStatus env w).1)),
      by simp⟩

/-- The delays of a cycle never add up to 30 seconds, and lie between 29.01893 s and
31.53239 s. -/
theorem delayTotal_cycleEffects (env : Env) (l : Locals) (w : World) :
    delayTotal (cycleEffects env l w) ≠ 30000000 ∧
    29018930 ≤ delayTotal (cycleEffects env l w) ∧
    delayTotal (cycleEffects env l w) ≤ 31532390 := by
  obtain ⟨h1, h2, h3, h4⟩ := cycleReadCount_bounds env l w
  unfold delayTotal
  rw [usDelay_cycleEffects, msDelay_cycleEffects]
  unfold cycleIndicatorMs
  by_cases hd : Discharging env w
  · have h5 := h3 hd
    rw [if_pos hd]
    cases socAction (cycleSoc env l w).1 l.old_soc <;> simp only [SocAction.ms] <;> omega
  · rw [if_neg hd]
    by_cases hb : StatusBad (cycleStatus env w)
    · have h5 := h4 hb
      rw [if_pos hb]
      omega
    · rw [if_neg hb]
      split_ifs <;> omega

/-! ## The current read of read_battery.c -/

theorem cInt_or4_ne_zero (a b c d : Bool) :
    (cInt a ||| cInt b ||| cInt c ||| cInt d ≠ 0) ↔
      (a = true ∨ b = true ∨ c = true ∨ d = true) := by
  cases a <;> cases b <;> cases c <;> cases d <;> decide

theorem readCurrent_cases (env : Env) (w : World) :
    readCurrent env w =
      if CurrentRetry (currentFirst env w) then
        (toShort (currentSecond env w).1, (currentSecond env w).2)
      else
        (toShort (currentFirst env w).1, (currentFirst env w).2) := by
  unfold readCurrent
  simp only [cInt_or4_ne_zero, decide_eq_true_eq]
  split_ifs with h1 h2 h2
  · rfl
  · exact absurd h1 h2
  · exact absurd h2 h1
  · rfl

theorem toShort_of_lt (v : Nat) (h : v < 65536) :
    toShort (v : Int) = if v < 32768 then (v : Int) else (v : Int) - 65536 := by
  unfold toShort
  split_ifs <;> omega

theorem toShort_eq_neg_one (v : Nat) (h : v < 65536) : toShort (v : Int) = -1 ↔ v = 0xffff := by
  rw [toShort_of_lt v h]
  split_ifs
  · constructor <;> intro hc <;> first | contradiction | omega
  · constructor <;> intro hc <;> first | contradiction | omega

theorem readCurrent_trace (env : Env) (w : World) :
    (readCurrent env w).2.trace =
      w.trace ++ (if CurrentRetry (currentFirst env w) then
        readAt 0x0a env w.reads ++ readAt 0x0a env (w.reads + 19)
      else readAt 0x0a env w.reads) := by
  rw [readCurrent_cases]
  split_ifs
  · unfold currentSecond currentFirst
    rw [registerRead_trace, registerRead_reads, registerRead_trace, List.append_assoc]
  · unfold currentFirst
    rw [registerRead_trace]

theorem calls_readAt_current (env : Env) (r : Nat) :
    calls (readAt 0x0a env r) = registerReadCalls 0x0a := by
  rw [calls_readAt]
  rfl

/-! ## The state of the bus lines along the closed forms -/

theorem setupbus_eq (w : World) : setupbus w = w.extend setupbusEffects := by
  simp [setupbus, setupbusEffects, go_z, delayMicroseconds, emit, World.extend]

theorem fnAfter_append (f : Option BusFn) (es fs : List Effect) :
    fnAfter f (es ++ fs) = fnAfter (fnAfter f es) fs := by
  simp [fnAfter, List.foldl_append]

theorem fnAfter_eq_calls (f : Option BusFn) (es : List Effect) :
    fnAfter f es = (calls es).foldl (fun _ g => some g) f := by
  induction es generalizing f with
  | nil => rfl
  | cons e es ih =>
    cases e <;> simp [fnAfter, fnStep, calls] <;> simpa [fnAfter, calls] using ih _

theorem fnAfter_of_calls (f : Option BusFn) (es : List Effect) (cs : List BusFn) (g : BusFn)
    (h : calls es = cs ++ [g]) : fnAfter f es = some g := by
  rw [fnAfter_eq_calls, h, List.foldl_append]
  rfl

theorem fnAfter_of_calls_nil (f : Option BusFn) (es : List Effect) (h : calls es = []) :
    fnAfter f es = f := by
  rw [fnAfter_eq_calls, h]
  rfl

theorem lineSteps_append (f : Option BusFn) (c d : Drive) (es fs : List Effect) :
    lineSteps f c d (es ++ fs) =
      lineSteps f c d es ++
        lineSteps (fnAfter f es) (driveAfter Pin.clock c es) (driveAfter Pin.data d es) fs := by
  induction es generalizing f c d with
  | nil => rfl
  | cons e es ih => simp [lineSteps, fnAfter, driveAfter, ih]

theorem lineSteps_all_append (Q : LineStep → Bool) (f : Option BusFn) (c d : Drive)
    (es fs : List Effect) :
    (lineSteps f c d (es ++ fs)).all Q =
      ((lineSteps f c d es).all Q &&
        (lineSteps (fnAfter f es) (driveAfter Pin.clock c es) (driveAfter Pin.data d es)
          fs).all Q) := by
  rw [lineSteps_append, List.all_append]

theorem driveStep_offBus (c : Drive) (e : Effect) (h : e.offBus = true) :
    driveStep Pin.clock c e = c ∧ driveStep Pin.data c e = c := by
  cases e <;> simp_all [Effect.offBus, driveStep]

theorem driveAfter_offBus (es : List Effect) (h : es.all Effect.offBus = true) (c : Drive) :
    driveAfter Pin.clock c es = c ∧ driveAfter Pin.data c es = c := by
  induction es with
  | nil => exact ⟨rfl, rfl⟩
  | cons e es ih =>
    rw [List.all_cons, Bool.and_eq_true] at h
    have h1 := driveStep_offBus c e h.1
    have h2 := ih h.2
    simp only [driveAfter, List.foldl_cons] at h2 ⊢
    rw [h1.1, h1.2]
    exact h2

theorem calls_offBus (es : List Effect) (h : es.all Effect.offBus = true) : calls es = [] := by
  induction es with
  | nil => rfl
  | cons e es ih =>
    rw [List.all_cons, Bool.and_eq_true] at h
    have := ih h.2
    cases e <;> simp_all [calls, Effect.offBus]

theorem fnAfter_offBus (es : List Effect) (h : es.all Effect.offBus = true)
    (f : Option BusFn) : fnAfter f es = f :=
  fnAfter_of_calls_nil f es (calls_offBus es h)

theorem driveAfter_send8AckEffects (ack : Bool) (c d : Drive) :
    driveAfter Pin.clock c (send8AckEffects ack) = Drive.low ∧
      driveAfter Pin.data d (send8AckEffects ack) = Drive.low := by
  constructor <;> rfl

theorem driveAfter_send8Effects (isSigned : Bool) (arg : Int) (ack : Bool) (c d : Drive) :
    driveAfter Pin.clock c (send8Effects isSigned arg ack) = Drive.low ∧
      driveAfter Pin.data d (send8Effects isSigned arg ack) = Drive.low := by
  unfold send8Effects
  rw [driveAfter_append, driveAfter_append]
  exact driveAfter_send8AckEffects ack _ _

theorem driveAfter_read16Effects (lo hi : List Bool) (c d : Drive) :
    driveAfter Pin.clock c (read16Effects lo hi) = Drive.low ∧
      driveAfter Pin.data d (read16Effects lo hi) = Drive.low := by
  unfold read16Effects
  simp only [driveAfter_append]
  constructor <;> rfl

theorem driveAfter_startbusEffects (c d : Drive) :
    driveAfter Pin.clock c startbusEffects = Drive.low ∧
      driveAfter Pin.data d startbusEffects = Drive.low := by
  constructor <;> rfl

theorem driveAfter_sendrptstartEffects (c d : Drive) :
    driveAfter Pin.clock c sendrptstartEffects = Drive.low ∧
      driveAfter Pin.data d sendrptstartEffects = Drive.low := by
  constructor <;> rfl

theorem driveAfter_stopbusEffects (c d : Drive) :
    driveAfter Pin.clock c stopbusEffects = Drive.released ∧
      driveAfter Pin.data d stopbusEffects = Drive.released := by
  constructor <;> rfl

theorem driveAfter_setupbusEffects (c d : Drive) :
    driveAfter Pin.clock c setupbusEffects = Drive.released ∧
      driveAfter Pin.data d setupbusEffects = Drive.released := by
  constructor <;> rfl

theorem driveAfter_registerReadEffects (ptr : Int) (a1 a2 a3 : Bool) (lo hi : List Bool)
    (c d : Drive) :
    driveAfter Pin.clock c (registerReadEffects ptr a1 a2 a3 lo hi) = Drive.released ∧
      driveAfter Pin.data d (registerReadEffects ptr a1 a2 a3 lo hi) = Drive.released := by
  unfold registerReadEffects
  simp only [driveAfter_append]
  exact driveAfter_stopbusEffects _ _

theorem driveAfter_readAt (ptr : Int) (env : Env) (r : Nat) (c d : Drive) :
    driveAfter Pin.clock c (readAt ptr env r) = Drive.released ∧
      driveAfter Pin.data d (readAt ptr env r) = Drive.released :=
  driveAfter_registerReadEffects _ _ _ _ _ _ c d

theorem driveAfter_enableAt (env : Env) (r : Nat) (c d : Drive) :
    driveAfter Pin.clock c (enableAt env r) = Drive.released ∧
      driveAfter Pin.data d (enableAt env r) = Drive.released := by
  unfold enableAt enableEffects
  simp only [driveAfter_append]
  exact driveAfter_stopbusEffects _ _

theorem fnAfter_readAt (ptr : Int) (env : Env) (r : Nat) (f : Option BusFn) :
    fnAfter f (readAt ptr env r) = some BusFn.stopbus :=
  fnAfter_of_calls f _ ((registerReadCalls (toChar charIsSigned ptr)).take 6) BusFn.stopbus
    (by rw [calls_readAt]; rfl)

theorem fnAfter_enableAt (env : Env) (r : Nat) (f : Option BusFn) :
    fnAfter f (enableAt env r) = some BusFn.stopbus :=
  fnAfter_of_calls f _ (enableCalls.take 4) BusFn.stopbus
    (by unfold enableAt; rw [calls_enableEffects]; rfl)

theorem fnAfter_send8Effects (isSigned : Bool) (arg : Int) (ack : Bool) (f : Option BusFn) :
    fnAfter f (send8Effects isSigned arg ack) = some (BusFn.send8 (toChar isSigned arg)) :=
  fnAfter_of_calls f _ [] _ (by rw [calls_send8Effects]; rfl)

theorem fnAfter_read16Effects (lo hi : List Bool) (f : Option BusFn) :
    fnAfter f (read16Effects lo hi) = some BusFn.read16 :=
  fnAfter_of_calls f _ [] _ (by rw [calls_read16Effects]; rfl)

theorem statusReadEffects_after (env : Env) (w : World) (f : Option BusFn) (c d : Drive) :
    fnAfter f (statusReadEffects env w) = some BusFn.stopbus ∧
      driveAfter Pin.clock c (statusReadEffects env w) = Drive.released ∧
      driveAfter Pin.data d (statusReadEffects env w) = Drive.released := by
  unfold statusReadEffects
  split_ifs
  · simp only [fnAfter_append, driveAfter_append, fnAfter_readAt]
    exact ⟨trivial, driveAfter_readAt _ _ _ _ _⟩
  · exact ⟨fnAfter_readAt _ _ _ _, driveAfter_readAt _ _ _ _ _⟩

theorem socReadEffects_after (env : Env) (w : World) (f : Option BusFn) (c d : Drive) :
    fnAfter f (socReadEffects env w) = some BusFn.stopbus ∧
      driveAfter Pin.clock c (socReadEffects env w) = Drive.released ∧
      driveAfter Pin.data d (socReadEffects env w) = Drive.released := by
  unfold socReadEffects
  split_ifs
  · simp only [fnAfter_append, driveAfter_append, fnAfter_readAt]
    exact ⟨trivial, driveAfter_readAt _ _ _ _ _⟩
  · exact ⟨fnAfter_readAt _ _ _ _, driveAfter_readAt _ _ _ _ _⟩

theorem checkStatusEffects_offBus (l : Locals) (bat_stat : Nat) (err : Bool) :
    (checkStatusEffects l bat_stat err).all Effect.offBus = true := by
  unfold checkStatusEffects
  split_ifs <;> rfl

theorem socAction_effects_offBus (a : SocAction) : a.effects.all Effect.offBus = true := by
  cases a <;> rfl

theorem chargerBranchEffects_offBus (bad : Bool) (bat_stat : Nat) :
    (chargerBranchEffects bad bat_stat).all Effect.offBus = true := by
  unfold chargerBranchEffects
  split_ifs <;> rfl

theorem cycleTailEffects_after (env : Env) (l : Locals) (w : World) :
    fnAfter (some BusFn.stopbus) (cycleTailEffects env l w) = some BusFn.stopbus ∧
      driveAfter Pin.clock Drive.released (cycleTailEffects env l w) = Drive.released ∧
      driveAfter Pin.data Drive.released (cycleTailEffects env l w) = Drive.released := by
  have h3 : ([Effect.delay 29000] : List Effect).all Effect.offBus = true := rfl
  have f3 := fnAfter_offBus _ h3
  have c3 := fun c => (driveAfter_offBus _ h3 c).1
  have d3 := fun c => (driveAfter_offBus _ h3 c).2
  unfold cycleTailEffects
  split_ifs
  · have h1 := socReadEffects_after env (cycleSocStart env l w)
    have f1 := fun f => (h1 f Drive.released Drive.released).1
    have c1 := fun c => (h1 none c Drive.released).2.1
    have d1 := fun d => (h1 none Drive.released d).2.2
    have h2 := socAction_effects_offBus (socAction (cycleSoc env l w).1 l.old_soc)
    have f2 := fnAfter_offBus _ h2
    have c2 := fun c => (driveAfter_offBus _ h2 c).1
    have d2 := fun c => (driveAfter_offBus _ h2 c).2
    rw [← List.singleton_append]
    simp only [fnAfter_append, driveAfter_append, f1, c1, d1, f2, c2, d2, f3, c3, d3]
    exact ⟨trivial, trivial, trivial⟩
  · have h2 := chargerBranchEffects_offBus (decide (StatusBad (cycleStatus env w)))
      (cycleStatus env w).1
    have f2 := fnAfter_offBus _ h2
    have c2 := fun c => (driveAfter_offBus _ h2 c).1
    have d2 := fun c => (driveAfter_offBus _ h2 c).2
    simp only [fnAfter_append, driveAfter_append, f2, c2, d2, f3, c3, d3]
    exact ⟨trivial, trivial, trivial⟩

theorem cycleEffects_after (env : Env) (l : Locals) (w : World) (f : Option BusFn)
    (c d : Drive) :
    fnAfter f (cycleEffects env l w) = some BusFn.stopbus ∧
      driveAfter Pin.clock c (cycleEffects env l w) = Drive.released ∧
      driveAfter Pin.data d (cycleEffects env l w) = Drive.released := by
  have h1 := statusReadEffects_after env (cycleStatusStart env w)
  have f1 := fun f => (h1 f Drive.released Drive.released).1
  have c1 := fun c => (h1 none c Drive.released).2.1
  have d1 := fun d => (h1 none Drive.released d).2.2
  have h2 := checkStatusEffects_offBus l (cycleStatus env w).1 (cycleStatus env w).2.error
  have f2 := fnAfter_offBus _ h2
  have c2 := fun c => (driveAfter_offBus _ h2 c).1
  have d2 := fun c => (driveAfter_offBus _ h2 c).2
  unfold cycleEffects
  simp only [fnAfter_append, driveAfter_append, f1, c1, d1, f2, c2, d2]
  exact cycleTailEffects_after env l w

/-! ## The set-up and the iterations of `main` -/

theorem mainInit_eq (env : Env) (w : World) :
    mainInit env w =
      { error := w.error, reads := w.reads + 1,
        trace := w.trace ++ mainInitEffects (env w.reads) } := by
  unfold mainInit
  rw [setupbus_eq]
  cases h : env w.reads <;>
    simp [go_0, go_z, delay, emit, read_pin, World.extend, mainInitEffects, h]

theorem mainAfter_zero_trace (env : Env) :
    (mainAfter env 0).2.trace = mainInitEffects (env 0) := by
  unfold mainAfter cycles
  rw [mainInit_eq]
  rfl

theorem mainAfter_succ (env : Env) (n : Nat) :
    mainAfter env (n + 1) = cycle env (mainAfter env n).1 (mainAfter env n).2 :=
  cycles_succ env n _ _

theorem mainAfter_succ_trace (env : Env) (n : Nat) :
    (mainAfter env (n + 1)).2.trace =
      (mainAfter env n).2.trace ++ cycleEffects env (mainAfter env n).1 (mainAfter env n).2 := by
  rw [mainAfter_succ, cycle_trace]

theorem mainAfter_emitted (env : Env) (n : Nat) :
    emitted (mainAfter env n).2 (mainAfter env (n + 1)).2 =
      cycleEffects env (mainAfter env n).1 (mainAfter env n).2 :=
  emitted_of_trace (mainAfter_succ_trace env n)

theorem mainInitEffects_after (lcd : Bool) (f : Option BusFn) (c d : Drive) :
    fnAfter f (mainInitEffects lcd) = some BusFn.setupbus ∧
      driveAfter Pin.clock c (mainInitEffects lcd) = Drive.released ∧
      driveAfter Pin.data d (mainInitEffects lcd) = Drive.released := by
  cases lcd <;> exact ⟨rfl, rfl, rfl⟩

theorem mainAfter_lines (env : Env) (n : Nat) (c d : Drive) :
    fnAfter none (mainAfter env n).2.trace =
        some (if n = 0 then BusFn.setupbus else BusFn.stopbus) ∧
      driveAfter Pin.clock c (mainAfter env n).2.trace = Drive.released ∧
      driveAfter Pin.data d (mainAfter env n).2.trace = Drive.released := by
  cases n with
  | zero =>
    rw [mainAfter_zero_trace]
    exact mainInitEffects_after _ _ _ _
  | succ n =>
    rw [mainAfter_succ_trace, fnAfter_append, driveAfter_append, driveAfter_append]
    simpa using cycleEffects_after env _ _ _ _ _

/-! ## Calls of `startbus` find the bus idle -/

theorem startFromIdle_of_no_start (es : List Effect) (h : BusFn.startbus ∉ calls es)
    (f : Option BusFn) (c d : Drive) :
    (lineSteps f c d es).all LineStep.startFromIdle = true := by
  induction es generalizing f c d with
  | nil => rfl
  | cons e es ih =>
    have h2 : BusFn.startbus ∉ calls es := by
      intro hm
      apply h
      cases e <;> simp_all [calls]
    rw [lineSteps, List.all_cons, ih h2, Bool.and_true]
    cases e with
    | enter g =>
      cases g with
      | startbus => exact absurd (by simp [calls]) h
      | _ => rfl
    | _ => rfl

theorem startFromIdle_readAt (ptr : Int) (env : Env) (r : Nat) (f : Option BusFn)
    (hf : f = some BusFn.setupbus ∨ f = some BusFn.stopbus) :
    (lineSteps f Drive.released Drive.released (readAt ptr env r)).all
      LineStep.startFromIdle = true := by
  have hsplit : readAt ptr env r = Effect.enter BusFn.startbus :: (readAt ptr env r).tail := rfl
  have hc := calls_readAt ptr env r
  rw [hsplit] at hc
  have hc2 : calls (readAt ptr env r).tail =
      (registerReadCalls (toChar charIsSigned ptr)).tail := by
    simpa [calls, registerReadCalls] using hc
  rw [hsplit, lineSteps, List.all_cons, startFromIdle_of_no_start _
    (by rw [hc2]; simp [registerReadCalls]), Bool.and_true]
  simp [LineStep.startFromIdle, hf]

theorem startFromIdle_statusReadEffects (env : Env) (w : World) (f : Option BusFn)
    (hf : f = some BusFn.setupbus ∨ f = some BusFn.stopbus) :
    (lineSteps f Drive.released Drive.released (statusReadEffects env w)).all
      LineStep.startFromIdle = true := by
  unfold statusReadEffects
  split_ifs
  · rw [lineSteps_all_append, startFromIdle_readAt _ _ _ _ hf, fnAfter_readAt,
      (driveAfter_readAt _ _ _ _ Drive.released).1, (driveAfter_readAt _ _ _ Drive.released _).2,
      startFromIdle_readAt _ _ _ _ (Or.inr rfl)]
    rfl
  · exact startFromIdle_readAt _ _ _ _ hf

theorem startFromIdle_socReadEffects (env : Env) (w : World) (f : Option BusFn)
    (hf : f = some BusFn.setupbus ∨ f = some BusFn.stopbus) :
    (lineSteps f Drive.released Drive.released (socReadEffects env w)).all
      LineStep.startFromIdle = true := by
  unfold socReadEffects
  split_ifs
  · rw [lineSteps_all_append, startFromIdle_readAt _ _ _ _ hf, fnAfter_readAt,
      (driveAfter_readAt _ _ _ _ Drive.released).1, (driveAfter_readAt _ _ _ Drive.released _).2,
      startFromIdle_readAt _ _ _ _ (Or.inr rfl)]
    rfl
  · exact startFromIdle_readAt _ _ _ _ hf

theorem startFromIdle_offBus (es : List Effect) (h : es.all Effect.offBus = true)
    (f : Option BusFn) (c d : Drive) :
    (lineSteps f c d es).all LineStep.startFromIdle = true :=
  startFromIdle_of_no_start es (by rw [calls_offBus es h]; simp) f c d

theorem startFromIdle_cycleTailEffects (env : Env) (l : Locals) (w : World) :
    (lineSteps (some BusFn.stopbus) Drive.released Drive.released
      (cycleTailEffects env l w)).all LineStep.startFromIdle = true := by
  have h3 : ([Effect.delay 29000] : List Effect).all Effect.offBus = true := rfl
  unfold cycleTailEffects
  split_ifs
  · have h1 := socReadEffects_after env (cycleSocStart env l w)
    have h2 := socAction_effects_offBus (socAction (cycleSoc env l w).1 l.old_soc)
    rw [lineSteps, List.all_cons, lineSteps_all_append, lineSteps_all_append,
      startFromIdle_offBus _ h2, startFromIdle_offBus _ h3]
    rw [show fnStep (some BusFn.stopbus) (Effect.go_0 Pin.charge_dis) = some BusFn.stopbus
        from rfl,
      show driveStep Pin.clock Drive.released (Effect.go_0 Pin.charge_dis) = Drive.released
        from rfl,
      show driveStep Pin.data Drive.released (Effect.go_0 Pin.charge_dis) = Drive.released
        from rfl,
      startFromIdle_socReadEffects _ _ _ (Or.inr rfl)]
    rfl
  · have h2 := chargerBranchEffects_offBus (decide (StatusBad (cycleStatus env w)))
      (cycleStatus env w).1
    rw [lineSteps_all_append, startFromIdle_offBus _ h2, startFromIdle_offBus _ h3]
    rfl

theorem startFromIdle_cycleEffects (env : Env) (l : Locals) (w : World) (f : Option BusFn)
    (c d : Drive) :
    (lineSteps f c d (cycleEffects env l w)).all LineStep.startFromIdle = true := by
  have h0 : BusFn.startbus ∉ calls (enableAt env w.reads) := by
    unfold enableAt
    rw [calls_enableEffects]
    simp [enableCalls]
  have h1 := statusReadEffects_after env (cycleStatusStart env w)
  have h2 := checkStatusEffects_offBus l (cycleStatus env w).1 (cycleStatus env w).2.error
  unfold cycleEffects
  rw [lineSteps_all_append, lineSteps_all_append, lineSteps_all_append,
    startFromIdle_of_no_start _ h0, fnAfter_enableAt, (driveAfter_enableAt _ _ c d).1,
    (driveAfter_enableAt _ _ c d).2, startFromIdle_statusReadEffects _ _ _ (Or.inr rfl),
    (h1 _ Drive.released Drive.released).1, (h1 none _ Drive.released).2.1,
    (h1 none Drive.released _).2.2, startFromIdle_offBus _ h2,
    fnAfter_offBus _ h2, (driveAfter_offBus _ h2 _).1, (driveAfter_offBus _ h2 _).2,
    startFromIdle_cycleTailEffects]
  rfl

theorem startFromIdle_mainAfter (env : Env) (n : Nat) (c d : Drive) :
    (lineSteps none c d (mainAfter env n).2.trace).all LineStep.startFromIdle = true := by
  induction n with
  | zero =>
    rw [mainAfter_zero_trace]
    exact startFromIdle_of_no_start _ (by cases env 0 <;> decide) _ _ _
  | succ n ih =>
    rw [mainAfter_succ_trace, lineSteps_all_append, ih, startFromIdle_cycleEffects]
    rfl

theorem startbus_mem_calls_cycleEffects (env : Env) (l : Locals) (w : World) :
    BusFn.startbus ∈ calls (cycleEffects env l w) := by
  unfold cycleEffects statusReadEffects
  split_ifs <;>
    simp [calls_append, calls_readAt, registerReadCalls]

/-! ## The state of the clock when `send8` is entered -/

theorem lineSteps_head (f : Option BusFn) (c d : Drive) (es : List Effect) :
    (lineSteps f c d es).head? =
      es.head?.map (fun e => { fn := f, clock := c, data := d, effect := e }) := by
  cases es <;> rfl

theorem cycleEffects_cons (env : Env) (l : Locals) (w : World) :
    cycleEffects env l w = Effect.enter (BusFn.send8 0x16) :: (cycleEffects env l w).tail := by
  unfold cycleEffects enableAt enableEffects send8Effects
  rfl

theorem send8ClockLow_of_no_send8 (es : List Effect) (h : ∀ b, BusFn.send8 b ∉ calls es)
    (f : Option BusFn) (c d : Drive) :
    (lineSteps f c d es).all LineStep.send8ClockLow = true := by
  induction es generalizing f c d with
  | nil => rfl
  | cons e es ih =>
    have h2 : ∀ b, BusFn.send8 b ∉ calls es := by
      intro b hm
      apply h b
      cases e <;> simp_all [calls]
    rw [lineSteps, List.all_cons, ih h2, Bool.and_true]
    cases e with
    | enter g =>
      cases g with
      | send8 b => exact absurd (by simp [calls]) (h b)
      | _ => rfl
    | _ => rfl

theorem send8ClockLow_send8Effects (isSigned : Bool) (arg : Int) (ack : Bool)
    (f : Option BusFn) (d : Drive) :
    (lineSteps f Drive.low d (send8Effects isSigned arg ack)).all
      LineStep.send8ClockLow = true := by
  have hsplit : send8Effects isSigned arg ack =
      Effect.enter (BusFn.send8 (toChar isSigned arg)) ::
        (send8Effects isSigned arg ack).tail := rfl
  have hc := calls_send8Effects isSigned arg ack
  rw [hsplit] at hc
  have hc2 : calls (send8Effects isSigned arg ack).tail = [] := by
    simpa [calls] using hc
  rw [hsplit, lineSteps, List.all_cons, send8ClockLow_of_no_send8 _ (by rw [hc2]; simp)]
  rfl

theorem send8ClockLow_registerReadEffects (ptr : Int) (a1 a2 a3 : Bool) (lo hi : List Bool)
    (f : Option BusFn) (c d : Drive) :
    (lineSteps f c d (registerReadEffects ptr a1 a2 a3 lo hi)).all
      LineStep.send8ClockLow = true := by
  have h1 : ∀ b, BusFn.send8 b ∉ calls startbusEffects := by intro b; simp [calls, startbusEffects]
  have h2 : ∀ b, BusFn.send8 b ∉ calls sendrptstartEffects := by
    intro b; simp [calls, sendrptstartEffects]
  have h3 : ∀ b, BusFn.send8 b ∉ calls (read16Effects lo hi ++ stopbusEffects) := by
    intro b; rw [calls_append, calls_read16Effects]; simp [calls, stopbusEffects]
  have s1 := fun c d => (driveAfter_startbusEffects c d).1
  have s2 := fun c d a i k => (driveAfter_send8Effects i a k c d).1
  have s3 := fun c d => (driveAfter_sendrptstartEffects c d).1
  unfold registerReadEffects
  simp only [lineSteps_all_append, send8ClockLow_of_no_send8 _ h1,
    send8ClockLow_of_no_send8 _ h2, send8ClockLow_of_no_send8 _ h3, s1 _ d, s2 _ d, s3 _ d,
    send8ClockLow_send8Effects, Bool.and_self]

/-! ## The bit loops, step by step -/

theorem emitted_send8 (arg : Int) (env : Env) (w : World) :
    emitted w (send8 arg env w) = send8Effects charIsSigned arg (env w.reads) :=
  emitted_of_trace (by rw [send8_eq])

theorem emitted_read16 (env : Env) (w : World) :
    emitted w (read16 env w).2 =
      read16Effects (samples env w.reads 8) (samples env (w.reads + 8) 8) :=
  emitted_of_trace (by rw [read16_eq])

theorem lineSteps_enter (f : Option BusFn) (c d : Drive) (g : BusFn) (es : List Effect) :
    lineSteps f c d (Effect.enter g :: es) =
      { fn := f, clock := c, data := d, effect := Effect.enter g } ::
        lineSteps (some g) c d es := rfl

/-- A property of the steps that holds on one iteration of the loop of `send8`, entered
with the clock as `C` allows, holds along the loop. -/
theorem lineSteps_send8Loop_all (Q : LineStep → Bool) (isSigned : Bool) (sendbits : Int)
    (f : Option BusFn) (C : Drive → Prop) (hlow : C Drive.low)
    (h : ∀ c d e, C c → e = Effect.go_0 Pin.data ∨ e = Effect.go_z Pin.data →
      (lineSteps f c d (e :: Effect.delayMicroseconds 10 :: clockPulse)).all Q = true)
    (n : Nat) (mask : Int) (c d : Drive) (hc : C c) :
    (lineSteps f c d (send8LoopEffects isSigned sendbits n mask)).all Q = true := by
  induction n generalizing mask c d with
  | zero => rfl
  | succ n ih =>
    have he : (if intAnd sendbits mask = 0 then Effect.go_0 Pin.data else Effect.go_z Pin.data) =
        Effect.go_0 Pin.data ∨
        (if intAnd sendbits mask = 0 then Effect.go_0 Pin.data else Effect.go_z Pin.data) =
        Effect.go_z Pin.data := by
      split_ifs <;> simp
    unfold send8LoopEffects
    generalize (if intAnd sendbits mask = 0 then Effect.go_0 Pin.data
      else Effect.go_z Pin.data) = e at he
    have hf : fnAfter f (e :: Effect.delayMicroseconds 10 :: clockPulse) = f := by
      rcases he with rfl | rfl <;> rfl
    have hk : driveAfter Pin.clock c (e :: Effect.delayMicroseconds 10 :: clockPulse) =
        Drive.low := by
      rcases he with rfl | rfl <;> rfl
    rw [lineSteps_all_append, h c d e hc he, hf, hk, ih _ _ _ hlow]
    rfl

/-- A property of the steps that holds on one iteration of a loop of `read16`, entered
with the clock as `C` allows, holds along the loop. -/
theorem lineSteps_read16Loop_all (Q : LineStep → Bool) (f : Option BusFn) (C : Drive → Prop)
    (hlow : C Drive.low)
    (h : ∀ c d lv, C c →
      (lineSteps f c d (Effect.go_z Pin.data :: Effect.delayMicroseconds 10 ::
        Effect.read_pin Pin.data lv :: clockPulse)).all Q = true)
    (levels : List Bool) (c d : Drive) (hc : C c) :
    (lineSteps f c d (read16LoopEffects levels)).all Q = true := by
  induction levels generalizing c d with
  | nil => rfl
  | cons lv levels ih =>
    unfold read16LoopEffects
    rw [lineSteps_all_append, h c d lv hc,
      show fnAfter f (Effect.go_z Pin.data :: Effect.delayMicroseconds 10 ::
        Effect.read_pin Pin.data lv :: clockPulse) = f from rfl,
      show driveAfter Pin.clock c (Effect.go_z Pin.data :: Effect.delayMicroseconds 10 ::
        Effect.read_pin Pin.data lv :: clockPulse) = Drive.low from rfl,
      ih _ _ hlow]
    rfl

theorem driveAfter_clock_send8Loop (isSigned : Bool) (sendbits : Int) (n : Nat) (mask : Int) :
    driveAfter Pin.clock Drive.low (send8LoopEffects isSigned sendbits n mask) = Drive.low := by
  induction n generalizing mask with
  | zero => rfl
  | succ n ih =>
    have h1 : driveAfter Pin.clock Drive.low
        ((if intAnd sendbits mask = 0 then Effect.go_0 Pin.data else Effect.go_z Pin.data) ::
          Effect.delayMicroseconds 10 :: clockPulse) = Drive.low := by
      split_ifs <;> rfl
    unfold send8LoopEffects
    rw [driveAfter_append, h1]
    exact ih _

theorem driveAfter_clock_read16Loop (levels : List Bool) :
    driveAfter Pin.clock Drive.low (read16LoopEffects levels) = Drive.low := by
  induction levels with
  | nil => rfl
  | cons lv levels ih =>
    unfold read16LoopEffects
    rw [driveAfter_append]
    exact ih

/-! ## The samples of `read16` and of `send8` -/

theorem isSample_read16Loop (levels : List Bool) :
    ((read16LoopEffects levels).filter Effect.isSample).length = levels.length := by
  induction levels with
  | nil => rfl
  | cons lv levels ih =>
    unfold read16LoopEffects
    rw [List.filter_append, List.length_append, ih]
    simp [clockPulse, Effect.isSample]
    omega

theorem isSample_send8Loop (isSigned : Bool) (sendbits : Int) (n : Nat) (mask : Int) :
    (send8LoopEffects isSigned sendbits n mask).filter Effect.isSample = [] := by
  induction n generalizing mask with
  | zero => rfl
  | succ n ih =>
    unfold send8LoopEffects
    rw [List.filter_append, ih]
    split_ifs <;> rfl

theorem dataSample_read16Effects (lo hi : List Bool) (f : Option BusFn) (c d : Drive) :
    (lineSteps f c d (read16Effects lo hi)).all LineStep.dataSample = true := by
  have hloop : ∀ (g : Option BusFn) (levels : List Bool) (c d : Drive),
      (lineSteps g c d (read16LoopEffects levels)).all LineStep.dataSample = true :=
    fun g levels c d =>
      lineSteps_read16Loop_all LineStep.dataSample g (fun _ => True) trivial
        (fun c d lv _ => rfl) levels c d trivial
  have hack : ∀ (g : Option BusFn) (c d : Drive),
      (lineSteps g c d read16AckEffects).all LineStep.dataSample = true := fun _ _ _ => rfl
  have hnack : ∀ (g : Option BusFn) (c d : Drive),
      (lineSteps g c d read16NackEffects).all LineStep.dataSample = true := fun _ _ _ => rfl
  unfold read16Effects
  rw [lineSteps_all_append, lineSteps_all_append, lineSteps_all_append, hnack, hloop, hack,
    lineSteps, List.all_cons, hloop]
  rfl

theorem ackSample_send8Effects (isSigned : Bool) (arg : Int) (ack : Bool) (f : Option BusFn)
    (c d : Drive) :
    (lineSteps f c d (send8Effects isSigned arg ack)).all LineStep.ackSample = true := by
  have hloop : ∀ (g : Option BusFn) (n : Nat) (mask : Int) (c d : Drive),
      (lineSteps g c d (send8LoopEffects isSigned (toChar isSigned arg) n mask)).all
        LineStep.ackSample = true :=
    fun g n mask c d =>
      lineSteps_send8Loop_all LineStep.ackSample isSigned _ g (fun _ => True) trivial
        (fun c d e _ he => by rcases he with rfl | rfl <;> rfl) n mask c d trivial
  have hack : ∀ (g : Option BusFn) (c d : Drive),
      (lineSteps g c d (send8AckEffects ack)).all LineStep.ackSample = true :=
    fun _ _ _ => rfl
  unfold send8Effects
  rw [lineSteps_all_append, hack, lineSteps, List.all_cons, hloop]
  rfl

/-! ## Data changes and the clock -/

theorem dataStable_send8Effects (isSigned : Bool) (arg : Int) (ack : Bool) (f : Option BusFn)
    (d : Drive) :
    (lineSteps f Drive.low d (send8Effects isSigned arg ack)).all LineStep.dataStable = true := by
  have hloop : ∀ (g : Option BusFn) (n : Nat) (mask : Int) (d : Drive),
      (lineSteps g Drive.low d (send8LoopEffects isSigned (toChar isSigned arg) n mask)).all
        LineStep.dataStable = true :=
    fun g n mask d =>
      lineSteps_send8Loop_all LineStep.dataStable isSigned _ g (fun c => c = Drive.low) rfl
        (fun c d e hc he => by subst hc; rcases he with rfl | rfl <;> cases d <;> rfl)
        n mask Drive.low d rfl
  have hack : ∀ (g : Option BusFn) (d : Drive),
      (lineSteps g Drive.low d (send8AckEffects ack)).all LineStep.dataStable = true :=
    fun _ d => by cases d <;> rfl
  have hk := driveAfter_clock_send8Loop isSigned (toChar isSigned arg) 8 (toChar isSigned 0x80)
  unfold send8Effects
  rw [lineSteps_all_append, lineSteps_enter, List.all_cons, hloop]
  rw [show driveAfter Pin.clock Drive.low
      (Effect.enter (BusFn.send8 (toChar isSigned arg)) ::
        send8LoopEffects isSigned (toChar isSigned arg) 8 (toChar isSigned 0x80)) =
      Drive.low from hk, hack]
  cases d <;> rfl

theorem dataStable_read16Effects (lo hi : List Bool) (f : Option BusFn) (d : Drive) :
    (lineSteps f Drive.low d (read16Effects lo hi)).all LineStep.dataStable = true := by
  have hloop : ∀ (g : Option BusFn) (levels : List Bool) (d : Drive),
      (lineSteps g Drive.low d (read16LoopEffects levels)).all LineStep.dataStable = true :=
    fun g levels d =>
      lineSteps_read16Loop_all LineStep.dataStable g (fun c => c = Drive.low) rfl
        (fun c d lv hc => by subst hc; cases d <;> rfl) levels Drive.low d rfl
  have hack : ∀ (g : Option BusFn) (d : Drive),
      (lineSteps g Drive.low d read16AckEffects).all LineStep.dataStable = true :=
    fun _ d => by cases d <;> rfl
  have hnack : ∀ (g : Option BusFn) (d : Drive),
      (lineSteps g Drive.low d read16NackEffects).all LineStep.dataStable = true :=
    fun _ d => by cases d <;> rfl
  have k1 : driveAfter Pin.clock Drive.low (Effect.enter BusFn.read16 :: read16LoopEffects lo) =
      Drive.low := driveAfter_clock_read16Loop lo
  have k2 : ∀ c, driveAfter Pin.clock c read16AckEffects = Drive.low := fun _ => rfl
  have k3 := driveAfter_clock_read16Loop hi
  unfold read16Effects
  rw [lineSteps_all_append, lineSteps_all_append, lineSteps_all_append, lineSteps_enter,
    List.all_cons, hloop]
  simp only [driveAfter_append, k1, k2, k3, hnack, hack, hloop, Bool.and_true]
  cases d <;> rfl

theorem dataChangesClockHigh_append (f : Option BusFn) (c d : Drive) (es fs : List Effect) :
    dataChangesClockHigh f c d (es ++ fs) =
      dataChangesClockHigh f c d es ++
        dataChangesClockHigh (fnAfter f es) (driveAfter Pin.clock c es)
          (driveAfter Pin.data d es) fs := by
  unfold dataChangesClockHigh
  rw [lineSteps_append, List.filter_append, List.map_append]

theorem dataChangesClockHigh_of_stable (f : Option BusFn) (c d : Drive) (es : List Effect)
    (h : (lineSteps f c d es).all LineStep.dataStable = true) :
    dataChangesClockHigh f c d es = [] := by
  unfold dataChangesClockHigh
  rw [List.map_eq_nil_iff, List.filter_eq_nil_iff]
  intro x hx
  have hs := List.all_eq_true.mp h x hx
  unfold LineStep.dataStable at hs
  cases hc : x.changesData <;> simp_all

theorem dataChangesClockHigh_registerReadEffects (ptr : Int) (a1 a2 a3 : Bool)
    (lo hi : List Bool) (f : Option BusFn) :
    dataChangesClockHigh f Drive.released Drive.released
        (registerReadEffects ptr a1 a2 a3 lo hi) =
      [(some BusFn.startbus, Effect.go_0 Pin.data),
        (some BusFn.sendrptstart, Effect.go_0 Pin.data),
        (some BusFn.stopbus, Effect.go_z Pin.data)] := by
  have hs : ∀ (g : Option BusFn) (d : Drive) (i : Bool) (a : Int) (k : Bool),
      dataChangesClockHigh g Drive.low d (send8Effects i a k) = [] :=
    fun g d i a k => dataChangesClockHigh_of_stable _ _ _ _ (dataStable_send8Effects i a k g d)
  have hr : ∀ (g : Option BusFn) (d : Drive),
      dataChangesClockHigh g Drive.low d (read16Effects lo hi) = [] :=
    fun g d => dataChangesClockHigh_of_stable _ _ _ _ (dataStable_read16Effects lo hi g d)
  have c1 := fun c d i a k => (driveAfter_send8Effects i a k c d).1
  have d1 := fun c d i a k => (driveAfter_send8Effects i a k c d).2
  have c2 := fun c d => (driveAfter_read16Effects lo hi c d).1
  have d2 := fun c d => (driveAfter_read16Effects lo hi c d).2
  have h1 : dataChangesClockHigh f Drive.released Drive.released startbusEffects =
      [(some BusFn.startbus, Effect.go_0 Pin.data)] := rfl
  have h2 : ∀ g, dataChangesClockHigh g Drive.low Drive.low sendrptstartEffects =
      [(some BusFn.sendrptstart, Effect.go_0 Pin.data)] := fun _ => rfl
  have h3 : ∀ g, dataChangesClockHigh g Drive.low Drive.low stopbusEffects =
      [(some BusFn.stopbus, Effect.go_z Pin.data)] := fun _ => rfl
  have k1 : driveAfter Pin.clock Drive.released startbusEffects = Drive.low := rfl
  have k2 : driveAfter Pin.data Drive.released startbusEffects = Drive.low := rfl
  have k3 : ∀ c, driveAfter Pin.clock c sendrptstartEffects = Drive.low := fun _ => rfl
  have k4 : ∀ c, driveAfter Pin.data c sendrptstartEffects = Drive.low := fun _ => rfl
  unfold registerReadEffects
  simp only [dataChangesClockHigh_append, h1, k1, k2, hs, c1 _ Drive.low, d1 Drive.low, h2, k3,
    k4, hr, c2 _ Drive.low, d2 Drive.low, h3, List.nil_append, List.append_nil,
    List.singleton_append]

/-! ## The clock-high windows of `read16` -/

theorem clockHighData_enter (dat : Drive) (f : BusFn) (es : List Effect) :
    clockHighData dat none (Effect.enter f :: es) = clockHighData dat none es := rfl

theorem clockHighData_read16Loop (levels : List Bool) (dat : Drive) (rest : List Effect) :
    ∃ dat1 : Drive,
      clockHighData dat none (read16LoopEffects levels ++ rest) =
        List.replicate levels.length [Drive.released, Drive.released] ++
          clockHighData dat1 none rest := by
  induction levels generalizing dat with
  | nil => exact ⟨dat, rfl⟩
  | cons lv levels ih =>
    obtain ⟨dat1, h1⟩ := ih Drive.released
    refine ⟨dat1, ?_⟩
    have hstep : clockHighData dat none (read16LoopEffects (lv :: levels) ++ rest) =
        [Drive.released, Drive.released] ::
          clockHighData Drive.released none (read16LoopEffects levels ++ rest) := by
      have e1 : read16LoopEffects (lv :: levels) ++ rest =
          Effect.go_z Pin.data :: Effect.delayMicroseconds 10 :: Effect.read_pin Pin.data lv ::
            Effect.go_z Pin.clock :: Effect.delayMicroseconds 20 :: Effect.go_0 Pin.clock ::
            Effect.delayMicroseconds 10 :: (read16LoopEffects levels ++ rest) := by
        simp [read16LoopEffects, clockPulse]
      rw [e1]
      rfl
    rw [hstep, h1]
    rfl

theorem clockHighData_read16Effects (lo hi : List Bool) (dat : Drive) :
    clockHighData dat none (read16Effects lo hi) =
      List.replicate lo.length [Drive.released, Drive.released] ++
        ([Drive.low, Drive.low] ::
          (List.replicate hi.length [Drive.released, Drive.released] ++
            [[Drive.released, Drive.released]])) := by
  have hassoc : read16Effects lo hi =
      Effect.enter BusFn.read16 :: (read16LoopEffects lo ++ (read16AckEffects ++
        (read16LoopEffects hi ++ read16NackEffects))) := by
    simp [read16Effects, List.append_assoc]
  obtain ⟨dat1, h1⟩ := clockHighData_read16Loop lo dat
    (read16AckEffects ++ (read16LoopEffects hi ++ read16NackEffects))
  obtain ⟨dat2, h2⟩ := clockHighData_read16Loop hi Drive.low read16NackEffects
  have hack : clockHighData dat1 none
      (read16AckEffects ++ (read16LoopEffects hi ++ read16NackEffects)) =
      [Drive.low, Drive.low] ::
        clockHighData Drive.low none (read16LoopEffects hi ++ read16NackEffects) := rfl
  have hnack : clockHighData dat2 none read16NackEffects =
      [[Drive.released, Drive.released]] := rfl
  rw [hassoc, clockHighData_enter, h1, hack, h2, hnack]

/-! ## No effect drives a bus line high -/

theorem busSafe_of_offBus (es : List Effect) (h : es.all Effect.offBus = true) :
    es.all Effect.busSafe = true := by
  rw [List.all_eq_true] at h ⊢
  intro e he
  have := h e he
  cases e <;> simp_all [Effect.offBus, Effect.busSafe]

theorem send8LoopEffects_busSafe (isSigned : Bool) (sendbits : Int) (n : Nat) (mask : Int) :
    (send8LoopEffects isSigned sendbits n mask).all Effect.busSafe = true := by
  induction n generalizing mask with
  | zero => rfl
  | succ n ih =>
    simp only [send8LoopEffects, List.all_cons, List.all_append, ih]
    split_ifs <;> rfl

theorem read16LoopEffects_busSafe (levels : List Bool) :
    (read16LoopEffects levels).all Effect.busSafe = true := by
  induction levels with
  | nil => rfl
  | cons lv levels ih =>
    simp only [read16LoopEffects, List.all_cons, List.all_append, ih]
    rfl

theorem send8Effects_busSafe (isSigned : Bool) (arg : Int) (ack : Bool) :
    (send8Effects isSigned arg ack).all Effect.busSafe = true := by
  simp only [send8Effects, List.all_cons, List.all_append, send8LoopEffects_busSafe]
  rfl

theorem read16Effects_busSafe (lo hi : List Bool) :
    (read16Effects lo hi).all Effect.busSafe = true := by
  simp only [read16Effects, List.all_cons, List.all_append, read16LoopEffects_busSafe]
  rfl

theorem readAt_busSafe (ptr : Int) (env : Env) (r : Nat) :
    (readAt ptr env r).all Effect.busSafe = true := by
  have h1 : startbusEffects.all Effect.busSafe = true := rfl
  have h2 : sendrptstartEffects.all Effect.busSafe = true := rfl
  have h3 : stopbusEffects.all Effect.busSafe = true := rfl
  simp only [readAt, registerReadEffects, List.all_append, send8Effects_busSafe,
    read16Effects_busSafe, h1, h2, h3, Bool.and_self]

theorem enableAt_busSafe (env : Env) (r : Nat) :
    (enableAt env r).all Effect.busSafe = true := by
  have h3 : stopbusEffects.all Effect.busSafe = true := rfl
  simp only [enableAt, enableEffects, List.all_append, send8Effects_busSafe, h3, Bool.and_self]

theorem statusReadEffects_busSafe (env : Env) (w : World) :
    (statusReadEffects env w).all Effect.busSafe = true := by
  unfold statusReadEffects
  split_ifs <;> simp only [List.all_append, readAt_busSafe, Bool.and_self]

theorem socReadEffects_busSafe (env : Env) (w : World) :
    (socReadEffects env w).all Effect.busSafe = true := by
  unfold socReadEffects
  split_ifs <;> simp only [List.all_append, readAt_busSafe, Bool.and_self]

theorem cycleEffects_busSafe (env : Env) (l : Locals) (w : World) :
    (cycleEffects env l w).all Effect.busSafe = true := by
  have h1 := busSafe_of_offBus _
    (checkStatusEffects_offBus l (cycleStatus env w).1 (cycleStatus env w).2.error)
  have h2 := busSafe_of_offBus _
    (socAction_effects_offBus (socAction (cycleSoc env l w).1 l.old_soc))
  have h3 := busSafe_of_offBus _
    (chargerBranchEffects_offBus (decide (StatusBad (cycleStatus env w))) (cycleStatus env w).1)
  unfold cycleEffects cycleTailEffects
  split_ifs <;>
    simp only [List.all_append, List.all_cons, enableAt_busSafe, statusReadEffects_busSafe,
      socReadEffects_busSafe, h1, h2, h3, Bool.and_self, List.all_nil, Effect.busSafe]

theorem mainAfter_busSafe (env : Env) (n : Nat) :
    (mainAfter env n).2.trace.all Effect.busSafe = true := by
  induction n with
  | zero =>
    rw [mainAfter_zero_trace]
    cases env 0 <;> rfl
  | succ n ih =>
    rw [mainAfter_succ_trace, List.all_append, ih, cycleEffects_busSafe]
    rfl

theorem BusCall.run_busSafe (env : Env) (c : BusCall) (w : World) :
    ∃ es : List Effect, (c.run env w).trace = w.trace ++ es ∧ es.all Effect.busSafe = true := by
  cases c with
  | setupbus => exact ⟨setupbusEffects, by rw [BusCall.run, setupbus_eq]; rfl, rfl⟩
  | startbus => exact ⟨startbusEffects, by rw [BusCall.run, startbus_eq]; rfl, rfl⟩
  | send8 arg =>
    exact ⟨send8Effects charIsSigned arg (env w.reads), by rw [BusCall.run, send8_eq],
      send8Effects_busSafe _ _ _⟩
  | sendrptstart =>
    exact ⟨sendrptstartEffects, by rw [BusCall.run, sendrptstart_eq]; rfl, rfl⟩
  | read16 =>
    exact ⟨read16Effects (samples env w.reads 8) (samples env (w.reads + 8) 8),
      by rw [BusCall.run, read16_eq], read16Effects_busSafe _ _⟩
  | stopbus => exact ⟨stopbusEffects, by rw [BusCall.run, stopbus_eq]; rfl, rfl⟩
  | clearError => exact ⟨[], by simp [BusCall.run], rfl⟩

theorem runCalls_busSafe (env : Env) (cs : List BusCall) (w : World) :
    ∃ es : List Effect, (runCalls env cs w).trace = w.trace ++ es ∧
      es.all Effect.busSafe = true := by
  induction cs generalizing w with
  | nil => exact ⟨[], by simp [runCalls], rfl⟩
  | cons c cs ih =>
    obtain ⟨es1, h1, s1⟩ := BusCall.run_busSafe env c w
    obtain ⟨es2, h2, s2⟩ := ih (c.run env w)
    exact ⟨es1 ++ es2, by rw [runCalls, h2, h1, List.append_assoc],
      by rw [List.all_append, s1, s2]; rfl⟩

theorem emitted_busSafe {w w1 : World}
    (h : ∃ es : List Effect, w1.trace = w.trace ++ es ∧ es.all Effect.busSafe = true) :
    (emitted w w1).all Effect.busSafe = true := by
  obtain ⟨es, h1, h2⟩ := h
  rw [emitted_of_trace h1]
  exact h2

/-! ## A battery that never answers -/

theorem statusBad_of_high (env : Env) (w : World) (h : ∀ k, w.reads ≤ k → env k = true) :
    StatusBad (cycleStatus env w) := by
  have hr : (cycleStatusStart env w).reads = w.reads + 4 := by
    unfold cycleStatusStart
    rw [enableDellBattery_eq]
  rw [statusBad_iff]
  constructor
  · right
    unfold statusFirst
    rw [registerRead_error]
    simp [hr, h (w.reads + 4) (by omega)]
  · right
    unfold statusSecond statusFirst
    rw [registerRead_error]
    simp [registerRead_reads, hr, h (w.reads + 4 + 19) (by omega)]

/-! # Part 3: the claims -/

/-! ## C1: the four ordered State-of-Charge rules -/

/-- C1: after a State-of-Charge read the rules of lines 322-352 choose the action from
`(soc, old_soc)` alone: shutdown fires iff `soc ≤ 8` and `old_soc ≤ 10`; otherwise the
LCD-blink warning fires iff `soc ≤ 10` and `old_soc ≤ 12`; otherwise the sustained LED
warning fires iff `soc ≤ 15` and `old_soc ≤ 17`; otherwise the heartbeat fires. Exactly
one of the four fires. `(old_soc, soc) = (12, 9)` gives the blink warning and not the
shutdown, `(10, 7)` gives the shutdown. -/
theorem socRules_four_ordered_rules :
    (∀ (soc old_soc : Int) (w : World),
      (Fires SocAction.shutdown w (socRules soc old_soc w) ↔ (soc ≤ 8 ∧ old_soc ≤ 10)) ∧
      (Fires SocAction.blinkWarning w (socRules soc old_soc w) ↔
        (¬ (soc ≤ 8 ∧ old_soc ≤ 10) ∧ (soc ≤ 10 ∧ old_soc ≤ 12))) ∧
      (Fires SocAction.ledWarning w (socRules soc old_soc w) ↔
        (¬ (soc ≤ 8 ∧ old_soc ≤ 10) ∧ ¬ (soc ≤ 10 ∧ old_soc ≤ 12) ∧
          (soc ≤ 15 ∧ old_soc ≤ 17))) ∧
      (Fires SocAction.heartbeat w (socRules soc old_soc w) ↔
        (¬ (soc ≤ 8 ∧ old_soc ≤ 10) ∧ ¬ (soc ≤ 10 ∧ old_soc ≤ 12) ∧
          ¬ (soc ≤ 15 ∧ old_soc ≤ 17))) ∧
      (∃! a : SocAction, Fires a w (socRules soc old_soc w))) ∧
    (∀ w : World, Fires SocAction.blinkWarning w (socRules 9 12 w) ∧
      ¬ Fires SocAction.shutdown w (socRules 9 12 w)) ∧
    (∀ w : World, Fires SocAction.shutdown w (socRules 7 10 w)) := by
  have key : ∀ (soc old_soc : Int) (w : World) (a : SocAction),
      Fires a w (socRules soc old_soc w) ↔
        a = (if soc ≤ 8 ∧ old_soc ≤ 10 then SocAction.shutdown
             else if soc ≤ 10 ∧ old_soc ≤ 12 then SocAction.blinkWarning
             else if soc ≤ 15 ∧ old_soc ≤ 17 then SocAction.ledWarning
             else SocAction.heartbeat) := by
    intro soc old_soc w a
    unfold Fires
    rw [socRules_emitted]
    constructor
    · intro h
      apply SocAction.effects_injective
      rw [← h]
      split_ifs <;> rfl
    · intro h
      subst h
      split_ifs <;> rfl
  refine ⟨?_, ?_, ?_⟩
  · intro soc old_soc w
    refine ⟨?_, ?_, ?_, ?_, ?_⟩
    · rw [key]; split_ifs <;> simp_all
    · rw [key]; split_ifs <;> simp_all
    · rw [key]; split_ifs <;> simp_all
    · rw [key]; split_ifs <;> simp_all
    · refine ⟨_, (key soc old_soc w _).2 rfl, ?_⟩
      intro b hb
      exact (key soc old_soc w b).1 hb
  · intro w
    constructor
    · rw [key]; decide
    · rw [key]; decide
  · intro w
    rw [key]; decide

/-! ## C2: hysteresis of the State-of-Charge rules -/

/-- C2: a single low reading cannot trigger an action. Whatever `soc` is: when
`old_soc > 10` the rules issue no shutdown; when `old_soc > 12` they issue no shutdown
and do not blink the LCD (they do not touch `lcd_pwr` at all); when `old_soc > 17` the
heartbeat fires. -/
theorem socRules_hysteresis (soc old_soc : Int) (w : World) :
    (10 < old_soc →
      ¬ Fires SocAction.shutdown w (socRules soc old_soc w) ∧
      Effect.system Command.shutdownNow ∉ emitted w (socRules soc old_soc w)) ∧
    (12 < old_soc →
      ¬ Fires SocAction.shutdown w (socRules soc old_soc w) ∧
      Effect.system Command.shutdownNow ∉ emitted w (socRules soc old_soc w) ∧
      ¬ Fires SocAction.blinkWarning w (socRules soc old_soc w) ∧
      Effect.go_0 Pin.lcd_pwr ∉ emitted w (socRules soc old_soc w) ∧
      Effect.go_z Pin.lcd_pwr ∉ emitted w (socRules soc old_soc w)) ∧
    (17 < old_soc → Fires SocAction.heartbeat w (socRules soc old_soc w)) := by
  unfold Fires
  rw [socRules_emitted]
  refine ⟨?_, ?_, ?_⟩
  · intro h
    have h1 : ¬ (soc ≤ 8 ∧ old_soc ≤ 10) := fun hc => by omega
    rw [if_neg h1]
    split_ifs <;> simp [SocAction.effects]
  · intro h
    have h1 : ¬ (soc ≤ 8 ∧ old_soc ≤ 10) := fun hc => by omega
    have h2 : ¬ (soc ≤ 10 ∧ old_soc ≤ 12) := fun hc => by omega
    rw [if_neg h1, if_neg h2]
    split_ifs <;> simp [SocAction.effects]
  · intro h
    have h1 : ¬ (soc ≤ 8 ∧ old_soc ≤ 10) := fun hc => by omega
    have h2 : ¬ (soc ≤ 10 ∧ old_soc ≤ 12) := fun hc => by omega
    have h3 : ¬ (soc ≤ 15 ∧ old_soc ≤ 17) := fun hc => by omega
    rw [if_neg h1, if_neg h2, if_neg h3]

/-- C2 at `soc = 0`: with `old_soc = 11` no shutdown, with `old_soc = 13` no shutdown and
no LCD blink, with `old_soc = 18` the heartbeat. -/
theorem socRules_hysteresis_witness :
    ((10 : Int) < 11 ∧ (12 : Int) < 13 ∧ (17 : Int) < 18) ∧
    Effect.system Command.shutdownNow ∉ emitted World.start (socRules 0 11 World.start) ∧
    Effect.go_0 Pin.lcd_pwr ∉ emitted World.start (socRules 0 13 World.start) ∧
    Fires SocAction.heartbeat World.start (socRules 0 18 World.start) :=
  ⟨by decide,
    ((socRules_hysteresis 0 11 World.start).1 (by decide)).2,
    ((socRules_hysteresis 0 13 World.start).2.1 (by decide)).2.2.2.1,
    (socRules_hysteresis 0 18 World.start).2.2 (by decide)⟩

/-! ## C3: over-temperature debounce -/

/-- C4: the status read and the State-of-Charge read of a cycle, and the State-of-Charge
read of `application_on_timer_event`, run the register-read sequence exactly once when
the first attempt ends with the error flag clear and a plausible word (status not
0xFFFF, charge below 150), and exactly twice otherwise, never more; the value and the
world used afterwards are those of the first attempt when there was no retry and those
of the second attempt otherwise, whatever that attempt returned. -/
theorem retry_policy (env : Env) (w : World) :
    (((statusFirst env w).2.error = false ∧ (statusFirst env w).1 ≠ 0xffff) →
      readBatteryStatus env w = statusFirst env w ∧
      calls (emitted w (readBatteryStatus env w).2) = registerReadCalls 0x16) ∧
    (((statusFirst env w).2.error = true ∨ (statusFirst env w).1 = 0xffff) →
      readBatteryStatus env w = statusSecond env w ∧
      calls (emitted w (readBatteryStatus env w).2) =
        registerReadCalls 0x16 ++ registerReadCalls 0x16) ∧
    (((socFirst env w).2.error = false ∧ (socFirst env w).1 < 150) →
      readSoc env w = (((socFirst env w).1 : Int), (socFirst env w).2) ∧
      calls (emitted w (readSoc env w).2) = registerReadCalls 0x0d ∧
      application_on_timer_event env w = (((socFirst env w).1 : Int), (socFirst env w).2) ∧
      calls (emitted w (application_on_timer_event env w).2) = registerReadCalls 0x0d) ∧
    (((socFirst env w).2.error = true ∨ 150 ≤ (socFirst env w).1) →
      readSoc env w = (((socSecond env w).1 : Int), (socSecond env w).2) ∧
      calls (emitted w (readSoc env w).2) = registerReadCalls 0x0d ++ registerReadCalls 0x0d ∧
      application_on_timer_event env w = (((socSecond env w).1 : Int), (socSecond env w).2) ∧
      calls (emitted w (application_on_timer_event env w).2) =
        registerReadCalls 0x0d ++ registerReadCalls 0x0d) ∧
    ((calls (emitted w (readBatteryStatus env w).2)).count BusFn.read16 ≤ 2 ∧
      (calls (emitted w (readSoc env w).2)).count BusFn.read16 ≤ 2 ∧
      (calls (emitted w (application_on_timer_event env w).2)).count BusFn.read16 ≤ 2) := by
  have hs1 : ((statusFirst env w).2.error = false ∧ (statusFirst env w).1 ≠ 0xffff) →
      readBatteryStatus env w = statusFirst env w := by
    intro h
    rw [readBatteryStatus_eq]
    have hn : ¬ ((registerRead 0x16 env { w with error := false }).1 = 0xffff ∨
        (registerRead 0x16 env { w with error := false }).2.error = true) := by
      intro hc
      rcases hc with hc | hc
      · exact h.2 hc
      · have h1 : (registerRead 0x16 env { w with error := false }).2.error = false := h.1
        rw [h1] at hc
        exact Bool.noConfusion hc
    rw [if_neg hn]
    rfl
  have hs2 : ((statusFirst env w).2.error = true ∨ (statusFirst env w).1 = 0xffff) →
      readBatteryStatus env w = statusSecond env w := by
    intro h
    rw [readBatteryStatus_eq]
    have hp : (registerRead 0x16 env { w with error := false }).1 = 0xffff ∨
        (registerRead 0x16 env { w with error := false }).2.error = true := h.symm
    rw [if_pos hp]
    rfl
  have hc1 : ((socFirst env w).2.error = false ∧ (socFirst env w).1 < 150) →
      readSoc env w = (((socFirst env w).1 : Int), (socFirst env w).2) := by
    intro h
    rw [readSoc_eq]
    have hn : ¬ (150 ≤ (registerRead 0x0d env { w with error := false }).1 ∨
        (registerRead 0x0d env { w with error := false }).2.error = true) := by
      intro hc
      rcases hc with hc | hc
      · exact absurd h.2 (not_lt.mpr hc)
      · have h1 : (registerRead 0x0d env { w with error := false }).2.error = false := h.1
        rw [h1] at hc
        exact Bool.noConfusion hc
    rw [if_neg hn]
    rfl
  have hc2 : ((socFirst env w).2.error = true ∨ 150 ≤ (socFirst env w).1) →
      readSoc env w = (((socSecond env w).1 : Int), (socSecond env w).2) := by
    intro h
    rw [readSoc_eq]
    have hp : 150 ≤ (registerRead 0x0d env { w with error := false }).1 ∨
        (registerRead 0x0d env { w with error := false }).2.error = true := h.symm
    rw [if_pos hp]
    rfl
  have hcount1 : (registerReadCalls 0x16).count BusFn.read16 = 1 := by decide
  have hcount2 : (registerReadCalls 0x0d).count BusFn.read16 = 1 := by decide
  have hsoc : (calls (emitted w (readSoc env w).2)).count BusFn.read16 ≤ 2 := by
    by_cases h : (socFirst env w).2.error = true ∨ 150 ≤ (socFirst env w).1
    · rw [hc2 h, calls_emitted_socSecond, List.count_append, hcount2]
    · have h1 : (socFirst env w).2.error = false ∧ (socFirst env w).1 < 150 := by
        constructor
        · cases he : (socFirst env w).2.error
          · rfl
          · exact absurd (Or.inl he) h
        · exact not_le.mp (fun hle => h (Or.inr hle))
      rw [hc1 h1, calls_emitted_socFirst, hcount2]
      decide
  refine ⟨?_, ?_, ?_, ?_, ?_, hsoc, hsoc⟩
  · intro h
    refine ⟨hs1 h, ?_⟩
    rw [hs1 h]
    exact calls_emitted_statusFirst env w
  · intro h
    refine ⟨hs2 h, ?_⟩
    rw [hs2 h]
    exact calls_emitted_statusSecond env w
  · intro h
    have e := hc1 h
    have c : calls (emitted w (readSoc env w).2) = registerReadCalls 0x0d := by
      rw [e]
      exact calls_emitted_socFirst env w
    exact ⟨e, c, e, c⟩
  · intro h
    have e := hc2 h
    have c : calls (emitted w (readSoc env w).2) =
        registerReadCalls 0x0d ++ registerReadCalls 0x0d := by
      rw [e]
      exact calls_emitted_socSecond env w
    exact ⟨e, c, e, c⟩
  · by_cases h : (statusFirst env w).2.error = true ∨ (statusFirst env w).1 = 0xffff
    · rw [hs2 h, calls_emitted_statusSecond, List.count_append, hcount1]
    · have h1 : (statusFirst env w).2.error = false ∧ (statusFirst env w).1 ≠ 0xffff := by
        constructor
        · cases he : (statusFirst env w).2.error
          · rfl
          · exact absurd (Or.inl he) h
        · exact fun hv => h (Or.inr hv)
      rw [hs1 h1, calls_emitted_statusFirst, hcount1]
      decide

set_option maxRecDepth 100000 in
/-- C4 on a bus where every read is low (first attempts are good: one register read) and
on a bus where every read is high (first attempts fail: two register reads). -/
theorem retry_policy_witness :
    (((statusFirst envLow World.start).2.error = false ∧
        (statusFirst envLow World.start).1 ≠ 0xffff) ∧
      calls (emitted World.start (readBatteryStatus envLow World.start).2) =
        registerReadCalls 0x16) ∧
    (((statusFirst envHigh World.start).2.error = true ∨
        (statusFirst envHigh World.start).1 = 0xffff) ∧
      calls (emitted World.start (readBatteryStatus envHigh World.start).2) =
        registerReadCalls 0x16 ++ registerReadCalls 0x16) ∧
    (((socFirst envLow World.start).2.error = false ∧ (socFirst envLow World.start).1 < 150) ∧
      calls (emitted World.start (readSoc envLow World.start).2) = registerReadCalls 0x0d) ∧
    (((socFirst envHigh World.start).2.error = true ∨
        150 ≤ (socFirst envHigh World.start).1) ∧
      calls (emitted World.start (application_on_timer_event envHigh World.start).2) =
        registerReadCalls 0x0d ++ registerReadCalls 0x0d) :=
  ⟨⟨by decide, ((retry_policy envLow World.start).1 (by decide)).2⟩,
    ⟨by decide, ((retry_policy envHigh World.start).2.1 (by decide)).2⟩,
    ⟨by decide, ((retry_policy envLow World.start).2.2.1 (by decide)).2.1⟩,
    ⟨by decide, ((retry_policy envHigh World.start).2.2.2.1 (by decide)).2.2.2⟩⟩

/-! ## C5: send8 presents its argument most-significant bit first -/

/-- C5: for every byte `b` in 0..255, the levels of the data line in the eight clock-high
windows that `send8(b)` produces before its acknowledge phase are, in order, the bits 7
down to 0 of `b` (each held all through its window), and these eight levels assembled
most-significant first give back `b`. -/
theorem send8_msb_first (b : Nat) (hb : b < 256) (env : Env) (w : World) (dat : Drive) :
    ((clockHighWindows dat none (emitted w (send8 (b : Int) env w))).take 8).map stableLevel =
        (bitsMSB b).map some ∧
      byteOfBits (bitsMSB b) = b :=
  ⟨send8_windows b hb env w dat, byteOfBits_bitsMSB ⟨b, hb⟩⟩

/-- C5 at the byte 0xA5. -/
theorem send8_msb_first_witness :
    (0xA5 < 256) ∧
    ((clockHighWindows Drive.low none
        (emitted World.start (send8 ((0xA5 : Nat) : Int) envLow World.start))).take 8).map
          stableLevel =
      [some true, some false, some true, some false, some false, some true, some false,
        some true] :=
  ⟨by decide, (send8_msb_first 0xA5 (by decide) envLow World.start Drive.low).1⟩

/-! ## C6: read16 assembles the word low byte first -/

/-- C6: the function `read16` takes 16 samples `s0..s15` of the data line (whatever the
environment supplies) and returns `low | (high << 8)`, where `low` is the byte whose bits
7..0 are `s0..s7` and `high` the byte whose bits 7..0 are `s8..s15`; the result is below
65536. -/
theorem read16_low_byte_first (env : Env) (w : World) :
    sampledLevels (emitted w (read16 env w).2) = samples env w.reads 16 ∧
    (sampledLevels (emitted w (read16 env w).2)).length = 16 ∧
    (read16 env w).1 =
      byteOfBits ((sampledLevels (emitted w (read16 env w).2)).take 8) |||
        (byteOfBits ((sampledLevels (emitted w (read16 env w).2)).drop 8) <<< 8) ∧
    (read16 env w).1 < 65536 := by
  have he : emitted w (read16 env w).2 =
      read16Effects (samples env w.reads 8) (samples env (w.reads + 8) 8) :=
    emitted_of_trace (by rw [read16_eq])
  have hs : sampledLevels (emitted w (read16 env w).2) =
      samples env w.reads 8 ++ samples env (w.reads + 8) 8 := by
    rw [he, sampledLevels_read16Effects]
  refine ⟨?_, ?_, ?_, ?_⟩
  · rw [hs, ← samples_append]
  · rw [hs]; simp
  · rw [hs, List.take_left' (samples_length _ _ _), List.drop_left' (samples_length _ _ _)]
    exact read16_value env w
  · rw [read16_eq]
    exact read16Value_lt _ _

/-! ## C7: round trip through the bit-level framing -/

/-- C7: for every 16-bit value `v`, when the 16 samples taken by `read16` are the levels
that `send8(v & 0xFF)` and then `send8(v >> 8)` hold on the data line in their eight data
clock-high windows each, `read16` returns `v`. -/
theorem framing_round_trip (v : Nat) (hv : v < 65536) (envS : Env) (ws1 ws2 : World)
    (d1 d2 : Drive) (env : Env) (w : World)
    (hfeed : (samples env w.reads 16).map some =
      ((clockHighWindows d1 none
          (emitted ws1 (send8 ((v &&& 0xFF : Nat) : Int) envS ws1))).take 8).map stableLevel ++
        ((clockHighWindows d2 none
          (emitted ws2 (send8 ((v >>> 8 : Nat) : Int) envS ws2))).take 8).map stableLevel) :
    (read16 env w).1 = v := by
  rw [send8_windows _ (and_255_lt v) envS ws1 d1,
    send8_windows _ (shiftRight_8_lt v hv) envS ws2 d2, ← List.map_append] at hfeed
  have hs : samples env w.reads 16 = bitsMSB (v &&& 0xFF) ++ bitsMSB (v >>> 8) :=
    List.map_injective_iff.mpr (Option.some_injective Bool) hfeed
  have hsplit : samples env w.reads 16 = samples env w.reads 8 ++ samples env (w.reads + 8) 8 :=
    samples_append env w.reads 8 8
  rw [hsplit] at hs
  have hlo : samples env w.reads 8 = bitsMSB (v &&& 0xFF) :=
    (List.append_inj hs (by rw [samples_length, bitsMSB_length])).1
  have hhi : samples env (w.reads + 8) 8 = bitsMSB (v >>> 8) :=
    (List.append_inj hs (by rw [samples_length, bitsMSB_length])).2
  rw [read16_value, hlo, hhi, byteOfBits_bitsMSB ⟨v &&& 0xFF, and_255_lt v⟩,
    byteOfBits_bitsMSB ⟨v >>> 8, shiftRight_8_lt v hv⟩]
  exact split_word v

set_option maxRecDepth 100000 in
/-- C7 at the value 0xBEEF. -/
theorem framing_round_trip_witness :
    (0xBEEF < 65536) ∧
    ((samples (envOfLevels levelsBEEF) World.start.reads 16).map some =
      ((clockHighWindows Drive.low none
          (emitted World.start
            (send8 ((0xBEEF &&& 0xFF : Nat) : Int) envLow World.start))).take 8).map stableLevel ++
        ((clockHighWindows Drive.low none
          (emitted World.start
            (send8 ((0xBEEF >>> 8 : Nat) : Int) envLow World.start))).take 8).map stableLevel) ∧
    (read16 (envOfLevels levelsBEEF) World.start).1 = 0xBEEF :=
  ⟨by decide, by decide,
    framing_round_trip 0xBEEF (by decide) envLow World.start World.start Drive.low Drive.low
      (envOfLevels levelsBEEF) World.start (by decide)⟩

/-! ## C8: charger logic, fully charged -/

set_option maxRecDepth 100000 in
/-- C8 as stated fails: with a good status read of 0x0060 (fully charged and discharging)
the cycle takes the discharge branch and leaves `charge_dis` driven low. -/
theorem fully_charged_any_bits_fails :
    ¬ (∀ (env : Env) (l : Locals) (w : World) (d : Drive),
        ¬ StatusBad (cycleStatus env w) → (cycleStatus env w).1 &&& 0x0020 = 0x0020 →
        driveAfter Pin.charge_dis d (emitted w (cycle env l w).2) = Drive.high) := by
  intro h
  have h1 := h envDischargingFull initLocals World.start Drive.high (by decide) (by decide)
  rw [cycle_discharging_charge_dis envDischargingFull initLocals World.start Drive.high
    (by decide) (by decide)] at h1
  exact absurd h1 (by decide)

/-- C8, amended: in every cycle whose status read is good, with the fully-charged bit
0x0020 set and the discharging bit 0x0040 clear, `charge_dis` is driven high at the end
of the cycle, whatever the other status bits and whatever its drive before the cycle. -/
theorem fully_charged_disables_charger (env : Env) (l : Locals) (w : World) (d : Drive)
    (hgood : ¬ StatusBad (cycleStatus env w))
    (hfull : (cycleStatus env w).1 &&& 0x0020 = 0x0020)
    (hplugged : (cycleStatus env w).1 &&& 0x0040 ≠ 0x0040) :
    driveAfter Pin.charge_dis d (emitted w (cycle env l w).2) = Drive.high := by
  obtain ⟨pre, hall, he⟩ := cycle_emitted_chargerBranch env l w (fun hc => hplugged hc.1)
  have hcb : chargerBranchEffects (decide (StatusBad (cycleStatus env w))) (cycleStatus env w).1 =
      fullyChargedEffects := by
    unfold chargerBranchEffects
    rw [if_pos ⟨hfull, by simpa using hgood⟩]
  rw [he, hcb, driveAfter_append, driveAfter_onBus Pin.charge_dis (by decide) (by decide) d pre hall]
  rcases checkStatusEffects_good l _ hgood with h | h <;> rw [h] <;> cases d <;> decide

set_option maxRecDepth 100000 in
/-- C8, amended, on a cycle that reads the status word 0x0020. -/
theorem fully_charged_disables_charger_witness :
    (¬ StatusBad (cycleStatus envFull World.start) ∧
      (cycleStatus envFull World.start).1 &&& 0x0020 = 0x0020 ∧
      (cycleStatus envFull World.start).1 &&& 0x0040 ≠ 0x0040) ∧
    driveAfter Pin.charge_dis Drive.low
      (emitted World.start (cycle envFull initLocals World.start).2) = Drive.high :=
  ⟨by decide,
    fully_charged_disables_charger envFull initLocals World.start Drive.low (by decide)
      (by decide) (by decide)⟩

/-! ## C9: charger logic, bad read -/

set_option maxRecDepth 100000 in
/-- C9 (the code against the claim): on a bus where every read is high the status read is
flagged bad, and a charger that was disabled before the cycle (`charge_dis` driven high,
as line 359 leaves it) is enabled by the cycle: the branch "error reading battery so do
nothing" executes `go_0(charge_dis)` (line 387). The drive of `charge_dis` at the end of
the cycle is not the one at its start. -/
theorem bad_read_keeps_charger_fails :
    ¬ (∀ (env : Env) (l : Locals) (w : World) (d : Drive),
        StatusBad (cycleStatus env w) →
        driveAfter Pin.charge_dis d (emitted w (cycle env l w).2) = d) := by
  intro h
  have h1 := h envHigh initLocals World.start Drive.high (by decide)
  rw [(cycle_bad_read envHigh initLocals World.start Drive.high (by decide)).1] at h1
  exact absurd h1 (by decide)

/-! ## C10: charger logic, charging -/

/-- C10: in every cycle whose status read is good with the discharging bit 0x0040 clear:
when the fully-charged bit 0x0020 is clear, `charge_dis` is driven low at the end of the
cycle and the LED is blinked exactly twice; when it is set, the LED is blinked exactly
three times. -/
theorem charging_indicator (env : Env) (l : Locals) (w : World) (d : Drive)
    (hgood : ¬ StatusBad (cycleStatus env w))
    (hplugged : (cycleStatus env w).1 &&& 0x0040 ≠ 0x0040) :
    ((cycleStatus env w).1 &&& 0x0020 ≠ 0x0020 →
      driveAfter Pin.charge_dis d (emitted w (cycle env l w).2) = Drive.low ∧
      ledBlinks (emitted w (cycle env l w).2) = 2) ∧
    ((cycleStatus env w).1 &&& 0x0020 = 0x0020 →
      ledBlinks (emitted w (cycle env l w).2) = 3) := by
  obtain ⟨pre, hall, he⟩ := cycle_emitted_chargerBranch env l w (fun hc => hplugged hc.1)
  have hg : decide (StatusBad (cycleStatus env w)) = false := by simpa using hgood
  constructor
  · intro hfull
    have hcb : chargerBranchEffects (decide (StatusBad (cycleStatus env w)))
        (cycleStatus env w).1 = chargingEffects := by
      unfold chargerBranchEffects
      rw [if_neg (fun hc => hfull hc.1), if_pos hg]
    rw [he, hcb]
    constructor
    · rw [driveAfter_append,
        driveAfter_onBus Pin.charge_dis (by decide) (by decide) d pre hall]
      rcases checkStatusEffects_good l _ hgood with h | h <;> rw [h] <;> cases d <;> decide
    · unfold ledBlinks
      rw [blinkCountFrom_onBus false pre _ hall]
      rcases checkStatusEffects_good l _ hgood with h | h <;> rw [h] <;> decide
  · intro hfull
    have hcb : chargerBranchEffects (decide (StatusBad (cycleStatus env w)))
        (cycleStatus env w).1 = fullyChargedEffects := by
      unfold chargerBranchEffects
      rw [if_pos ⟨hfull, hg⟩]
    rw [he, hcb]
    unfold ledBlinks
    rw [blinkCountFrom_onBus false pre _ hall]
    rcases checkStatusEffects_good l _ hgood with h | h <;> rw [h] <;> decide

set_option maxRecDepth 100000 in
/-- C10 on a cycle that reads the status word 0x0000 and on one that reads 0x0020. -/
theorem charging_indicator_witness :
    ((¬ StatusBad (cycleStatus envLow World.start) ∧
        (cycleStatus envLow World.start).1 &&& 0x0040 ≠ 0x0040 ∧
        (cycleStatus envLow World.start).1 &&& 0x0020 ≠ 0x0020) ∧
      driveAfter Pin.charge_dis Drive.high
        (emitted World.start (cycle envLow initLocals World.start).2) = Drive.low ∧
      ledBlinks (emitted World.start (cycle envLow initLocals World.start).2) = 2) ∧
    ((¬ StatusBad (cycleStatus envFull World.start) ∧
        (cycleStatus envFull World.start).1 &&& 0x0040 ≠ 0x0040 ∧
        (cycleStatus envFull World.start).1 &&& 0x0020 = 0x0020) ∧
      ledBlinks (emitted World.start (cycle envFull initLocals World.start).2) = 3) :=
  ⟨⟨by decide,
      (charging_indicator envLow initLocals World.start Drive.high (by decide) (by decide)).1
        (by decide)⟩,
    ⟨by decide,
      (charging_indicator envFull initLocals World.start Drive.high (by decide) (by decide)).2
        (by decide)⟩⟩

/-! ## C11: persistent fault -/

set_option maxRecDepth 100000 in
/-- C11: in a cycle, `bad_bat_stat` is 1 after the cycle exactly when the first status
attempt failed (word 0xFFFF or error flag set after it) and the single retry failed too;
in that case the status check drives the fault LED on (and the LED is driven high at the
end of the cycle). A first attempt that succeeds, or a retry that succeeds, gives
`bad_bat_stat = 0`, whatever `bad_bat_stat` was before the cycle. -/
theorem persistent_fault (env : Env) (l : Locals) (w : World) :
    ((cycle env l w).1.bad_bat_stat = true ↔
      (StatusBad (statusFirst env (cycleStatusStart env w)) ∧
        StatusBad (statusSecond env (cycleStatusStart env w)))) ∧
    ((cycle env l w).1.bad_bat_stat = true →
      emitted (cycleStatus env w).2 (cycleCheck env l w).2 = [Effect.go_1 Pin.led_cntrl] ∧
      ∀ d : Drive, driveAfter Pin.led_cntrl d (emitted w (cycle env l w).2) = Drive.high) ∧
    (¬ StatusBad (statusFirst env (cycleStatusStart env w)) →
      (cycle env l w).1.bad_bat_stat = false) ∧
    (StatusBad (statusFirst env (cycleStatusStart env w)) →
      ¬ StatusBad (statusSecond env (cycleStatusStart env w)) →
      (cycle env l w).1.bad_bat_stat = false) := by
  have hiff : (cycle env l w).1.bad_bat_stat = true ↔
      (StatusBad (statusFirst env (cycleStatusStart env w)) ∧
        StatusBad (statusSecond env (cycleStatusStart env w))) := by
    rw [cycle_bad_bat_stat, decide_eq_true_iff]
    exact statusBad_iff env w
  have hfalse : ¬ (StatusBad (statusFirst env (cycleStatusStart env w)) ∧
      StatusBad (statusSecond env (cycleStatusStart env w))) →
      (cycle env l w).1.bad_bat_stat = false := by
    intro hn
    cases hb : (cycle env l w).1.bad_bat_stat
    · rfl
    · exact absurd (hiff.mp hb) hn
  refine ⟨hiff, ?_, ?_, ?_⟩
  · intro hb
    have hbad : StatusBad (cycleStatus env w) := (statusBad_iff env w).mpr (hiff.mp hb)
    constructor
    · apply emitted_of_trace
      rw [cycleCheck_trace, checkStatusEffects_bad l _ hbad]
    · intro d
      exact (cycle_bad_read env l w d hbad).2.2
  · exact fun h1 => hfalse (fun hc => h1 hc.1)
  · exact fun _ h2 => hfalse (fun hc => h2 hc.2)

set_option maxRecDepth 100000 in
/-- C11 on three buses: every read high (both attempts fail), every read low (the first
attempt succeeds), and only the first acknowledge of the first attempt missing (the retry
succeeds), each time from `bad_bat_stat = 1`. -/
theorem persistent_fault_witness :
    ((StatusBad (statusFirst envHigh (cycleStatusStart envHigh World.start)) ∧
        StatusBad (statusSecond envHigh (cycleStatusStart envHigh World.start))) ∧
      (cycle envHigh { initLocals with bad_bat_stat := true } World.start).1.bad_bat_stat =
        true ∧
      driveAfter Pin.led_cntrl Drive.low
        (emitted World.start
          (cycle envHigh { initLocals with bad_bat_stat := true } World.start).2) =
        Drive.high) ∧
    (¬ StatusBad (statusFirst envLow (cycleStatusStart envLow World.start)) ∧
      (cycle envLow { initLocals with bad_bat_stat := true } World.start).1.bad_bat_stat =
        false) ∧
    ((StatusBad (statusFirst envRetryGood (cycleStatusStart envRetryGood World.start)) ∧
        ¬ StatusBad (statusSecond envRetryGood (cycleStatusStart envRetryGood World.start))) ∧
      (cycle envRetryGood { initLocals with bad_bat_stat := true } World.start).1.bad_bat_stat =
        false) := by
  have a1 : StatusBad (statusFirst envHigh (cycleStatusStart envHigh World.start)) ∧
      StatusBad (statusSecond envHigh (cycleStatusStart envHigh World.start)) := by decide
  have a2 : ¬ StatusBad (statusFirst envLow (cycleStatusStart envLow World.start)) := by decide
  have a3 : StatusBad (statusFirst envRetryGood (cycleStatusStart envRetryGood World.start)) ∧
      ¬ StatusBad (statusSecond envRetryGood (cycleStatusStart envRetryGood World.start)) := by
    decide
  have hH := persistent_fault envHigh { initLocals with bad_bat_stat := true } World.start
  have hL := persistent_fault envLow { initLocals with bad_bat_stat := true } World.start
  have hR := persistent_fault envRetryGood { initLocals with bad_bat_stat := true } World.start
  exact ⟨⟨a1, hH.1.mpr a1, (hH.2.1 (hH.1.mpr a1)).2 Drive.low⟩, ⟨a2, hL.2.2.1 a2⟩,
    ⟨a3, hR.2.2.2 a3.1 a3.2⟩⟩

/-! ## C12: a bad status read leaves the monitoring state untouched -/

/-- C12: in every cycle whose status read is flagged bad, `over_temp_count` and `old_soc`
are the same after the cycle as before it, the bus functions called in the cycle are
those of the enable sequence and of the two status reads only (no State-of-Charge
register read), and no shutdown is issued. -/
theorem bad_read_frame (env : Env) (l : Locals) (w : World)
    (hbad : StatusBad (cycleStatus env w)) :
    (cycle env l w).1.over_temp_count = l.over_temp_count ∧
    (cycle env l w).1.old_soc = l.old_soc ∧
    calls (emitted w (cycle env l w).2) =
      enableCalls ++ (registerReadCalls 0x16 ++ registerReadCalls 0x16) ∧
    BusFn.send8 0x0d ∉ calls (emitted w (cycle env l w).2) ∧
    ¬ shutdownIssued env l w := by
  have hc := calls_cycleEffects_of_bad env l w hbad
  refine ⟨cycle_over_temp_count_of_bad env l w hbad,
    cycle_old_soc_of_not_discharging env l w (not_discharging_of_bad env w hbad), ?_, ?_,
    not_shutdownIssued_of_bad env l w hbad⟩
  · rw [cycle_emitted, hc]
  · rw [cycle_emitted, hc]
    decide

set_option maxRecDepth 100000 in
/-- C12 on a bus where every read is high, from `over_temp_count = 3` and `old_soc = 9`. -/
theorem bad_read_frame_witness :
    StatusBad (cycleStatus envHigh World.start) ∧
    (cycle envHigh { initLocals with over_temp_count := 3, old_soc := 9 }
      World.start).1.over_temp_count = 3 ∧
    (cycle envHigh { initLocals with over_temp_count := 3, old_soc := 9 }
      World.start).1.old_soc = 9 ∧
    ¬ shutdownIssued envHigh { initLocals with over_temp_count := 3, old_soc := 9 }
      World.start :=
  ⟨by decide,
    (bad_read_frame envHigh { initLocals with over_temp_count := 3, old_soc := 9 } World.start
      (by decide)).1,
    (bad_read_frame envHigh { initLocals with over_temp_count := 3, old_soc := 9 } World.start
      (by decide)).2.1,
    (bad_read_frame envHigh { initLocals with over_temp_count := 3, old_soc := 9 } World.start
      (by decide)).2.2.2.2⟩

/-! ## C13: acknowledge failures are recorded and only recorded -/

/-- C13: the function `send8` takes one sample of the data line, in its acknowledge
window; the error flag after it is 1 when that sample is high and is unchanged when it
is low (it is never cleared). Hence the error flag after a register read is the flag
before it or-ed with the three acknowledge samples of its three `send8` calls: from
`error = 0` it is 1 exactly when one of them is high, and it does not depend on the 16
data samples of `read16`. -/
theorem ack_failures_recorded (arg ptr : Int) (env : Env) (w : World) :
    (sampledLevels (emitted w (send8 arg env w)) = [env w.reads] ∧
      (env w.reads = true → (send8 arg env w).error = true) ∧
      (env w.reads = false → (send8 arg env w).error = w.error)) ∧
    (sampledLevels (emitted w (registerRead ptr env w).2) =
        [env w.reads, env (w.reads + 1), env (w.reads + 2)] ++ samples env (w.reads + 3) 16 ∧
      (registerRead ptr env w).2.error =
        (w.error || env w.reads || env (w.reads + 1) || env (w.reads + 2))) ∧
    (w.error = false →
      ((registerRead ptr env w).2.error = true ↔
        (env w.reads = true ∨ env (w.reads + 1) = true ∨ env (w.reads + 2) = true))) ∧
    (∀ env2 : Env, env2 w.reads = env w.reads → env2 (w.reads + 1) = env (w.reads + 1) →
      env2 (w.reads + 2) = env (w.reads + 2) →
      (registerRead ptr env2 w).2.error = (registerRead ptr env w).2.error) := by
  refine ⟨⟨?_, ?_, ?_⟩, ⟨?_, registerRead_error ptr env w⟩, ?_, ?_⟩
  · rw [emitted_of_trace (by rw [send8_eq] : (send8 arg env w).trace = w.trace ++ _)]
    exact sampledLevels_send8Effects _ _ _
  · intro h
    rw [send8_eq]
    simp [h]
  · intro h
    rw [send8_eq]
    simp [h]
  · rw [emitted_of_trace (registerRead_trace ptr env w)]
    exact sampledLevels_readAt ptr env w.reads
  · intro h
    rw [registerRead_error, h]
    simp [or_assoc]
  · intro env2 h0 h1 h2
    rw [registerRead_error, registerRead_error, h0, h1, h2]

set_option maxRecDepth 100000 in
/-- C13 on a register read whose second byte only is not acknowledged, with every data
sample low, and on `send8` with a low acknowledge sample and the flag already set. -/
theorem ack_failures_recorded_witness :
    (World.start.error = false ∧ (fun k => decide (k = 1)) (World.start.reads + 1) = true) ∧
    (registerRead 0x16 (fun k => decide (k = 1)) World.start).2.error = true ∧
    (envLow ({ World.start with error := true } : World).reads = false ∧
      (send8 0x16 envLow { World.start with error := true }).error = true) :=
  ⟨⟨rfl, by decide⟩,
    ((ack_failures_recorded 0x16 0x16 (fun k => decide (k = 1)) World.start).2.2.1 rfl).mpr
      (Or.inr (Or.inl (by decide))),
    ⟨rfl, (ack_failures_recorded 0x16 0x16 envLow { World.start with error := true }).1.2.2 rfl⟩⟩

/-! ## C14: the register-read sequence -/

/-- C14: every register read (status and its retry, State of Charge and its retry, in
monitor_battery.c and in `application_on_timer_event`) is the sequence `startbus`,
`send8(0x16)`, `send8(register pointer)`, `sendrptstart`, `send8(0x17)`, `read16`,
`stopbus`: its effects are the effects of these seven functions in this order and
nothing else, the pointer being 0x16 for the status and 0x0d for the State of Charge;
the effects of the status read and of the State-of-Charge read are those of one such
read, or of two of them one after the other, and the world after them is the world after
that composition of the seven functions, run once or twice. -/
theorem register_read_sequence (env : Env) (w : World) :
    (∀ (ptr : Int) (r : Nat),
      readAt ptr env r =
        startbusEffects ++ (send8Effects charIsSigned 0x16 (env r) ++
          (send8Effects charIsSigned ptr (env (r + 1)) ++ (sendrptstartEffects ++
            (send8Effects charIsSigned 0x17 (env (r + 2)) ++
              (read16Effects (samples env (r + 3) 8) (samples env (r + 11) 8) ++
                stopbusEffects)))))) ∧
    (calls (readAt 0x16 env w.reads) = registerReadCalls 0x16 ∧
      calls (readAt 0x0d env w.reads) = registerReadCalls 0x0d) ∧
    (emitted w (readBatteryStatus env w).2 = readAt 0x16 env w.reads ∨
      emitted w (readBatteryStatus env w).2 =
        readAt 0x16 env w.reads ++ readAt 0x16 env (w.reads + 19)) ∧
    (emitted w (readSoc env w).2 = readAt 0x0d env w.reads ∨
      emitted w (readSoc env w).2 =
        readAt 0x0d env w.reads ++ readAt 0x0d env (w.reads + 19)) ∧
    (emitted w (application_on_timer_event env w).2 = readAt 0x0d env w.reads ∨
      emitted w (application_on_timer_event env w).2 =
        readAt 0x0d env w.reads ++ readAt 0x0d env (w.reads + 19)) ∧
    ((∀ (ptr : Int) (v : World),
        registerRead ptr env v =
          ((read16 env (send8 0x17 env (sendrptstart (send8 ptr env (send8 0x16 env
            (startbus v)))))).1,
            stopbus (read16 env (send8 0x17 env (sendrptstart (send8 ptr env (send8 0x16 env
              (startbus v)))))).2)) ∧
      (readBatteryStatus env w = registerRead 0x16 env w.clearError ∨
        readBatteryStatus env w =
          registerRead 0x16 env (registerRead 0x16 env w.clearError).2.clearError) ∧
      ((readSoc env w).2 = (registerRead 0x0d env w.clearError).2 ∨
        (readSoc env w).2 =
          (registerRead 0x0d env (registerRead 0x0d env w.clearError).2).2) ∧
      application_on_timer_event env w = readSoc env w) := by
  have hw1 : readBatteryStatus env w = registerRead 0x16 env w.clearError ∨
      readBatteryStatus env w =
        registerRead 0x16 env (registerRead 0x16 env w.clearError).2.clearError := by
    rw [readBatteryStatus_cases]
    split_ifs
    · exact Or.inr rfl
    · exact Or.inl rfl
  have hw2 : (readSoc env w).2 = (registerRead 0x0d env w.clearError).2 ∨
      (readSoc env w).2 =
        (registerRead 0x0d env (registerRead 0x0d env w.clearError).2).2 := by
    rw [readSoc_cases]
    split_ifs
    · exact Or.inr rfl
    · exact Or.inl rfl
  have hs : emitted w (readBatteryStatus env w).2 = statusReadEffects env w :=
    emitted_of_trace (readBatteryStatus_trace env w)
  have hc : emitted w (readSoc env w).2 = socReadEffects env w :=
    emitted_of_trace (readSoc_trace env w)
  have hc2 : emitted w (readSoc env w).2 = readAt 0x0d env w.reads ∨
      emitted w (readSoc env w).2 =
        readAt 0x0d env w.reads ++ readAt 0x0d env (w.reads + 19) := by
    rw [hc]
    unfold socReadEffects
    split_ifs
    · exact Or.inr rfl
    · exact Or.inl rfl
  refine ⟨fun ptr r => rfl, ⟨calls_readAt_status env w.reads, calls_readAt_soc env w.reads⟩,
    ?_, hc2, hc2, fun ptr v => rfl, hw1, hw2, rfl⟩
  rw [hs]
  unfold statusReadEffects
  split_ifs
  · exact Or.inr rfl
  · exact Or.inl rfl

/-! ## C15: what old_soc holds -/

set_option maxRecDepth 100000 in
/-- C15 as stated fails: when both attempts of the State-of-Charge read fail, the value of
the retry is used and stored whatever it is; with a bus that reads high from the
State-of-Charge read on, `old_soc` is 65535 after the first cycle. -/
theorem old_soc_below_150_fails :
    ¬ (∀ (env : Env) (n : Nat),
        0 ≤ (cycles env n initLocals World.start).1.old_soc ∧
        (cycles env n initLocals World.start).1.old_soc < 150) := by
  intro h
  have h1 := (h envSocGlitch 1).2
  have h2 : (cycles envSocGlitch 1 initLocals World.start).1.old_soc = 65535 := by decide
  rw [h2] at h1
  exact absurd h1 (by decide)

/-- C15, amended: `old_soc` is seeded at 50; at the end of every cycle it is either
unchanged or (in a cycle that takes the discharge branch) equal to the value used by the
State-of-Charge read of the cycle, which is the first sample when the first attempt is
good (no acknowledge failure and value below 150, so that the value stored is below
150) and the sample of the retry otherwise, whatever it is; consequently
`0 ≤ old_soc < 65536` at the start of every cycle, for every sequence of sampled
levels. -/
theorem old_soc_invariant (env : Env) :
    initLocals.old_soc = 50 ∧
    (∀ (l : Locals) (w : World),
      (¬ Discharging env w ∧ (cycle env l w).1.old_soc = l.old_soc) ∨
      (Discharging env w ∧ (cycle env l w).1.old_soc = (cycleSoc env l w).1 ∧
        (¬ SocRetry (socFirst env (cycleSocStart env l w)) →
          (cycleSoc env l w).1 = ((socFirst env (cycleSocStart env l w)).1 : Int) ∧
          (cycleSoc env l w).1 < 150) ∧
        (SocRetry (socFirst env (cycleSocStart env l w)) →
          (cycleSoc env l w).1 = ((socSecond env (cycleSocStart env l w)).1 : Int)))) ∧
    (∀ (n : Nat) (w : World),
      0 ≤ (cycles env n initLocals w).1.old_soc ∧
      (cycles env n initLocals w).1.old_soc < 65536) := by
  refine ⟨rfl, ?_, ?_⟩
  · intro l w
    by_cases hd : Discharging env w
    · refine Or.inr ⟨hd, cycle_old_soc_of_discharging env l w hd, ?_, ?_⟩
      · intro hn
        rw [cycleSoc_value, if_neg hn]
        refine ⟨rfl, ?_⟩
        have h150 : (socFirst env (cycleSocStart env l w)).1 < 150 :=
          not_le.mp (fun hle => hn (Or.inr hle))
        exact_mod_cast h150
      · intro hr
        rw [cycleSoc_value, if_pos hr]
    · exact Or.inl ⟨hd, cycle_old_soc_of_not_discharging env l w hd⟩
  · intro n w
    exact cycles_old_soc_bounds env n initLocals w ⟨by decide, by decide⟩

set_option maxRecDepth 100000 in
/-- C15, amended, on the bus that reads high from the State-of-Charge read on: the retry
is taken and its sample 65535 is stored. -/
theorem old_soc_invariant_witness :
    SocRetry (socFirst envSocGlitch (cycleSocStart envSocGlitch initLocals World.start)) ∧
    (cycleSoc envSocGlitch initLocals World.start).1 =
      ((socSecond envSocGlitch (cycleSocStart envSocGlitch initLocals World.start)).1 : Int) ∧
    (cycles envSocGlitch 1 initLocals World.start).1.old_soc < 65536 := by
  have hr : SocRetry
      (socFirst envSocGlitch (cycleSocStart envSocGlitch initLocals World.start)) := by decide
  have hd : Discharging envSocGlitch World.start := by decide
  have h := old_soc_invariant envSocGlitch
  rcases h.2.1 initLocals World.start with h1 | h1
  · exact absurd hd h1.1
  · exact ⟨hr, h1.2.2.2 hr, (h.2.2 1 World.start).2⟩

/-! ## C16: what follows a shutdown -/

set_option maxRecDepth 100000 in
/-- C16 as stated fails, inside the cycle in which the shutdown is issued. In the fourth of
four over-temperature cycles the shutdown of the over-temperature rule is followed, in the
same cycle, by an action on the charger pin. In a discharging cycle that reads the State
of Charge 0 after a previous 9, the shutdown of the State-of-Charge rule (line 324) is
followed by the assignment of line 353: `old_soc` is 0 after the cycle. -/
theorem shutdown_terminal_fails :
    ¬ (∀ (env : Env) (l : Locals) (w : World), shutdownIssued env l w →
        ∀ e ∈ afterShutdown (emitted w (cycle env l w).2), Effect.isAction e = false) ∧
    ¬ (∀ (env : Env) (l : Locals) (w : World), shutdownIssued env l w →
        (cycle env l w).1.old_soc = l.old_soc) := by
  constructor
  · intro h
    have hot : OverTemp envOverTemp (cycles envOverTemp 3 initLocals World.start).2 := by
      decide
    have hcount : toChar charIsSigned
        ((cycles envOverTemp 3 initLocals World.start).1.over_temp_count + 1) ≥ 4 := by decide
    have hs : overTempShutdown envOverTemp (cycles envOverTemp 3 initLocals World.start).1
        (cycles envOverTemp 3 initLocals World.start).2 :=
      (cycle_overTemp envOverTemp _ _ hot).2.mpr hcount
    have h1 := h envOverTemp _ _ (shutdownIssued_of_overTempShutdown envOverTemp _ _ hs)
    rw [afterShutdown_of_overTempShutdown envOverTemp _ _ hs] at h1
    rcases cycleTailEffects_charger_action envOverTemp
      (cycles envOverTemp 3 initLocals World.start).1
      (cycles envOverTemp 3 initLocals World.start).2 hot.1 with hm | hm
    · exact absurd (h1 _ hm) (by decide)
    · exact absurd (h1 _ hm) (by decide)
  · intro h
    have hd : Discharging envDischargingEmpty World.start := by decide
    have ha : socAction (cycleSoc envDischargingEmpty { initLocals with old_soc := 9 }
        World.start).1 ({ initLocals with old_soc := 9 } : Locals).old_soc =
        SocAction.shutdown := by decide
    have hi : shutdownIssued envDischargingEmpty { initLocals with old_soc := 9 }
        World.start := by
      unfold shutdownIssued
      rw [cycle_emitted, cycleEffects_of_socShutdown _ _ _ hd ha]
      simp
    have h1 := h envDischargingEmpty { initLocals with old_soc := 9 } World.start hi
    rw [cycle_old_soc_of_discharging _ _ _ hd] at h1
    have hv : (cycleSoc envDischargingEmpty { initLocals with old_soc := 9 }
        World.start).1 = 0 := by decide
    rw [hv] at h1
    exact absurd h1 (by decide)

/-- C16, amended: what the cycle does after the shutdown has been issued in it. After a
shutdown issued by the over-temperature rule the cycle goes on with all that follows the
status check (lines 295-391), which acts on the charger pin. After a shutdown issued by
the State-of-Charge rule the cycle performs no further bus, LED, LCD or charger action:
only the final `delay(29000)` follows, and `old_soc` is set to the new sample. In both
cases `over_temp_count` keeps, to the end of the cycle, the value it has after the status
check. -/
theorem shutdown_rest_of_cycle (env : Env) (l : Locals) (w : World) :
    (overTempShutdown env l w →
      afterShutdown (emitted w (cycle env l w).2) = cycleTailEffects env l w ∧
      (Effect.go_0 Pin.charge_dis ∈ afterShutdown (emitted w (cycle env l w).2) ∨
        Effect.go_1 Pin.charge_dis ∈ afterShutdown (emitted w (cycle env l w).2)) ∧
      (cycle env l w).1.over_temp_count = (cycleCheck env l w).1.over_temp_count) ∧
    (Discharging env w → socAction (cycleSoc env l w).1 l.old_soc = SocAction.shutdown →
      (∃ before : List Effect,
        emitted w (cycle env l w).2 =
          before ++ [Effect.system Command.shutdownNow, Effect.delay 29000]) ∧
      (cycle env l w).1.old_soc = (cycleSoc env l w).1 ∧
      (cycle env l w).1.over_temp_count = (cycleCheck env l w).1.over_temp_count) := by
  refine ⟨?_, ?_⟩
  · intro h
    have ha := afterShutdown_of_overTempShutdown env l w h
    refine ⟨ha, ?_, cycle_over_temp_count env l w⟩
    rw [ha]
    exact cycleTailEffects_charger_action env l w
      (checkStatusEffects_of_overTempShutdown env l w h).2
  · intro hd hs
    refine ⟨⟨enableAt env w.reads ++ (statusReadEffects env (cycleStatusStart env w) ++
        (checkStatusEffects l (cycleStatus env w).1 (cycleStatus env w).2.error ++
          (Effect.go_0 Pin.charge_dis :: socReadEffects env (cycleSocStart env l w)))), ?_⟩,
      cycle_old_soc_of_discharging env l w hd, cycle_over_temp_count env l w⟩
    rw [cycle_emitted]
    exact cycleEffects_of_socShutdown env l w hd hs

set_option maxRecDepth 100000 in
/-- C16, amended, on the fourth over-temperature cycle and on a discharging cycle that
reads the State of Charge 0 after a previous 9. -/
theorem shutdown_rest_of_cycle_witness :
    (toChar charIsSigned
        ((cycles envOverTemp 3 initLocals World.start).1.over_temp_count + 1) ≥ 4 ∧
      (Effect.go_0 Pin.charge_dis ∈ afterShutdown
          (emitted (cycles envOverTemp 3 initLocals World.start).2
            (cycle envOverTemp (cycles envOverTemp 3 initLocals World.start).1
              (cycles envOverTemp 3 initLocals World.start).2).2) ∨
        Effect.go_1 Pin.charge_dis ∈ afterShutdown
          (emitted (cycles envOverTemp 3 initLocals World.start).2
            (cycle envOverTemp (cycles envOverTemp 3 initLocals World.start).1
              (cycles envOverTemp 3 initLocals World.start).2).2))) ∧
    ((Discharging envDischargingEmpty World.start ∧
        socAction (cycleSoc envDischargingEmpty { initLocals with old_soc := 9 }
          World.start).1 ({ initLocals with old_soc := 9 } : Locals).old_soc =
          SocAction.shutdown) ∧
      (cycle envDischargingEmpty { initLocals with old_soc := 9 } World.start).1.old_soc =
        (cycleSoc envDischargingEmpty { initLocals with old_soc := 9 } World.start).1) := by
  have hot : OverTemp envOverTemp (cycles envOverTemp 3 initLocals World.start).2 := by decide
  have hcount : toChar charIsSigned
      ((cycles envOverTemp 3 initLocals World.start).1.over_temp_count + 1) ≥ 4 := by decide
  have hs : overTempShutdown envOverTemp (cycles envOverTemp 3 initLocals World.start).1
      (cycles envOverTemp 3 initLocals World.start).2 :=
    (cycle_overTemp envOverTemp _ _ hot).2.mpr hcount
  have hd : Discharging envDischargingEmpty World.start := by decide
  have ha : socAction (cycleSoc envDischargingEmpty { initLocals with old_soc := 9 }
      World.start).1 ({ initLocals with old_soc := 9 } : Locals).old_soc =
      SocAction.shutdown := by decide
  exact ⟨⟨hcount,
      ((shutdown_rest_of_cycle envOverTemp (cycles envOverTemp 3 initLocals World.start).1
        (cycles envOverTemp 3 initLocals World.start).2).1 hs).2.1⟩,
    ⟨hd, ha⟩,
    ((shutdown_rest_of_cycle envDischargingEmpty { initLocals with old_soc := 9 }
      World.start).2 hd ha).2.1⟩

/-! ## C17: the period of the loop -/

/-- C17 as stated fails: the delays of an iteration do not add up to 30 seconds (on a bus
where every read is low they add up to 30.0112 s). -/
theorem fixed_period_fails :
    ¬ (∀ (env : Env) (l : Locals) (w : World),
        delayTotal (emitted w (cycle env l w).2) = 30000000) := by
  intro h
  have h1 := h envLow initLocals World.start
  rw [cycle_emitted] at h1
  exact (delayTotal_cycleEffects envLow initLocals World.start).1 h1

/-- C17, amended: in every iteration the final sleep is the fixed `delay(29000)`, not the
remainder of a period. The delays of an iteration are: 5470 us for the enable sequence
and 6730 us for each of its one to four register reads; and, in milliseconds, the 29000
of the final sleep plus those of its indicator (0 for a bad status or a shutdown by the
State-of-Charge rule, 2500 for the LCD blink, 1000 for the LED warning or the heartbeat,
1250 for fully charged, 999 for charging). Their sum lies between 29.01893 s and
31.53239 s and is never 30 s. -/
theorem cycle_delays (env : Env) (l : Locals) (w : World) :
    (∃ before : List Effect, emitted w (cycle env l w).2 = before ++ [Effect.delay 29000]) ∧
    usDelay (emitted w (cycle env l w).2) = 5470 + 6730 * cycleReadCount env l w ∧
    (1 ≤ cycleReadCount env l w ∧ cycleReadCount env l w ≤ 4) ∧
    msDelay (emitted w (cycle env l w).2) = cycleIndicatorMs env l w + 29000 ∧
    delayTotal (emitted w (cycle env l w).2) ≠ 30000000 ∧
    29018930 ≤ delayTotal (emitted w (cycle env l w).2) ∧
    delayTotal (emitted w (cycle env l w).2) ≤ 31532390 := by
  rw [cycle_emitted]
  exact ⟨cycleEffects_ends_with_delay env l w, usDelay_cycleEffects env l w,
    ⟨(cycleReadCount_bounds env l w).1, (cycleReadCount_bounds env l w).2.1⟩,
    msDelay_cycleEffects env l w, delayTotal_cycleEffects env l w⟩

/-! ## C18: plausibility of the current in read_battery.c -/

/-- C18: with `c` the word of the first attempt read as a signed 16-bit value, the
current register is read again if and only if `c ≥ 3000`, or `c ≤ -3000`, or `c = -1`
(the word 0xFFFF), or the error flag is set; so a first attempt with no acknowledge
failure is accepted exactly when `-3000 < c < 3000` and `c ≠ -1`. The value printed is
the first reading when it is accepted and the second reading otherwise. -/
theorem current_plausibility (env : Env) (w : World) :
    (readCurrent env w =
      if CurrentRetry (currentFirst env w) then
        (toShort (currentSecond env w).1, (currentSecond env w).2)
      else
        (toShort (currentFirst env w).1, (currentFirst env w).2)) ∧
    (calls (emitted w (readCurrent env w).2) =
      if CurrentRetry (currentFirst env w) then
        registerReadCalls 0x0a ++ registerReadCalls 0x0a
      else registerReadCalls 0x0a) ∧
    (CurrentRetry (currentFirst env w) ↔
      (toShort (currentFirst env w).1 ≥ 3000 ∨ toShort (currentFirst env w).1 ≤ -3000 ∨
        (currentFirst env w).1 = 0xffff ∨ (currentFirst env w).2.error = true)) ∧
    (toShort (currentFirst env w).1 = -1 ↔ (currentFirst env w).1 = 0xffff) ∧
    (toShort (currentFirst env w).1 =
      if (currentFirst env w).1 < 32768 then ((currentFirst env w).1 : Int)
      else ((currentFirst env w).1 : Int) - 65536) ∧
    ((currentFirst env w).2.error = false →
      (¬ CurrentRetry (currentFirst env w) ↔
        (-3000 < toShort (currentFirst env w).1 ∧ toShort (currentFirst env w).1 < 3000 ∧
          toShort (currentFirst env w).1 ≠ -1))) := by
  have hlt : (currentFirst env w).1 < 65536 := registerRead_value_lt _ _ _
  have hm1 := toShort_eq_neg_one _ hlt
  refine ⟨readCurrent_cases env w, ?_, ?_, hm1, toShort_of_lt _ hlt, ?_⟩
  · rw [emitted_of_trace (readCurrent_trace env w)]
    split_ifs
    · rw [calls_append, calls_readAt_current, calls_readAt_current]
    · exact calls_readAt_current env w.reads
  · unfold CurrentRetry
    rw [hm1]
  · intro he
    unfold CurrentRetry
    rw [he]
    constructor
    · intro h
      refine ⟨?_, ?_, ?_⟩
      · exact not_le.mp (fun hc => h (Or.inr (Or.inl hc)))
      · exact not_le.mp (fun hc => h (Or.inl hc))
      · exact fun hc => h (Or.inr (Or.inr (Or.inl hc)))
    · rintro ⟨h1, h2, h3⟩ hc
      rcases hc with hc | hc | hc | hc
      · exact absurd h2 (not_lt.mpr hc)
      · exact absurd h1 (not_lt.mpr hc)
      · exact h3 hc
      · exact Bool.noConfusion hc

set_option maxRecDepth 100000 in
/-- C18 on a read of 2999 mA with every byte acknowledged: the first reading is accepted
and printed. -/
theorem current_plausibility_witness :
    (currentFirst envCurrent2999 World.start).2.error = false ∧
    toShort (currentFirst envCurrent2999 World.start).1 = 2999 ∧
    ¬ CurrentRetry (currentFirst envCurrent2999 World.start) ∧
    (readCurrent envCurrent2999 World.start).1 = 2999 := by
  have he : (currentFirst envCurrent2999 World.start).2.error = false := by decide
  have hv : toShort (currentFirst envCurrent2999 World.start).1 = 2999 := by decide
  have h := current_plausibility envCurrent2999 World.start
  have hn : ¬ CurrentRetry (currentFirst envCurrent2999 World.start) :=
    (h.2.2.2.2.2 he).mpr (by rw [hv]; decide)
  refine ⟨he, hv, hn, ?_⟩
  rw [h.1, if_neg hn]
  exact hv

/-! ## C19: the error flag at the start of a register read -/

set_option maxRecDepth 100000 in
/-- C19 fails on the retry of the State-of-Charge read: lines 309-315 do not clear the
flag. In a cycle that reads the status 0x0040 cleanly and whose first State-of-Charge
attempt is not acknowledged, the retry is the register read started in the world left by
the first attempt, in which `error` is 1; every byte of the retry is acknowledged, and
`error` is still 1 after it. (The first attempts and the status retry start from a
cleared flag.) -/
theorem soc_retry_keeps_error :
    Discharging envSocNack World.start ∧
    SocRetry (socFirst envSocNack (cycleSocStart envSocNack initLocals World.start)) ∧
    cycleSoc envSocNack initLocals World.start =
      (((registerRead 0x0d envSocNack
          (socFirst envSocNack (cycleSocStart envSocNack initLocals World.start)).2).1 : Int),
        (registerRead 0x0d envSocNack
          (socFirst envSocNack (cycleSocStart envSocNack initLocals World.start)).2).2) ∧
    (socFirst envSocNack (cycleSocStart envSocNack initLocals World.start)).2.error = true ∧
    sampledLevels (emitted
        (socFirst envSocNack (cycleSocStart envSocNack initLocals World.start)).2
        (cycleSoc envSocNack initLocals World.start).2) =
      List.replicate 19 false ∧
    (cycleSoc envSocNack initLocals World.start).2.error = true := by
  have hd : Discharging envSocNack World.start := by decide
  have hr : SocRetry
      (socFirst envSocNack (cycleSocStart envSocNack initLocals World.start)) := by decide
  have he : (socFirst envSocNack
      (cycleSocStart envSocNack initLocals World.start)).2.error = true := by decide
  have hc : cycleSoc envSocNack initLocals World.start =
      (((registerRead 0x0d envSocNack
          (socFirst envSocNack (cycleSocStart envSocNack initLocals World.start)).2).1 : Int),
        (registerRead 0x0d envSocNack
          (socFirst envSocNack (cycleSocStart envSocNack initLocals World.start)).2).2) := by
    unfold cycleSoc
    rw [readSoc_cases, if_pos hr]
    rfl
  refine ⟨hd, hr, hc, he, ?_, ?_⟩
  · rw [hc, emitted_of_trace (registerRead_trace _ _ _), sampledLevels_readAt]
    decide
  · rw [hc, registerRead_error, he]
    rfl

/-! ## C20: the Start condition -/

/-- C20 as stated fails: the function `startbus` does not release the clock and the data
line; its first effect is the settle delay. -/
theorem startbus_release_fails :
    ¬ (∃ n : Nat, 100 * quarter ≤ n ∧
        (emitted World.start (startbus World.start)).filter Effect.isReal =
          [Effect.go_z Pin.clock, Effect.go_z Pin.data, Effect.delayMicroseconds n,
            Effect.go_0 Pin.data, Effect.delayMicroseconds quarter, Effect.go_0 Pin.clock,
            Effect.delayMicroseconds (4 * quarter)]) := by
  rintro ⟨n, _, h⟩
  rw [emitted_of_trace (congrArg World.trace (startbus_eq World.start))] at h
  have hl := congrArg List.length h
  simp [startbusEffects, Effect.isReal] at hl

/-- C20, amended: the effects of `startbus` are exactly: wait 100 quarter periods
(1000 us), assert data low, wait 1 quarter period, assert clock low, wait 4 quarter
periods. It does not release the lines itself: during the settle wait they are held as
they were on entry. Data is asserted low strictly before clock, and both lines are
asserted low when `startbus` returns, however they were held on entry. -/
theorem startbus_effects (w : World) (dc dd : Drive) :
    (emitted w (startbus w)).filter Effect.isReal =
      [Effect.delayMicroseconds (100 * quarter), Effect.go_0 Pin.data,
        Effect.delayMicroseconds quarter, Effect.go_0 Pin.clock,
        Effect.delayMicroseconds (4 * quarter)] ∧
    (driveAfter Pin.clock dc ((emitted w (startbus w)).take 2) = dc ∧
      driveAfter Pin.data dd ((emitted w (startbus w)).take 2) = dd) ∧
    ((emitted w (startbus w)).indexOf (Effect.go_0 Pin.data) <
      (emitted w (startbus w)).indexOf (Effect.go_0 Pin.clock)) ∧
    (driveAfter Pin.data dd ((emitted w (startbus w)).take 3) = Drive.low ∧
      driveAfter Pin.clock dc ((emitted w (startbus w)).take 3) = dc) ∧
    (driveAfter Pin.clock dc (emitted w (startbus w)) = Drive.low ∧
      driveAfter Pin.data dd (emitted w (startbus w)) = Drive.low) := by
  rw [emitted_of_trace (congrArg World.trace (startbus_eq w))]
  refine ⟨by decide, ⟨rfl, rfl⟩, by decide, ⟨rfl, ?_⟩, ?_, ?_⟩
  · cases dc <;> rfl
  · cases dc <;> rfl
  · cases dd <;> rfl

/-! ## C21: `startbus` is only called with the bus idle -/

/-- C21: in `main` of monitor_battery.c, from the start of the program through any number
`n` of iterations of the loop, whatever the levels `env` read and whatever the drives
`c`, `d` of the lines before the program, every call of `startbus` is made when the bus
function entered last is `setupbus` or `stopbus` and the clock and data lines are both
released; and every iteration does call `startbus`. -/
theorem startbus_only_from_idle (env : Env) (n : Nat) (c d : Drive) :
    (lineSteps none c d (mainAfter env n).2.trace).all LineStep.startFromIdle = true ∧
    BusFn.startbus ∈ calls (emitted (mainAfter env n).2 (mainAfter env (n + 1)).2) := by
  refine ⟨startFromIdle_mainAfter env n c d, ?_⟩
  rw [mainAfter_emitted]
  exact startbus_mem_calls_cycleEffects env _ _

/-! ## C22: the vendor enable sequence sends its bytes without a start -/

/-- C22 (the code against the claim): every iteration of the loop of monitor_battery.c
begins with the entry of `send8(0x16)` (line 248), made when the bus function entered last
is `setupbus` (first iteration) or `stopbus` (later iterations) and the clock and data
lines are both released: no `startbus` has opened a transfer, and the clock is not
asserted low. The same holds after `setupbus` in `main` of read_battery.c (line 200).
By contrast, in a register read every `send8` is entered with the clock asserted low. -/
theorem enable_send8_without_start (env : Env) (n : Nat) (c d : Drive) :
    (lineSteps (fnAfter none (mainAfter env n).2.trace)
        (driveAfter Pin.clock c (mainAfter env n).2.trace)
        (driveAfter Pin.data d (mainAfter env n).2.trace)
        (emitted (mainAfter env n).2 (mainAfter env (n + 1)).2)).head? =
      some { fn := some (if n = 0 then BusFn.setupbus else BusFn.stopbus),
             clock := Drive.released, data := Drive.released,
             effect := Effect.enter (BusFn.send8 0x16) } ∧
    (lineSteps none c d (mainAfter env (n + 1)).2.trace).all LineStep.send8ClockLow = false ∧
    (∀ w : World, (lineSteps none c d (emitted w (readBatteryStart env w))).get? 6 =
      some { fn := some BusFn.setupbus, clock := Drive.released, data := Drive.released,
             effect := Effect.enter (BusFn.send8 0x16) }) ∧
    (∀ (ptr : Int) (w : World) (f : Option BusFn),
      (lineSteps f c d (emitted w (registerRead ptr env w).2)).all
        LineStep.send8ClockLow = true) := by
  have hl := mainAfter_lines env n c d
  refine ⟨?_, ?_, ?_, ?_⟩
  · rw [mainAfter_emitted, hl.1, hl.2.1, hl.2.2, lineSteps_head, cycleEffects_head]
    rfl
  · rw [mainAfter_succ_trace, lineSteps_all_append, hl.1, hl.2.1, hl.2.2, cycleEffects_cons,
      lineSteps, List.all_cons]
    simp [LineStep.send8ClockLow]
  · intro w
    have he : emitted w (readBatteryStart env w) = setupbusEffects ++ enableAt env w.reads :=
      emitted_of_trace (by
        unfold readBatteryStart
        rw [enableDellBattery_eq, setupbus_eq]
        simp [World.extend])
    rw [he]
    unfold enableAt enableEffects send8Effects
    rfl
  · intro ptr w f
    rw [emitted_registerRead]
    exact send8ClockLow_registerReadEffects _ _ _ _ _ _ _ _ _

/-! ## C23: read16 acknowledges the low byte and not the high byte -/

/-- C23: whatever the levels read and the drive `dat` of the data line before the call,
`read16` does the loop of the eight low-byte samples, the acknowledge phase, the loop of
the eight high-byte samples and the no-acknowledge phase. Its clock-high windows are the
eight of the low byte (data released), one in which data is held asserted low all through
(the acknowledge), after which it waits 40 quarter periods, the eight of the high byte
(data released), and one in which data is released all through (the no-acknowledge), after
which it waits 8 quarter periods. It returns with clock and data both asserted low. -/
theorem read16_ack_then_nack (env : Env) (w : World) (c dat : Drive) :
    emitted w (read16 env w).2 =
      Effect.enter BusFn.read16 :: read16LoopEffects (samples env w.reads 8) ++
        [Effect.delayMicroseconds (2 * quarter), Effect.go_0 Pin.data,
          Effect.delayMicroseconds quarter, Effect.go_z Pin.clock,
          Effect.delayMicroseconds (2 * quarter), Effect.go_0 Pin.clock, Effect.go_0 Pin.data,
          Effect.delayMicroseconds (40 * quarter)] ++
        read16LoopEffects (samples env (w.reads + 8) 8) ++
        [Effect.delayMicroseconds (2 * quarter), Effect.go_z Pin.data,
          Effect.delayMicroseconds quarter, Effect.go_z Pin.clock,
          Effect.delayMicroseconds (2 * quarter), Effect.go_0 Pin.clock, Effect.go_0 Pin.data,
          Effect.delayMicroseconds (8 * quarter)] ∧
    clockHighData dat none (emitted w (read16 env w).2) =
      List.replicate 8 [Drive.released, Drive.released] ++
        ([Drive.low, Drive.low] ::
          (List.replicate 8 [Drive.released, Drive.released] ++
            [[Drive.released, Drive.released]])) ∧
    driveAfter Pin.clock c (emitted w (read16 env w).2) = Drive.low ∧
    driveAfter Pin.data dat (emitted w (read16 env w).2) = Drive.low := by
  rw [emitted_read16]
  refine ⟨rfl, ?_, (driveAfter_read16Effects _ _ c dat).1, (driveAfter_read16Effects _ _ c dat).2⟩
  rw [clockHighData_read16Effects, samples_length, samples_length]

/-! ## C24: the bus lines are never driven high -/

/-- C24: no effect of the three programs is `go_1` applied to `clock` or to `data`. This
holds of the whole history of `main` of monitor_battery.c after any number `n` of
iterations; of each function of the bus transport and of any sequence `cs` of calls of
them, which is all that `main` of read_battery.c does to the pins, and in particular of
its enable sequence and of its current read; and of `application_init` (a call of
`setupbus`) and `application_on_timer_event` of application.c. -/
theorem bus_lines_never_driven_high (env : Env) (n : Nat) (c : BusCall) (cs : List BusCall)
    (w : World) :
    (mainAfter env n).2.trace.all Effect.busSafe = true ∧
    (emitted w (c.run env w)).all Effect.busSafe = true ∧
    (emitted w (runCalls env cs w)).all Effect.busSafe = true ∧
    (emitted w (readBatteryStart env w)).all Effect.busSafe = true ∧
    (emitted w (readCurrent env w).2).all Effect.busSafe = true ∧
    (emitted w (setupbus w)).all Effect.busSafe = true ∧
    (emitted w (application_on_timer_event env w).2).all Effect.busSafe = true := by
  refine ⟨mainAfter_busSafe env n, emitted_busSafe (BusCall.run_busSafe env c w),
    emitted_busSafe (runCalls_busSafe env cs w),
    emitted_busSafe (runCalls_busSafe env
      [BusCall.setupbus, BusCall.send8 0x16, BusCall.send8 0x00, BusCall.send8 0x0A,
        BusCall.send8 0x00, BusCall.stopbus] w),
    ?_, emitted_busSafe (BusCall.run_busSafe env BusCall.setupbus w), ?_⟩
  · rw [emitted_of_trace (readCurrent_trace env w)]
    split_ifs <;> simp only [List.all_append, readAt_busSafe, Bool.and_self]
  · rw [application_on_timer_event_eq, emitted_of_trace (readSoc_trace env w)]
    exact socReadEffects_busSafe env w

/-! ## C25: the samples of read16 and of send8 -/

/-- C25: whatever the levels read, the bus function entered before and the drives `c`, `d` of
the lines before the call: `read16` takes exactly 16 samples, 8 in the loop before the
acknowledge of the low byte and 8 in the loop after it, each of them a sample of the data
line taken when the program has the data line released; `send8` takes exactly one
sample, a sample of the data line taken in the acknowledge phase when the program has the
data line and the clock line both released. -/
theorem read16_and_send8_samples (env : Env) (w : World) (arg : Int) (f : Option BusFn)
    (c d : Drive) :
    ((emitted w (read16 env w).2).filter Effect.isSample).length = 16 ∧
    emitted w (read16 env w).2 =
      (Effect.enter BusFn.read16 :: read16LoopEffects (samples env w.reads 8)) ++
        read16AckEffects ++
        (read16LoopEffects (samples env (w.reads + 8) 8) ++ read16NackEffects) ∧
    ((Effect.enter BusFn.read16 ::
      read16LoopEffects (samples env w.reads 8)).filter Effect.isSample).length = 8 ∧
    read16AckEffects.filter Effect.isSample = [] ∧
    ((read16LoopEffects (samples env (w.reads + 8) 8) ++
      read16NackEffects).filter Effect.isSample).length = 8 ∧
    (lineSteps f c d (emitted w (read16 env w).2)).all LineStep.dataSample = true ∧
    ((emitted w (send8 arg env w)).filter Effect.isSample).length = 1 ∧
    (lineSteps f c d (emitted w (send8 arg env w))).all LineStep.ackSample = true := by
  have h1 : ((Effect.enter BusFn.read16 ::
      read16LoopEffects (samples env w.reads 8)).filter Effect.isSample).length = 8 := by
    rw [List.filter_cons_of_neg (by simp [Effect.isSample]), isSample_read16Loop,
      samples_length]
  have h2 : read16AckEffects.filter Effect.isSample = [] := rfl
  have h3 : ((read16LoopEffects (samples env (w.reads + 8) 8) ++
      read16NackEffects).filter Effect.isSample).length = 8 := by
    rw [List.filter_append, List.length_append, isSample_read16Loop, samples_length]
    rfl
  have h4 : read16Effects (samples env w.reads 8) (samples env (w.reads + 8) 8) =
      (Effect.enter BusFn.read16 :: read16LoopEffects (samples env w.reads 8)) ++
        read16AckEffects ++
        (read16LoopEffects (samples env (w.reads + 8) 8) ++ read16NackEffects) := by
    simp [read16Effects, List.append_assoc]
  rw [emitted_read16, emitted_send8]
  refine ⟨?_, h4, h1, h2, h3, dataSample_read16Effects _ _ f c d, ?_,
    ackSample_send8Effects _ _ _ f c d⟩
  · rw [h4, List.filter_append, List.filter_append, List.length_append, List.length_append,
      h1, h2, h3]
    rfl
  · unfold send8Effects
    rw [List.filter_append, List.filter_cons_of_neg (by simp [Effect.isSample]),
      isSample_send8Loop]
    rfl

/-! ## C26: data is stable while the clock is high -/

/-- C26: whatever the levels read, the bus function entered before and the drive `d` of the
data line before the call: in `send8` and in `read16` entered with the clock asserted
low, every step that changes the drive of the data line is done while the clock is
asserted low, and the clock is asserted low on return; in a register read entered with
both lines released, the changes of the drive of the data line made while the clock is not
asserted low are exactly three: the assert-low of `startbus`, the assert-low of
`sendrptstart` and the release of `stopbus`. -/
theorem data_stable_while_clock_high (env : Env) (w : World) (arg ptr : Int)
    (f : Option BusFn) (d : Drive) :
    (lineSteps f Drive.low d (emitted w (send8 arg env w))).all LineStep.dataStable = true ∧
    driveAfter Pin.clock Drive.low (emitted w (send8 arg env w)) = Drive.low ∧
    (lineSteps f Drive.low d (emitted w (read16 env w).2)).all LineStep.dataStable = true ∧
    driveAfter Pin.clock Drive.low (emitted w (read16 env w).2) = Drive.low ∧
    dataChangesClockHigh f Drive.released Drive.released
        (emitted w (registerRead ptr env w).2) =
      [(some BusFn.startbus, Effect.go_0 Pin.data),
        (some BusFn.sendrptstart, Effect.go_0 Pin.data),
        (some BusFn.stopbus, Effect.go_z Pin.data)] := by
  rw [emitted_send8, emitted_read16, emitted_registerRead]
  exact ⟨dataStable_send8Effects _ _ _ f d, (driveAfter_send8Effects _ _ _ _ d).1,
    dataStable_read16Effects _ _ f d, (driveAfter_read16Effects _ _ _ d).1,
    dataChangesClockHigh_registerReadEffects _ _ _ _ _ _ f⟩

/-! ## C27: a silent battery never causes a shutdown -/

/-- C27: if every pin read from the start of a cycle on is high (the data line floats on its
pull-up), then, whatever the locals and the history before the cycle, the cycle makes the
calls of the enable sequence and of exactly two register reads of the status register 0x16
and no other call (no State-of-Charge read), the status is flagged bad, no shutdown is
issued, `over_temp_count` and `old_soc` keep their values, and at the end of the cycle
the fault LED is on (`led_cntrl` driven high, with no blink) and the charger is enabled
(`charge_dis` driven low). -/
theorem silent_battery_no_shutdown (env : Env) (l : Locals) (w : World) (d : Drive)
    (h : ∀ k, w.reads ≤ k → env k = true) :
    calls (emitted w (cycle env l w).2) =
      enableCalls ++ (registerReadCalls 0x16 ++ registerReadCalls 0x16) ∧
    StatusBad (cycleStatus env w) ∧
    (cycle env l w).1.bad_bat_stat = true ∧
    ¬ shutdownIssued env l w ∧
    (cycle env l w).1.over_temp_count = l.over_temp_count ∧
    (cycle env l w).1.old_soc = l.old_soc ∧
    driveAfter Pin.led_cntrl d (emitted w (cycle env l w).2) = Drive.high ∧
    ledBlinks (emitted w (cycle env l w).2) = 0 ∧
    driveAfter Pin.charge_dis d (emitted w (cycle env l w).2) = Drive.low := by
  have hbad := statusBad_of_high env w h
  have h3 := cycle_bad_read env l w d hbad
  refine ⟨?_, hbad, ?_, not_shutdownIssued_of_bad env l w hbad,
    cycle_over_temp_count_of_bad env l w hbad,
    cycle_old_soc_of_not_discharging env l w (not_discharging_of_bad env w hbad),
    h3.2.2, h3.2.1, h3.1⟩
  · rw [cycle_emitted]
    exact calls_cycleEffects_of_bad env l w hbad
  · rw [cycle_bad_bat_stat]
    exact decide_eq_true hbad

/-- Witness for `silent_battery_no_shutdown`: the first cycle from the initial locals when
every read is high. -/
theorem silent_battery_no_shutdown_witness :
    (∀ k, World.start.reads ≤ k → envHigh k = true) ∧
    calls (emitted World.start (cycle envHigh initLocals World.start).2) =
      enableCalls ++ (registerReadCalls 0x16 ++ registerReadCalls 0x16) ∧
    StatusBad (cycleStatus envHigh World.start) ∧
    (cycle envHigh initLocals World.start).1.bad_bat_stat = true ∧
    ¬ shutdownIssued envHigh initLocals World.start ∧
    (cycle envHigh initLocals World.start).1.over_temp_count = initLocals.over_temp_count ∧
    (cycle envHigh initLocals World.start).1.old_soc = initLocals.old_soc ∧
    driveAfter Pin.led_cntrl Drive.low
      (emitted World.start (cycle envHigh initLocals World.start).2) = Drive.high ∧
    ledBlinks (emitted World.start (cycle envHigh initLocals World.start).2) = 0 ∧
    driveAfter Pin.charge_dis Drive.low
      (emitted World.start (cycle envHigh initLocals World.start).2) = Drive.low :=
  ⟨fun _ _ => rfl,
    silent_battery_no_shutdown envHigh initLocals World.start Drive.low (fun _ _ => rfl)⟩

end BatteryMonitor
